import Mathlib

/-!
# bulkfilepr: the decision and orchestration engine

A shallow embedding of the Go packages `internal/hash`, `internal/config`,
`internal/git` (the in-memory port `MockOperations` and the file helpers),
`internal/apply` (`Applier.Run`, `evaluateMode`, `determineBranchName`) and
`main` (`run`), followed by theorems about them.

Conventions of the embedding:

* a Go `[]byte` is a `List UInt8`; a Go `string` is a `String` where the program
  handles it as text, and the list of its bytes (`utf8.Encode`) where the
  program measures or slices it (`hash.TruncatedHash`);
* a Go `error` is an `Option Error`, `none` being `nil`;
* a Go `(*Result, error)` is a pair `Option Result × Option Error`;
* a method that mutates its receiver returns the new receiver next to its result;
* every call the engine makes on the port or on the file helpers is appended to
  `World.calls`, so that the order and the number of calls can be stated.
-/

namespace Bulkfilepr

/-- A Go byte slice. -/
abbrev Bytes := List UInt8

/-! ## Errors -/

/-- Go error values. `msg` is an error with a fixed text (`errors.New`, a
`fmt.Errorf` without arguments, or an error produced by the port or the operating
system). `wrap text cause` is `fmt.Errorf(text + ": %w", cause)`. The remaining
constructors are the errors built from a format with `%q` or `%s` arguments, kept
with their arguments:
`"not on default branch: current branch is %q, expected %q"`,
`"unknown mode: %s"` and
`"invalid mode: %q, must be one of: upsert, exists, match"`. -/
inductive Error where
  | msg (text : String)
  | wrap (text : String) (cause : Error)
  | notOnDefaultBranch (current expected : String)
  | unknownMode (mode : String)
  | invalidMode (s : String)
  deriving DecidableEq

/-! ## Standard library: `crypto/sha256` and `encoding/hex` -/

namespace sha256

/-- The round constants of SHA-256 (FIPS 180-4, section 4.2.2). -/
def K : List Nat :=
  [0x428a2f98, 0x71374491, 0xb5c0fbcf, 0xe9b5dba5, 0x3956c25b, 0x59f111f1, 0x923f82a4, 0xab1c5ed5] ++
  [0xd807aa98, 0x12835b01, 0x243185be, 0x550c7dc3, 0x72be5d74, 0x80deb1fe, 0x9bdc06a7, 0xc19bf174] ++
  [0xe49b69c1, 0xefbe4786, 0x0fc19dc6, 0x240ca1cc, 0x2de92c6f, 0x4a7484aa, 0x5cb0a9dc, 0x76f988da] ++
  [0x983e5152, 0xa831c66d, 0xb00327c8, 0xbf597fc7, 0xc6e00bf3, 0xd5a79147, 0x06ca6351, 0x14292967] ++
  [0x27b70a85, 0x2e1b2138, 0x4d2c6dfc, 0x53380d13, 0x650a7354, 0x766a0abb, 0x81c2c92e, 0x92722c85] ++
  [0xa2bfe8a1, 0xa81a664b, 0xc24b8b70, 0xc76c51a3, 0xd192e819, 0xd6990624, 0xf40e3585, 0x106aa070] ++
  [0x19a4c116, 0x1e376c08, 0x2748774c, 0x34b0bcb5, 0x391c0cb3, 0x4ed8aa4a, 0x5b9cca4f, 0x682e6ff3] ++
  [0x748f82ee, 0x78a5636f, 0x84c87814, 0x8cc70208, 0x90befffa, 0xa4506ceb, 0xbef9a3f7, 0xc67178f2]

/-- Addition of 32-bit words. -/
def add32 (x y : Nat) : Nat := (x + y) % 2 ^ 32

/-- Rotation of a 32-bit word to the right by `n` bits. -/
def rotr (n x : Nat) : Nat := ((x >>> n) ||| (x <<< (32 - n))) % 2 ^ 32

/-- Bitwise complement of a 32-bit word. -/
def not32 (x : Nat) : Nat := x ^^^ 0xffffffff

/-- The eight working words of the hash. -/
structure Digest where
  a : Nat
  b : Nat
  c : Nat
  d : Nat
  e : Nat
  f : Nat
  g : Nat
  h : Nat

/-- The initial hash value (FIPS 180-4, section 5.3.3). -/
def init : Digest :=
  ⟨0x6a09e667, 0xbb67ae85, 0x3c6ef372, 0xa54ff53a, 0x510e527f, 0x9b05688c, 0x1f83d9ab, 0x5be0cd19⟩

/-- Padding: a `0x80` byte, zero bytes up to 56 modulo 64, and the length in bits
as a big-endian 64-bit integer. -/
def pad (data : Bytes) : Bytes :=
  let len := data.length
  let zeros := (119 - len % 64) % 64
  let bits := (len * 8) % 2 ^ 64
  data ++ [(0x80 : UInt8)] ++ List.replicate zeros (0 : UInt8) ++
    (List.range 8).map (fun i => UInt8.ofNat ((bits >>> (8 * (7 - i))) % 256))

/-- The `i`-th big-endian 32-bit word of a block. -/
def word (p : Bytes) (i : Nat) : Nat :=
  (p.getD (4 * i) 0).toNat * 2 ^ 24 + (p.getD (4 * i + 1) 0).toNat * 2 ^ 16 +
    (p.getD (4 * i + 2) 0).toNat * 2 ^ 8 + (p.getD (4 * i + 3) 0).toNat

/-- One step of the message schedule; `w` holds the words so far, latest first. -/
def extend (w : List Nat) : List Nat :=
  let v1 := w.getD 1 0
  let v0 := w.getD 14 0
  let t1 := rotr 17 v1 ^^^ rotr 19 v1 ^^^ (v1 >>> 10)
  let t0 := rotr 7 v0 ^^^ rotr 18 v0 ^^^ (v0 >>> 3)
  add32 (add32 (add32 t1 (w.getD 6 0)) t0) (w.getD 15 0) :: w

/-- The 64 words of the message schedule of a block. -/
def schedule (p : Bytes) : List Nat :=
  (Nat.iterate extend 48 (((List.range 16).map (word p)).reverse)).reverse

/-- One round of the compression function, on a round constant and a schedule word. -/
def round (s : Digest) (kw : Nat × Nat) : Digest :=
  let t1 := add32 (add32 (add32 (add32 s.h
    (rotr 6 s.e ^^^ rotr 11 s.e ^^^ rotr 25 s.e)) ((s.e &&& s.f) ^^^ (not32 s.e &&& s.g))) kw.1) kw.2
  let t2 := add32 (rotr 2 s.a ^^^ rotr 13 s.a ^^^ rotr 22 s.a)
    ((s.a &&& s.b) ^^^ (s.a &&& s.c) ^^^ (s.b &&& s.c))
  ⟨add32 t1 t2, s.a, s.b, s.c, add32 s.d t1, s.e, s.f, s.g⟩

/-- The compression function on one 64-byte block. -/
def block (s : Digest) (p : Bytes) : Digest :=
  let r := (K.zip (schedule p)).foldl round s
  ⟨add32 s.a r.a, add32 s.b r.b, add32 s.c r.c, add32 s.d r.d,
   add32 s.e r.e, add32 s.f r.f, add32 s.g r.g, add32 s.h r.h⟩

/-- The compression function over the first `n` blocks of `p`. -/
def blocks : Nat → Digest → Bytes → Digest
  | 0, s, _ => s
  | n + 1, s, p => blocks n (block s (p.take 64)) (p.drop 64)

/-- The four bytes of a 32-bit word, most significant first. -/
def be32 (x : Nat) : Bytes :=
  [UInt8.ofNat (x / 2 ^ 24 % 256), UInt8.ofNat (x / 2 ^ 16 % 256),
   UInt8.ofNat (x / 2 ^ 8 % 256), UInt8.ofNat (x % 256)]

/-- Go `sha256.Sum256`: the 32-byte SHA-256 checksum of the data. -/
def Sum256 (data : Bytes) : Bytes :=
  let p := pad data
  let s := blocks (p.length / 64) init p
  be32 s.a ++ be32 s.b ++ be32 s.c ++ be32 s.d ++ be32 s.e ++ be32 s.f ++ be32 s.g ++ be32 s.h

end sha256

namespace hex

/-- Go `hextable` of `encoding/hex`: the sixteen lowercase digits. -/
def hextable : List Char := "0123456789abcdef".data

/-- Go `hex.EncodeToString`: two digits per byte, high nibble first. -/
def EncodeToString (src : Bytes) : String :=
  String.mk (src.flatMap
    (fun v => [hextable.getD (v.toNat / 16) '0', hextable.getD (v.toNat % 16) '0']))

end hex

/-! ## Standard library: `unicode/utf8`

A Go string is a sequence of bytes. Where the program handles a string as
text, it is modelled by a `String`; `utf8.Encode` gives the bytes of the Go
string with that text and `utf8.Decode` the text of the Go string with given
bytes. -/

/-- The bytes of the Go string with the text `s`: its UTF-8 encoding. -/
def utf8.Encode (s : String) : Bytes :=
  (s.data.map String.utf8EncodeChar).flatten

/-- Go `utf8.DecodeRune`: the character whose encoding starts `b` and the number
of bytes of that encoding, and U+FFFD with width 1 when no encoding of a
character starts `b`. The bytes the first byte announces are put together and
accepted when they are the encoding of the character they give. -/
def utf8.DecodeRune (b : Bytes) : Char × Nat :=
  match b with
  | [] => (Char.ofNat 0xFFFD, 0)
  | b0 :: _ =>
    let n := if b0 < 0x80 then 1 else if b0 < 0xE0 then 2 else if b0 < 0xF0 then 3 else 4
    let v := match b.take n with
      | [x] => x.toNat
      | [x, y] => (x.toNat % 32) * 64 + y.toNat % 64
      | [x, y, z] => (x.toNat % 16) * 4096 + (y.toNat % 64) * 64 + z.toNat % 64
      | [x, y, z, u] =>
        (x.toNat % 8) * 262144 + (y.toNat % 64) * 4096 + (z.toNat % 64) * 64 + u.toNat % 64
      | _ => 0
    if String.utf8EncodeChar (Char.ofNat v) = b.take n then (Char.ofNat v, n)
    else (Char.ofNat 0xFFFD, 1)

/-- The characters Go reads in a string (`for range`, conversion to runes), with
`skip` bytes of the character just read still to pass. -/
def utf8.runes : Nat → Bytes → List Char
  | _, [] => []
  | skip + 1, _ :: rest => utf8.runes skip rest
  | 0, b0 :: rest =>
    (utf8.DecodeRune (b0 :: rest)).1 ::
      utf8.runes ((utf8.DecodeRune (b0 :: rest)).2 - 1) rest

/-- The text of the Go string with the bytes `b`. -/
def utf8.Decode (b : Bytes) : String := String.mk (utf8.runes 0 b)

/-! ## Package `hash` -/

/-- Go `hash.SHA256Bytes`: the SHA-256 hash of a byte slice as a hex string. -/
def SHA256Bytes (data : Bytes) : String :=
  let h := sha256.Sum256 data
  hex.EncodeToString h

/-- Go `hash.TruncatedHash`: `hash` when `len(hash) <= n`, else `hash[:n]`. Go's
`len` and its slices count bytes, so the string is given and returned as its
bytes; a slice may end inside a character. The slice `hash[:n]` is out of range
for a negative `n`, a run-time panic: `none`. -/
def TruncatedHash (hash : Bytes) (n : Int) : Option Bytes :=
  if (hash.length : Int) ≤ n then some hash
  else if 0 ≤ n then some (hash.take n.toNat)
  else none

/-! ## Package `config` -/

/-- Go `config.Mode`, a string type. -/
abbrev Mode := String

/-- Mode `upsert`: always write the new file. -/
def ModeUpsert : Mode := "upsert"

/-- Mode `exists`: only update if the file already exists. -/
def ModeExists : Mode := "exists"

/-- Mode `match`: only update if the file exists and has the expected hash. -/
def ModeMatch : Mode := "match"

/-- Go `config.Config`. -/
structure Config where
  Mode : Mode := ""
  RepoPath : String := ""
  NewFile : String := ""
  Repo : String := ""
  Branch : String := ""
  CommitMessage : String := ""
  PRTitle : String := ""
  PRBody : String := ""
  Draft : Bool := false
  DryRun : Bool := false
  Remote : String := ""
  ExpectSHA256 : String := ""

/-- Go `Config.GetCommitMessage`. -/
def Config.GetCommitMessage (c : Config) : String :=
  if c.CommitMessage ≠ "" then c.CommitMessage
  else "chore: update " ++ c.RepoPath

/-- Go `Config.GetPRTitle`. -/
def Config.GetPRTitle (c : Config) : String :=
  if c.PRTitle ≠ "" then c.PRTitle
  else "Update " ++ c.RepoPath

/-- Go `Config.GetPRBody`. -/
def Config.GetPRBody (c : Config) : String :=
  if c.PRBody ≠ "" then c.PRBody
  else "This PR updates the standardized file at `" ++ c.RepoPath ++ "`."

/-- Go `config.ParseMode`. -/
def ParseMode (s : String) : Mode × Option Error :=
  if s = ModeUpsert then (ModeUpsert, none)
  else if s = ModeExists then (ModeExists, none)
  else if s = ModeMatch then (ModeMatch, none)
  else ("", some (Error.invalidMode s))

/-- Go `config.DefaultConfig`. -/
def DefaultConfig : Config :=
  { Repo := ".", Remote := "origin" }

/-- Go `Config.Validate`. -/
def Config.Validate (c : Config) : Option Error :=
  if c.Mode = "" then some (Error.msg "mode is required")
  else if c.RepoPath = "" then some (Error.msg "repo-path is required")
  else if c.NewFile = "" then some (Error.msg "new-file is required")
  else if c.Mode = ModeMatch ∧ c.ExpectSHA256 = "" then
    some (Error.msg "expect-sha256 is required when mode is \x27match\x27")
  else none

/-- Modelled from the spec: the whitespace trimmed from an entry of
`acceptedFingerprints`, taken as the white space of Go `unicode.IsSpace`, by
code point. Part of `Config.GetExpectedHashes`, which is missing from
`config.go`. -/
def isSpace (c : Char) : Bool :=
  [0x09, 0x0a, 0x0b, 0x0c, 0x0d, 0x20, 0x85, 0xa0, 0x1680, 0x2028, 0x2029, 0x202f, 0x205f,
    0x3000].contains c.toNat || (0x2000 ≤ c.toNat && c.toNat ≤ 0x200a)

/-- Modelled from the spec: "trimming whitespace" of an entry, the removal of
the white space before its first and after its last other character. Part of
`Config.GetExpectedHashes`, which is missing from `config.go`. -/
def trimSpace (cs : List Char) : List Char :=
  ((cs.dropWhile isSpace).reverse.dropWhile isSpace).reverse

/-- Modelled from the spec: `Config.GetExpectedHashes`, which `config_test.go`
calls and the usage text of `main.go` announces, and which `config.go` does not
define. The spec reads: "parsed by splitting on commas and trimming whitespace,
dropping empty entries". -/
def Config.GetExpectedHashes (c : Config) : List String :=
  (((c.ExpectSHA256.data.splitOn ',').map trimSpace).filter (fun p => !p.isEmpty)).map String.mk

/-! ## Package `git`: the in-memory port -/

/-- An entry of `MockOperations.Pushes`. -/
structure PushRecord where
  Remote : String
  Branch : String
  deriving DecidableEq

/-- An entry of `MockOperations.CreatedPRs`. -/
structure PRRecord where
  Base : String
  Head : String
  Title : String
  Body : String
  Draft : Bool
  deriving DecidableEq

/-- Go `git.MockOperations`: the in-memory implementation of `git.Operations`. -/
structure MockOperations where
  DefaultBranch : String := ""
  CurrentBranch : String := ""
  IsClean : Bool := false
  CreatedBranches : List String := []
  SwitchedBranches : List String := []
  AddedFiles : List String := []
  Commits : List String := []
  Pushes : List PushRecord := []
  CreatedPRs : List PRRecord := []
  PRURLToReturn : String := ""
  DefaultBranchErr : Option Error := none
  CurrentBranchErr : Option Error := none
  IsCleanErr : Option Error := none
  CreateBranchErr : Option Error := none
  SwitchBranchErr : Option Error := none
  AddFileErr : Option Error := none
  CommitErr : Option Error := none
  PushErr : Option Error := none
  CreatePRErr : Option Error := none
  deriving DecidableEq

/-- Go `git.NewMockOperations`. -/
def NewMockOperations : MockOperations :=
  { DefaultBranch := "main", CurrentBranch := "main", IsClean := true,
    PRURLToReturn := "https://github.com/owner/repo/pull/1" }

/-- Go `MockOperations.GetDefaultBranch`. -/
def MockOperations.GetDefaultBranch (m : MockOperations) : String × Option Error :=
  match m.DefaultBranchErr with
  | some err => ("", some err)
  | none => (m.DefaultBranch, none)

/-- Go `MockOperations.GetCurrentBranch`. -/
def MockOperations.GetCurrentBranch (m : MockOperations) : String × Option Error :=
  match m.CurrentBranchErr with
  | some err => ("", some err)
  | none => (m.CurrentBranch, none)

/-- Go `MockOperations.IsWorkingTreeClean`. -/
def MockOperations.IsWorkingTreeClean (m : MockOperations) : Bool × Option Error :=
  match m.IsCleanErr with
  | some err => (false, some err)
  | none => (m.IsClean, none)

/-- Go `MockOperations.CreateBranch`. -/
def MockOperations.CreateBranch (m : MockOperations) (name : String) :
    Option Error × MockOperations :=
  match m.CreateBranchErr with
  | some err => (some err, m)
  | none => (none, { m with CreatedBranches := m.CreatedBranches ++ [name], CurrentBranch := name })

/-- Go `MockOperations.SwitchBranch`. -/
def MockOperations.SwitchBranch (m : MockOperations) (name : String) :
    Option Error × MockOperations :=
  match m.SwitchBranchErr with
  | some err => (some err, m)
  | none =>
    (none, { m with SwitchedBranches := m.SwitchedBranches ++ [name], CurrentBranch := name })

/-- Go `MockOperations.AddFile`. -/
def MockOperations.AddFile (m : MockOperations) (path : String) :
    Option Error × MockOperations :=
  match m.AddFileErr with
  | some err => (some err, m)
  | none => (none, { m with AddedFiles := m.AddedFiles ++ [path] })

/-- Go `MockOperations.Commit`. -/
def MockOperations.Commit (m : MockOperations) (message : String) :
    Option Error × MockOperations :=
  match m.CommitErr with
  | some err => (some err, m)
  | none => (none, { m with Commits := m.Commits ++ [message] })

/-- Go `MockOperations.Push`. -/
def MockOperations.Push (m : MockOperations) (remote branch : String) :
    Option Error × MockOperations :=
  match m.PushErr with
  | some err => (some err, m)
  | none => (none, { m with Pushes := m.Pushes ++ [⟨remote, branch⟩] })

/-- Go `MockOperations.CreatePR`. -/
def MockOperations.CreatePR (m : MockOperations) (base head title body : String) (draft : Bool) :
    (String × Option Error) × MockOperations :=
  match m.CreatePRErr with
  | some err => (("", some err), m)
  | none =>
    ((m.PRURLToReturn, none),
      { m with CreatedPRs := m.CreatedPRs ++ [⟨base, head, title, body, draft⟩] })

/-! ## Package `git`: the file helpers

`git.FileExists`, `git.ReadFile` and `git.WriteFile` call the standard library
(`path/filepath` and `os`). The operating system is modelled like the port, by
an in-memory double: the path functions are parameters, the files and
directories are a map from full paths, and the two failing calls of `WriteFile`
have an error slot. -/

/-- What `os.Stat` and `os.ReadFile` find at a path: nothing (`os.Stat` fails), a
file with its bytes, or an entry `os.Stat` accepts but `os.ReadFile` fails on
with `err` (a directory, for which the error is `ErrIsDir`, or a file without
read permission). -/
inductive Node where
  | absent
  | file (content : Bytes)
  | unreadable (err : Error)

/-- The operating-system services the file helpers use. `Join` is
`filepath.Join`, `Dir` is `filepath.Dir`; `node` is what is at each full path;
`MkdirAllErr dir` and `WriteFileErr path` are the errors `os.MkdirAll` and
`os.WriteFile` return there (`none`: success). A failed `os.MkdirAll` is taken
to have made no directory, and a failed `os.WriteFile` to leave the file as it
was. -/
structure FileSys where
  Join : String → String → String
  Dir : String → String
  node : String → Node
  MkdirAllErr : String → Option Error
  WriteFileErr : String → Option Error

/-- The error of `os.ReadFile` on a path that does not exist. -/
def ErrNotExist : Error := Error.msg "no such file or directory"

/-- Go `git.FileExists`: `os.Stat` of the joined path returns no error. -/
def git.FileExists (fs : FileSys) (repoDir filePath : String) : Bool :=
  let fullPath := fs.Join repoDir filePath
  match fs.node fullPath with
  | Node.absent => false
  | _ => true

/-- Go `git.ReadFile`: `os.ReadFile` of the joined path. -/
def git.ReadFile (fs : FileSys) (repoDir filePath : String) : Bytes × Option Error :=
  let fullPath := fs.Join repoDir filePath
  match fs.node fullPath with
  | Node.file content => (content, none)
  | Node.unreadable err => ([], some err)
  | Node.absent => ([], some ErrNotExist)

/-- The error of `os.ReadFile` on a directory. -/
def ErrIsDir : Error := Error.msg "is a directory"

/-- The path `p` and the directories above it: `p`, `Dir p`, `Dir (Dir p)` and so
on, up to the path that is its own parent (`.` or `/` for `filepath.Dir`), in at
most `n` steps. -/
def FileSys.chain (fs : FileSys) : Nat → String → List String
  | 0, p => [p]
  | n + 1, p => if fs.Dir p = p then [p] else p :: fs.chain n (fs.Dir p)

/-- The directories `os.MkdirAll dir` makes sure of: `dir` and every directory
above it. Each step of `filepath.Dir` but the last one to `.` shortens the path,
so the length of `dir` bounds the number of steps. -/
def FileSys.ancestors (fs : FileSys) (dir : String) : List String :=
  fs.chain dir.length dir

/-- Go `os.MkdirAll`: when it succeeds, `dir` and every directory above it that
was absent is a directory afterwards; what was there stays. -/
def os.MkdirAll (fs : FileSys) (dir : String) : Option Error × FileSys :=
  match fs.MkdirAllErr dir with
  | some err => (some err, fs)
  | none =>
    (none,
      { fs with
        node := fun p =>
          match fs.node p with
          | Node.absent =>
            if p ∈ fs.ancestors dir then Node.unreadable ErrIsDir else Node.absent
          | n => n })

/-- Go `os.WriteFile`: when it succeeds, `path` is a file with the bytes
`content`, whatever was there. -/
def os.WriteFile (fs : FileSys) (path : String) (content : Bytes) : Option Error × FileSys :=
  match fs.WriteFileErr path with
  | some err => (some err, fs)
  | none =>
    (none, { fs with node := fun p => if p = path then Node.file content else fs.node p })

/-- Go `git.WriteFile`: `os.MkdirAll` of the directory, then `os.WriteFile`. -/
def git.WriteFile (fs : FileSys) (repoDir filePath : String) (content : Bytes) :
    Option Error × FileSys :=
  let fullPath := fs.Join repoDir filePath
  let dir := fs.Dir fullPath
  match os.MkdirAll fs dir with
  | (some err, fs) => (some (Error.wrap ("failed to create directory " ++ dir) err), fs)
  | (none, fs) => os.WriteFile fs fullPath content

/-! ## The world the engine runs in -/

/-- A call of the engine on the port (`git.Operations`) or on a file helper, with
its arguments. -/
inductive Call where
  | GetDefaultBranch
  | GetCurrentBranch
  | IsWorkingTreeClean
  | BranchExists (name remote : String)
  | CreateBranch (name : String)
  | SwitchBranch (name : String)
  | AddFile (path : String)
  | Commit (message : String)
  | Push (remote branch : String)
  | CreatePR (base head title body : String) (draft : Bool)
  | FileExists (repoDir filePath : String)
  | ReadFile (repoDir filePath : String)
  | WriteFile (repoDir filePath : String) (content : Bytes)
  deriving DecidableEq

/-- The mutating calls: everything but the three queries of the port, the
branch-existence query and the two reading file helpers. -/
def Call.isMutating : Call → Bool
  | Call.CreateBranch _ => true
  | Call.SwitchBranch _ => true
  | Call.AddFile _ => true
  | Call.Commit _ => true
  | Call.Push _ _ => true
  | Call.CreatePR _ _ _ _ _ => true
  | Call.WriteFile _ _ _ => true
  | _ => false

/-- The state outside the engine: the port `gitOps` the applier holds a pointer
to, the file system, and the calls made so far, oldest first. The port is given
by the record of the in-memory `MockOperations`: what its queries answer, which
of its operations fail, and what it has recorded. `checkout name` is what a
successful `SwitchBranch(name)` of the port does to the files of the working
tree: nothing with `MockOperations` (the default), while
`RealOperations.SwitchBranch` runs `git checkout name`, which puts the files of
that branch in place of those that differ. -/
structure World where
  gitOps : MockOperations
  fs : FileSys
  calls : List Call := []
  checkout : String → FileSys → FileSys := fun _ fs => fs

/-- The call `gitOps.GetDefaultBranch()`, recorded. -/
def World.GetDefaultBranch (w : World) : (String × Option Error) × World :=
  (w.gitOps.GetDefaultBranch, { w with calls := w.calls ++ [Call.GetDefaultBranch] })

/-- The call `gitOps.GetCurrentBranch()`, recorded. -/
def World.GetCurrentBranch (w : World) : (String × Option Error) × World :=
  (w.gitOps.GetCurrentBranch, { w with calls := w.calls ++ [Call.GetCurrentBranch] })

/-- The call `gitOps.IsWorkingTreeClean()`, recorded. -/
def World.IsWorkingTreeClean (w : World) : (Bool × Option Error) × World :=
  (w.gitOps.IsWorkingTreeClean, { w with calls := w.calls ++ [Call.IsWorkingTreeClean] })

/-- The call `gitOps.CreateBranch(name)`, recorded. -/
def World.CreateBranch (w : World) (name : String) : Option Error × World :=
  ((w.gitOps.CreateBranch name).1,
    { w with gitOps := (w.gitOps.CreateBranch name).2,
             calls := w.calls ++ [Call.CreateBranch name] })

/-- The call `gitOps.SwitchBranch(name)`, recorded; when it succeeds the files
are those the checkout leaves. -/
def World.SwitchBranch (w : World) (name : String) : Option Error × World :=
  ((w.gitOps.SwitchBranch name).1,
    { w with gitOps := (w.gitOps.SwitchBranch name).2,
             fs := match (w.gitOps.SwitchBranch name).1 with
                   | none => w.checkout name w.fs
                   | some _ => w.fs,
             calls := w.calls ++ [Call.SwitchBranch name] })

/-- The call `gitOps.AddFile(path)`, recorded. -/
def World.AddFile (w : World) (path : String) : Option Error × World :=
  ((w.gitOps.AddFile path).1,
    { w with gitOps := (w.gitOps.AddFile path).2,
             calls := w.calls ++ [Call.AddFile path] })

/-- The call `gitOps.Commit(message)`, recorded. -/
def World.Commit (w : World) (message : String) : Option Error × World :=
  ((w.gitOps.Commit message).1,
    { w with gitOps := (w.gitOps.Commit message).2,
             calls := w.calls ++ [Call.Commit message] })

/-- The call `gitOps.Push(remote, branch)`, recorded. -/
def World.Push (w : World) (remote branch : String) : Option Error × World :=
  ((w.gitOps.Push remote branch).1,
    { w with gitOps := (w.gitOps.Push remote branch).2,
             calls := w.calls ++ [Call.Push remote branch] })

/-- The call `gitOps.CreatePR(base, head, title, body, draft)`, recorded. -/
def World.CreatePR (w : World) (base head title body : String) (draft : Bool) :
    (String × Option Error) × World :=
  ((w.gitOps.CreatePR base head title body draft).1,
    { w with gitOps := (w.gitOps.CreatePR base head title body draft).2,
             calls := w.calls ++ [Call.CreatePR base head title body draft] })

/-- The call `git.FileExists(repoDir, filePath)`, recorded. -/
def World.FileExists (w : World) (repoDir filePath : String) : Bool × World :=
  (git.FileExists w.fs repoDir filePath,
    { w with calls := w.calls ++ [Call.FileExists repoDir filePath] })

/-- The call `git.ReadFile(repoDir, filePath)`, recorded. -/
def World.ReadFile (w : World) (repoDir filePath : String) : (Bytes × Option Error) × World :=
  (git.ReadFile w.fs repoDir filePath,
    { w with calls := w.calls ++ [Call.ReadFile repoDir filePath] })

/-- The call `git.WriteFile(repoDir, filePath, content)`, recorded. -/
def World.WriteFile (w : World) (repoDir filePath : String) (content : Bytes) :
    Option Error × World :=
  ((git.WriteFile w.fs repoDir filePath content).1,
    { w with fs := (git.WriteFile w.fs repoDir filePath content).2,
             calls := w.calls ++ [Call.WriteFile repoDir filePath content] })

/-! ## Package `apply` -/

/-- Go `apply.Result`: the outcome of an apply operation. -/
structure Result where
  DefaultBranch : String := ""
  Action : String := ""
  BranchName : String := ""
  PRURL : String := ""
  NoActionReason : String := ""
  deriving DecidableEq

/-- Go `apply.Applier`. The field `gitOps` of the source is a pointer to the
port; the port it points to is `World.gitOps`. -/
structure Applier where
  cfg : Config
  repoDir : String
  newContent : Bytes

/-- Go `apply.NewApplier`; its argument `gitOps` is the port of the world. -/
def NewApplier (cfg : Config) (newContent : Bytes) : Applier :=
  { cfg := cfg, repoDir := cfg.Repo, newContent := newContent }

/-- Go `Applier.evaluateMode`: whether the update should proceed, as
`(shouldUpdate, reason, error)`. The `switch` on the mode is the chain of tests
below, in the order of its cases. -/
def Applier.evaluateMode (a : Applier) (w : World) : (Bool × String × Option Error) × World :=
  match w.FileExists a.repoDir a.cfg.RepoPath with
  | (fileExists, w) =>
    if a.cfg.Mode = ModeUpsert then
      -- Always write unless content is identical
      if fileExists then
        match w.ReadFile a.repoDir a.cfg.RepoPath with
        | ((_, some err), w) =>
          ((false, "", some (Error.wrap "failed to read existing file" err)), w)
        | ((existingContent, none), w) =>
          if existingContent = a.newContent then
            ((false, "file content is already identical", none), w)
          else ((true, "", none), w)
      else ((true, "", none), w)
    else if a.cfg.Mode = ModeExists then
      if !fileExists then ((false, "file does not exist", none), w)
      else
        match w.ReadFile a.repoDir a.cfg.RepoPath with
        | ((_, some err), w) =>
          ((false, "", some (Error.wrap "failed to read existing file" err)), w)
        | ((existingContent, none), w) =>
          if existingContent = a.newContent then
            ((false, "file content is already identical", none), w)
          else ((true, "", none), w)
    else if a.cfg.Mode = ModeMatch then
      if !fileExists then ((false, "file does not exist", none), w)
      else
        match w.ReadFile a.repoDir a.cfg.RepoPath with
        | ((_, some err), w) =>
          ((false, "", some (Error.wrap "failed to read existing file" err)), w)
        | ((existingContent, none), w) =>
          let existingHash := SHA256Bytes existingContent
          if existingHash ≠ a.cfg.ExpectSHA256 then
            ((false, "file hash mismatch: expected " ++ a.cfg.ExpectSHA256 ++ ", got "
                ++ existingHash, none), w)
          else if existingContent = a.newContent then
            ((false, "file content is already identical", none), w)
          else ((true, "", none), w)
    else ((false, "", some (Error.unknownMode a.cfg.Mode)), w)

/-- Go `Applier.determineBranchName`. The slice of `TruncatedHash` is in range
because its bound is the constant 12. -/
def Applier.determineBranchName (a : Applier) : String :=
  if a.cfg.Branch ≠ "" then a.cfg.Branch
  else
    -- Generate branch name from hash of new file content
    let contentHash := SHA256Bytes a.newContent
    let truncatedHash := (TruncatedHash (utf8.Encode contentHash) 12).get (by
      unfold TruncatedHash
      split
      · rfl
      · rfl)
    "bulkfilepr/" ++ utf8.Decode truncatedHash

/-- The deferred function of `Run`: when `updateErr` is set, a best-effort
switch back to the default branch, the error of which is dropped. -/
def Applier.cleanup (updateErr : Option Error) (defaultBranch : String) (w : World) : World :=
  match updateErr with
  | some _ => (w.SwitchBranch defaultBranch).2
  | none => w

/-- Go `Applier.Run`. Every `return` that follows the `defer` statement runs
`cleanup` on the value `updateErr` has at that point. -/
def Applier.Run (a : Applier) (w : World) : (Option Result × Option Error) × World :=
  let result : Result := {}
  -- Step 1: Detect default branch
  match w.GetDefaultBranch with
  | ((_, some err), w) => ((none, some (Error.wrap "failed to detect default branch" err)), w)
  | ((defaultBranch, none), w) =>
  let result := { result with DefaultBranch := defaultBranch }
  -- Step 2: Verify on default branch
  match w.GetCurrentBranch with
  | ((_, some err), w) => ((none, some (Error.wrap "failed to get current branch" err)), w)
  | ((currentBranch, none), w) =>
  if currentBranch ≠ defaultBranch then
    ((none, some (Error.notOnDefaultBranch currentBranch defaultBranch)), w)
  else
  -- Step 3: Verify clean working tree
  match w.IsWorkingTreeClean with
  | ((_, some err), w) => ((none, some (Error.wrap "failed to check working tree status" err)), w)
  | ((clean, none), w) =>
  if !clean then
    ((none, some (Error.msg "working tree is not clean: please commit or stash your changes")), w)
  else
  -- Step 4: Evaluate mode conditions
  match a.evaluateMode w with
  | ((_, _, some err), w) => ((none, some err), w)
  | ((shouldUpdate, reason, none), w) =>
  if !shouldUpdate then
    ((some { result with Action := "no action taken", NoActionReason := reason }, none), w)
  else
  -- Step 5: Determine branch name
  let branchName := a.determineBranchName
  let result := { result with BranchName := branchName }
  -- Step 6: Execute update (or report dry-run)
  if a.cfg.DryRun then
    ((some { result with Action := "would update" }, none), w)
  else
  -- Step 7: Create branch
  match w.CreateBranch branchName with
  | (some err, w) => ((none, some (Error.wrap "failed to create branch" err)), w)
  | (none, w) =>
  -- from here on the deferred cleanup is registered
  -- Step 8: Write file
  match w.WriteFile a.repoDir a.cfg.RepoPath a.newContent with
  | (some err, w) =>
    let updateErr := Error.wrap "failed to write file" err
    ((none, some updateErr), Applier.cleanup (some updateErr) defaultBranch w)
  | (none, w) =>
  -- Step 9: Stage file
  match w.AddFile a.cfg.RepoPath with
  | (some err, w) =>
    let updateErr := Error.wrap "failed to stage file" err
    ((none, some updateErr), Applier.cleanup (some updateErr) defaultBranch w)
  | (none, w) =>
  -- Step 10: Commit
  match w.Commit a.cfg.GetCommitMessage with
  | (some err, w) =>
    let updateErr := Error.wrap "failed to commit" err
    ((none, some updateErr), Applier.cleanup (some updateErr) defaultBranch w)
  | (none, w) =>
  -- Step 11: Push
  match w.Push a.cfg.Remote branchName with
  | (some err, w) =>
    let updateErr := Error.wrap "failed to push" err
    ((none, some updateErr), Applier.cleanup (some updateErr) defaultBranch w)
  | (none, w) =>
  -- Step 12: Create PR
  match w.CreatePR defaultBranch branchName a.cfg.GetPRTitle a.cfg.GetPRBody a.cfg.Draft with
  | ((_, some err), w) =>
    let updateErr := Error.wrap "failed to create PR" err
    ((none, some updateErr), Applier.cleanup (some updateErr) defaultBranch w)
  | ((prURL, none), w) =>
  let result := { result with PRURL := prURL, Action := "updated" }
  -- Step 13: Switch back to default branch (best effort)
  match w.SwitchBranch defaultBranch with
  | (_, w) => ((some result, none), Applier.cleanup none defaultBranch w)

/-! ## Standard library: `flag` and `strconv.ParseBool` -/

/-- Go `strconv.ParseBool`, with which a boolean flag reads the value given after
`=`. -/
def strconv.ParseBool (s : String) : Option Bool :=
  if s ∈ ["1", "t", "T", "TRUE", "true", "True"] then some true
  else if s ∈ ["0", "f", "F", "FALSE", "false", "False"] then some false
  else none

/-- The variables of the flags that `run` defines on its flag set, with the
defaults of their definitions. -/
structure Flags where
  mode : String := ""
  repoPath : String := ""
  newFile : String := ""
  repo : String := "."
  branch : String := ""
  commitMessage : String := ""
  prTitle : String := ""
  prBody : String := ""
  draft : Bool := false
  dryRun : Bool := false
  remote : String := "origin"
  expectSHA256 : String := ""
  showVersion : Bool := false

/-- The names of the string flags of `run`. -/
def flag.stringFlags : List String :=
  ["mode", "repo-path", "new-file", "repo", "branch", "commit-message", "pr-title", "pr-body",
   "remote", "expect-sha256"]

/-- The names of the boolean flags of `run`. -/
def flag.boolFlags : List String := ["draft", "dry-run", "version"]

/-- Setting the string flag `name` to `value`. -/
def Flags.setString (f : Flags) (name value : String) : Flags :=
  if name = "mode" then { f with mode := value }
  else if name = "repo-path" then { f with repoPath := value }
  else if name = "new-file" then { f with newFile := value }
  else if name = "repo" then { f with repo := value }
  else if name = "branch" then { f with branch := value }
  else if name = "commit-message" then { f with commitMessage := value }
  else if name = "pr-title" then { f with prTitle := value }
  else if name = "pr-body" then { f with prBody := value }
  else if name = "remote" then { f with remote := value }
  else if name = "expect-sha256" then { f with expectSHA256 := value }
  else f

/-- Setting the boolean flag `name` to `b`. -/
def Flags.setBool (f : Flags) (name : String) (b : Bool) : Flags :=
  if name = "draft" then { f with draft := b }
  else if name = "dry-run" then { f with dryRun := b }
  else if name = "version" then { f with showVersion := b }
  else f

/-- The errors of Go `FlagSet.Parse`: `ErrHelp` when `-h` or `-help` is given and
not defined, and the failures of `parseOne`. -/
inductive flag.Error
  | ErrHelp
  | badFlag (arg : String)
  | notDefined (name : String)
  | invalidBool (value name : String)
  | needsArgument (name : String)
  deriving DecidableEq, Repr

/-- How Go `FlagSet.parseOne` reads one argument: not a flag (parsing stops), the
terminator `--` (parsing stops), a malformed flag, or a flag name with the value
given after `=`, if any. -/
inductive flag.Arg
  | positional
  | terminator
  | malformed
  | named (name : String) (value : Option String)
  deriving DecidableEq, Repr

/-- The reading of one argument by Go `FlagSet.parseOne`: an argument shorter
than two characters or not starting with `-` is not a flag; one or two leading
`-` are dropped; a name that is empty or starts with `-` or `=` is malformed; the
first `=` after the first character of the name splits name and value. The
characters tested are ASCII, so reading by character agrees with reading by
byte. -/
def flag.readArg (s : String) : flag.Arg :=
  match s.data with
  | c0 :: c1 :: cs =>
    if c0 ≠ '-' then flag.Arg.positional
    else if c1 = '-' ∧ cs = [] then flag.Arg.terminator
    else
      match (if c1 = '-' then cs else c1 :: cs) with
      | [] => flag.Arg.malformed
      | n0 :: tl =>
        if n0 = '-' ∨ n0 = '=' then flag.Arg.malformed
        else if (tl.takeWhile (fun c => c ≠ '=')).length < tl.length then
          flag.Arg.named (String.mk (n0 :: tl.takeWhile (fun c => c ≠ '=')))
            (some (String.mk (tl.drop ((tl.takeWhile (fun c => c ≠ '=')).length + 1))))
        else flag.Arg.named (String.mk (n0 :: tl)) none
  | _ => flag.Arg.positional

/-- The outcome of one round of Go `FlagSet.parseOne`: parsing ends, with the
error if there is one, or a flag was seen and set, and `tookNext` tells whether
its value was the argument after it. -/
inductive flag.Step
  | done (err : Option flag.Error)
  | seen (f : Flags) (tookNext : Bool)

/-- Go `FlagSet.parseOne` on the flag set of `run`, for the first remaining
argument `s` and the argument `next` after it, if there is one: a boolean flag
takes its value only after `=`, a string flag after `=` or from the next
argument; an undefined `help` or `h` gives `ErrHelp`. -/
def flag.parseOne (f : Flags) (s : String) (next : Option String) : flag.Step :=
  match flag.readArg s with
  | flag.Arg.positional => flag.Step.done none
  | flag.Arg.terminator => flag.Step.done none
  | flag.Arg.malformed => flag.Step.done (some (flag.Error.badFlag s))
  | flag.Arg.named name value =>
    if name ∈ flag.boolFlags then
      match value with
      | none => flag.Step.seen (f.setBool name true) false
      | some v =>
        match strconv.ParseBool v with
        | some b => flag.Step.seen (f.setBool name b) false
        | none => flag.Step.done (some (flag.Error.invalidBool v name))
    else if name ∈ flag.stringFlags then
      match value, next with
      | some v, _ => flag.Step.seen (f.setString name v) false
      | none, some v => flag.Step.seen (f.setString name v) true
      | none, none => flag.Step.done (some (flag.Error.needsArgument name))
    else if name = "help" ∨ name = "h" then flag.Step.done (some flag.Error.ErrHelp)
    else flag.Step.done (some (flag.Error.notDefined name))

/-- Go `FlagSet.Parse` on the flag set of `run` (error handling
`ContinueOnError`): `parseOne` is repeated on the remaining arguments while it
sees a flag; the first failure ends the parsing with its error. -/
def flag.Parse : Flags → List String → Option flag.Error × Flags
  | f, [] => (none, f)
  | f, [s] =>
    match flag.parseOne f s none with
    | flag.Step.done err => (err, f)
    | flag.Step.seen f1 _ => (none, f1)
  | f, s :: v :: rest =>
    match flag.parseOne f s (some v) with
    | flag.Step.done err => (err, f)
    | flag.Step.seen f1 true => flag.Parse f1 rest
    | flag.Step.seen f1 false => flag.Parse f1 (v :: rest)

/-- Whether one of the arguments reads as the flag `name`, with or without a
value after `=`. -/
def flag.given (name : String) (args : List String) : Bool :=
  args.any (fun s =>
    match flag.readArg s with
    | flag.Arg.named n _ => n = name
    | _ => false)

/-! ## Package `main` -/

/-- Go `exitSuccess`. -/
def exitSuccess : Int := 0

/-- Go `exitOperational`. -/
def exitOperational : Int := 1

/-- Go `exitInvalidUsage`. -/
def exitInvalidUsage : Int := 2

/-- Go `run` from `fs.Parse(args)` to its end, on the arguments left after the
subcommand. `osReadFile` is `os.ReadFile`; the port made by
`git.NewRealOperations` and the file system are those of the world; what is
printed is not modelled. The world returned is the one the engine leaves, and
the world given when the engine is not run. -/
def run.parse (osReadFile : String → Bytes × Option Error) (args : List String)
    (w : World) : Int × World :=
  match flag.Parse {} args with
  | (some err, _) =>
    if err = flag.Error.ErrHelp then (exitSuccess, w) else (exitInvalidUsage, w)
  | (none, fl) =>
    if fl.showVersion then (exitSuccess, w)
    else if fl.mode = "" then (exitInvalidUsage, w)
    else if fl.repoPath = "" then (exitInvalidUsage, w)
    else if fl.newFile = "" then (exitInvalidUsage, w)
    else
      match ParseMode fl.mode with
      | (_, some _) => (exitInvalidUsage, w)
      | (parsedMode, none) =>
        match Config.Validate
            { Mode := parsedMode, RepoPath := fl.repoPath, NewFile := fl.newFile,
              Repo := fl.repo, Branch := fl.branch, CommitMessage := fl.commitMessage,
              PRTitle := fl.prTitle, PRBody := fl.prBody, Draft := fl.draft,
              DryRun := fl.dryRun, Remote := fl.remote, ExpectSHA256 := fl.expectSHA256 } with
        | some _ => (exitInvalidUsage, w)
        | none =>
          match osReadFile fl.newFile with
          | (_, some _) => (exitOperational, w)
          | (newContent, none) =>
            match (NewApplier
                { Mode := parsedMode, RepoPath := fl.repoPath, NewFile := fl.newFile,
                  Repo := fl.repo, Branch := fl.branch, CommitMessage := fl.commitMessage,
                  PRTitle := fl.prTitle, PRBody := fl.prBody, Draft := fl.draft,
                  DryRun := fl.dryRun, Remote := fl.remote,
                  ExpectSHA256 := fl.expectSHA256 } newContent).Run w with
            | ((_, some _), w1) => (exitOperational, w1)
            | ((_, none), w1) => (exitSuccess, w1)

/-- Go `run`: the exit code for the arguments `args`, with the world the engine
leaves. -/
def run (osReadFile : String → Bytes × Option Error) (args : List String) (w : World) :
    Int × World :=
  match args with
  | [] => (exitInvalidUsage, w)
  | a0 :: rest =>
    if a0 = "apply" then run.parse osReadFile rest w
    else if a0 = "-version" ∨ a0 = "--version" then (exitSuccess, w)
    else if a0 ≠ "-h" ∧ a0 ≠ "--help" ∧ a0 ≠ "-help" then (exitInvalidUsage, w)
    else run.parse osReadFile (a0 :: rest) w

/-! ## Vocabulary of the statements -/

/-- Healthy preconditions: the three queries of the port succeed, the current
branch is the default branch and the working tree is clean. -/
def Healthy (w : World) : Prop :=
  w.gitOps.DefaultBranchErr = none ∧ w.gitOps.CurrentBranchErr = none ∧
    w.gitOps.CurrentBranch = w.gitOps.DefaultBranch ∧
    w.gitOps.IsCleanErr = none ∧ w.gitOps.IsClean = true

/-- Every step of the mutating sequence that can fail the run succeeds: branch
creation, the two operating-system calls of the write, staging, commit, push
and pull-request creation. The final switch back is not constrained. -/
def StepsSucceed (a : Applier) (w : World) : Prop :=
  w.gitOps.CreateBranchErr = none ∧
    w.fs.MkdirAllErr (w.fs.Dir (w.fs.Join a.repoDir a.cfg.RepoPath)) = none ∧
    w.fs.WriteFileErr (w.fs.Join a.repoDir a.cfg.RepoPath) = none ∧
    w.gitOps.AddFileErr = none ∧ w.gitOps.CommitErr = none ∧
    w.gitOps.PushErr = none ∧ w.gitOps.CreatePRErr = none

/-- The destination file does not exist: `git.FileExists` answers false. -/
def DestAbsent (a : Applier) (w : World) : Prop :=
  git.FileExists w.fs a.repoDir a.cfg.RepoPath = false

/-- The destination file exists and its bytes are `existing`: `git.FileExists`
answers true and `git.ReadFile` returns `existing` without error. -/
def DestHasContent (a : Applier) (w : World) (existing : Bytes) : Prop :=
  git.FileExists w.fs a.repoDir a.cfg.RepoPath = true ∧
    git.ReadFile w.fs a.repoDir a.cfg.RepoPath = (existing, none)

/-- The calls a run makes: the calls recorded after the run that were not
recorded before it. -/
def Applier.callsOf (a : Applier) (w : World) : List Call :=
  (a.Run w).2.calls.drop w.calls.length

/-- The outcome of mode evaluation on a file system: what `evaluateMode`
returns, which depends on the world through its file system only. -/
def Applier.evalOutcome (a : Applier) (fs : FileSys) : Bool × String × Option Error :=
  (a.evaluateMode { gitOps := {}, fs := fs }).1

/-- The calls mode evaluation makes on a file system, in order. -/
def Applier.evalCalls (a : Applier) (fs : FileSys) : List Call :=
  (a.evaluateMode { gitOps := {}, fs := fs }).2.calls

/-- The world after the three precondition queries. -/
def World.afterChecks (w : World) : World :=
  { w with calls := w.calls ++
      [Call.GetDefaultBranch, Call.GetCurrentBranch, Call.IsWorkingTreeClean] }

/-- The world after the precondition queries and mode evaluation. -/
def Applier.afterEval (a : Applier) (w : World) : World :=
  { w with calls := w.afterChecks.calls ++ a.evalCalls w.fs }

/-- The world after step 7, the call of `CreateBranch`. -/
def Applier.afterBranch (a : Applier) (w : World) : World :=
  ((a.afterEval w).CreateBranch a.determineBranchName).2

/-- The world after step 8, the call of `WriteFile`. -/
def Applier.afterWrite (a : Applier) (w : World) : World :=
  ((a.afterBranch w).WriteFile a.repoDir a.cfg.RepoPath a.newContent).2

/-- The world after step 9, the call of `AddFile`. -/
def Applier.afterAdd (a : Applier) (w : World) : World :=
  ((a.afterWrite w).AddFile a.cfg.RepoPath).2

/-- The world after step 10, the call of `Commit`. -/
def Applier.afterCommit (a : Applier) (w : World) : World :=
  ((a.afterAdd w).Commit a.cfg.GetCommitMessage).2

/-- The world after step 11, the call of `Push`. -/
def Applier.afterPush (a : Applier) (w : World) : World :=
  ((a.afterCommit w).Push a.cfg.Remote a.determineBranchName).2

/-- The world after step 12, the call of `CreatePR`. -/
def Applier.afterPR (a : Applier) (w : World) : World :=
  ((a.afterPush w).CreatePR w.gitOps.DefaultBranch a.determineBranchName a.cfg.GetPRTitle
    a.cfg.GetPRBody a.cfg.Draft).2

/-- The applier with the dry-run flag of its configuration set to `d` and
everything else as it is. -/
def Applier.withDryRun (a : Applier) (d : Bool) : Applier :=
  { a with cfg := { a.cfg with DryRun := d } }

/-! ## Concrete inputs used by the witnesses -/

/-- A file system with one tracked path, `repo/test/file.txt`, holding `n`; paths
are joined with a slash, and every write succeeds. -/
def demoFS (n : Node) : FileSys :=
  { Join := fun d p => d ++ "/" ++ p
    Dir := fun p => String.mk ((p.data.reverse.dropWhile (fun c => c ≠ '/')).drop 1).reverse
    node := fun p => if p = "repo/test/file.txt" then n else Node.absent
    MkdirAllErr := fun _ => none
    WriteFileErr := fun _ => none }

/-- The world of the tests: the port of `NewMockOperations` and `demoFS n`. -/
def demoWorld (n : Node) : World :=
  { gitOps := NewMockOperations, fs := demoFS n }

/-- The bytes of "existing content\n". -/
def demoExisting : Bytes :=
  [101, 120, 105, 115, 116, 105, 110, 103, 32, 99, 111, 110, 116, 101, 110, 116, 10]

/-- The bytes of "new content\n". -/
def demoNew : Bytes := [110, 101, 119, 32, 99, 111, 110, 116, 101, 110, 116, 10]

/-- The applier of the tests for a mode, an expected hash and a new content. -/
def demoApplier (mode : Mode) (expect : String) (newContent : Bytes) : Applier :=
  NewApplier { Mode := mode, RepoPath := "test/file.txt", NewFile := "/path/to/new.txt",
               Repo := "repo", Remote := "origin", ExpectSHA256 := expect } newContent

/-- The applier of `TestApplierDryRun`: mode upsert, dry-run, new content
"new content\n". -/
def demoDryRunApplier : Applier :=
  NewApplier { Mode := ModeUpsert, RepoPath := "test/file.txt", NewFile := "/path/to/new.txt",
               Repo := "repo", Remote := "origin", DryRun := true } demoNew

/-- The world of the tests with the error slots of the port filled by `f`. -/
def demoFailingWorld (f : MockOperations → MockOperations) : World :=
  { gitOps := f NewMockOperations, fs := demoFS Node.absent }

/-- The port of the tests with a failing commit and a failing switch back. -/
def demoCommitSwitchFail (m : MockOperations) : MockOperations :=
  { m with CommitErr := some (Error.msg "commit failed")
           SwitchBranchErr := some (Error.msg "no switch") }

/-- The port of the tests with a failing switch back. -/
def demoSwitchFail (m : MockOperations) : MockOperations :=
  { m with SwitchBranchErr := some (Error.msg "no switch") }

/-- A file system in which `repo/test/file.txt` exists and cannot be read. -/
def demoUnreadable : World :=
  demoWorld (Node.unreadable (Error.msg "permission denied"))

/-- A configuration with the mode "bogus", which is none of the three modes, and
the required fields set. -/
def demoBogusConfig : Config :=
  { Mode := "bogus", RepoPath := "test/file.txt", NewFile := "/path/to/new.txt",
    Repo := "repo", Remote := "origin" }

/-- A reader in which only `/path/to/new.txt` exists, with the bytes of
"new content\n". -/
def demoReader (p : String) : Bytes × Option Error :=
  if p = "/path/to/new.txt" then (demoNew, none)
  else ([], some (Error.msg "no such file or directory"))

/-! ## Supporting lemmas -/

/-- Splitting on commas distributes over a comma between two lists. -/
theorem splitOn_append_comma (s t : List Char) :
    (s ++ ',' :: t).splitOn ',' = s.splitOn ',' ++ t.splitOn ',' := by
  induction s with
  | nil => simp [List.splitOn, List.splitOnP_cons, List.splitOnP_nil]
  | cons x s ih =>
    simp only [List.splitOn] at ih ⊢
    rw [List.cons_append, List.splitOnP_cons, List.splitOnP_cons, ih]
    split
    · rfl
    · cases h : List.splitOnP (fun x => x == ',') s with
      | nil => exact absurd h (List.splitOnP_ne_nil _ _)
      | cons p ps => rfl

/-- Trimming leaves a list without white space as it is. -/
theorem trimSpace_of_noSpace (cs : List Char) (h : ∀ c ∈ cs, isSpace c = false) :
    trimSpace cs = cs := by
  have key : ∀ l : List Char, (∀ c ∈ l, isSpace c = false) → l.dropWhile isSpace = l := by
    intro l hl
    cases l with
    | nil => rfl
    | cons x xs => simp [List.dropWhile_cons, hl x (List.mem_cons_self _ _)]
  unfold trimSpace
  rw [key cs h, key cs.reverse (fun c hc => h c (List.mem_reverse.mp hc)), List.reverse_reverse]

/-- Every digit `EncodeToString` emits is one of the sixteen of `hextable`. -/
theorem hextable_getD_mem (k : Nat) : hex.hextable.getD k '0' ∈ hex.hextable := by
  by_cases hk : k < 16
  · interval_cases k <;> decide
  · have : hex.hextable.getD k '0' = '0' := by
      rw [List.getD_eq_default]
      simpa [hex.hextable] using Nat.le_of_not_lt hk
    rw [this]; decide

/-- Every character of a digest is a lowercase hexadecimal digit. -/
theorem SHA256Bytes_chars (data : Bytes) : ∀ c ∈ (SHA256Bytes data).data, c ∈ hex.hextable := by
  intro c hc
  simp only [SHA256Bytes, hex.EncodeToString, List.mem_flatMap] at hc
  obtain ⟨v, _, hv⟩ := hc
  simp only [List.mem_cons, List.mem_singleton, List.not_mem_nil, or_false] at hv
  rcases hv with rfl | rfl <;> exact hextable_getD_mem _

/-- A digest has 64 characters. -/
theorem SHA256Bytes_length (data : Bytes) : (SHA256Bytes data).length = 64 := by
  simp [SHA256Bytes, hex.EncodeToString, sha256.Sum256, sha256.be32, String.length]

/-- A non-empty value without comma and without white space is its own only entry. -/
theorem GetExpectedHashes_of_plain (c : Config) (h1 : ',' ∉ c.ExpectSHA256.data)
    (h2 : ∀ x ∈ c.ExpectSHA256.data, isSpace x = false) (h3 : c.ExpectSHA256 ≠ "") :
    c.GetExpectedHashes = [c.ExpectSHA256] := by
  have hs : c.ExpectSHA256.data.splitOn ',' = [c.ExpectSHA256.data] := by
    unfold List.splitOn
    apply List.splitOnP_eq_single
    intro x hx hp
    simp only [beq_iff_eq] at hp
    exact h1 (hp ▸ hx)
  have hne : c.ExpectSHA256.data ≠ [] := by
    intro h
    apply h3
    cases hc : c.ExpectSHA256 with
    | mk d => simp_all
  unfold Config.GetExpectedHashes
  rw [hs]
  simp [trimSpace_of_noSpace _ h2, hne]

/-- A digest given as the whole expected value is among the accepted fingerprints. -/
theorem SHA256Bytes_mem_GetExpectedHashes (c : Config) (data : Bytes)
    (h : c.ExpectSHA256 = SHA256Bytes data) : SHA256Bytes data ∈ c.GetExpectedHashes := by
  have hmem := SHA256Bytes_chars data
  have hlen := SHA256Bytes_length data
  rw [← h] at hmem hlen
  have h1 : ',' ∉ c.ExpectSHA256.data := fun hc => by
    have := hmem _ hc
    revert this; decide
  have h2 : ∀ x ∈ c.ExpectSHA256.data, isSpace x = false := by
    intro x hx
    have := hmem x hx
    simp only [hex.hextable, List.mem_cons, List.mem_singleton, List.not_mem_nil, or_false] at this
    rcases this with rfl | rfl | rfl | rfl | rfl | rfl | rfl | rfl | rfl | rfl | rfl | rfl |
      rfl | rfl | rfl | rfl <;> decide
  have h3 : c.ExpectSHA256 ≠ "" := by
    intro h0
    rw [h0] at hlen
    simp at hlen
  rw [GetExpectedHashes_of_plain c h1 h2 h3, h]
  exact List.mem_singleton_self _

/-- Trimming removes white space at the two ends, and what is left neither starts
nor ends with white space. -/
theorem trimSpace_spec (cs : List Char) :
    (∃ l r, cs = l ++ trimSpace cs ++ r ∧ (∀ c ∈ l, isSpace c = true) ∧
      (∀ c ∈ r, isSpace c = true)) ∧
    (∀ c, (trimSpace cs).head? = some c → isSpace c = false) ∧
    (∀ c, (trimSpace cs).getLast? = some c → isSpace c = false) := by
  have hd : cs.dropWhile isSpace =
      trimSpace cs ++ ((cs.dropWhile isSpace).reverse.takeWhile isSpace).reverse := by
    have := List.takeWhile_append_dropWhile isSpace (cs.dropWhile isSpace).reverse
    have h2 := congrArg List.reverse this
    rw [List.reverse_append, List.reverse_reverse] at h2
    exact h2.symm
  have hlast : ∀ c, (trimSpace cs).getLast? = some c → isSpace c = false := by
    intro c hc
    unfold trimSpace at hc
    rw [List.getLast?_reverse] at hc
    have := List.head?_dropWhile_not isSpace (cs.dropWhile isSpace).reverse
    rw [hc] at this
    simpa using this
  refine ⟨⟨cs.takeWhile isSpace, ((cs.dropWhile isSpace).reverse.takeWhile isSpace).reverse,
    ?_, ?_, ?_⟩, ?_, hlast⟩
  · rw [List.append_assoc, ← hd, List.takeWhile_append_dropWhile]
  · intro c hc
    exact List.mem_takeWhile_imp hc
  · intro c hc
    exact List.mem_takeWhile_imp (List.mem_reverse.mp hc)
  · intro c hc
    have h1 := List.head?_dropWhile_not isSpace cs
    rw [hd] at h1
    cases ht : trimSpace cs with
    | nil => rw [ht] at hc; simp at hc
    | cons t ts =>
      rw [ht] at hc h1
      simp only [List.head?_cons, Option.some.injEq] at hc
      subst hc
      simpa using h1

/-- Mode evaluation reads the world through its file system only, leaves the
port and the file system as they are, and records its calls. -/
theorem evaluateMode_eq (a : Applier) (w : World) :
    a.evaluateMode w = (a.evalOutcome w.fs, { w with calls := w.calls ++ a.evalCalls w.fs }) := by
  unfold Applier.evalOutcome Applier.evalCalls Applier.evaluateMode
  simp only [World.FileExists, World.ReadFile]
  rcases hr : git.ReadFile w.fs a.repoDir a.cfg.RepoPath with ⟨content, _ | err⟩ <;>
  cases hf : git.FileExists w.fs a.repoDir a.cfg.RepoPath <;>
  by_cases h1 : a.cfg.Mode = ModeUpsert <;>
  by_cases h2 : a.cfg.Mode = ModeExists <;>
  by_cases h3 : a.cfg.Mode = ModeMatch <;>
  by_cases h4 : content = a.newContent <;>
  by_cases h5 : SHA256Bytes content = a.cfg.ExpectSHA256 <;>
  simp_all [ModeUpsert, ModeExists, ModeMatch]

/-- Mode evaluation makes no mutating call. -/
theorem evalCalls_not_mutating (a : Applier) (fs : FileSys) :
    ∀ c ∈ a.evalCalls fs, c.isMutating = false := by
  unfold Applier.evalCalls Applier.evaluateMode
  simp only [World.FileExists, World.ReadFile]
  rcases hr : git.ReadFile fs a.repoDir a.cfg.RepoPath with ⟨content, _ | err⟩ <;>
  cases hf : git.FileExists fs a.repoDir a.cfg.RepoPath <;>
  by_cases h1 : a.cfg.Mode = ModeUpsert <;>
  by_cases h2 : a.cfg.Mode = ModeExists <;>
  by_cases h3 : a.cfg.Mode = ModeMatch <;>
  by_cases h4 : content = a.newContent <;>
  by_cases h5 : SHA256Bytes content = a.cfg.ExpectSHA256 <;>
  simp_all [Call.isMutating, ModeUpsert, ModeExists, ModeMatch]

/-- The paths of `Run`: a property holds of what `Run` returns and of the world
it leaves as soon as it holds on each of the fifteen paths: the five failed
preconditions, an evaluation error, no action, dry-run, the failure of each of
the six steps, and success. -/
theorem Run_cases (a : Applier) (w : World)
    (P : (Option Result × Option Error) × World → Prop)
    (detect : ∀ err, w.gitOps.DefaultBranchErr = some err →
      P ((none, some (Error.wrap "failed to detect default branch" err)),
        { w with calls := w.calls ++ [Call.GetDefaultBranch] }))
    (current : ∀ err, w.gitOps.DefaultBranchErr = none → w.gitOps.CurrentBranchErr = some err →
      P ((none, some (Error.wrap "failed to get current branch" err)),
        { w with calls := w.calls ++ [Call.GetDefaultBranch, Call.GetCurrentBranch] }))
    (wrong : w.gitOps.DefaultBranchErr = none → w.gitOps.CurrentBranchErr = none →
      w.gitOps.CurrentBranch ≠ w.gitOps.DefaultBranch →
      P ((none, some (Error.notOnDefaultBranch w.gitOps.CurrentBranch w.gitOps.DefaultBranch)),
        { w with calls := w.calls ++ [Call.GetDefaultBranch, Call.GetCurrentBranch] }))
    (status : ∀ err, w.gitOps.DefaultBranchErr = none → w.gitOps.CurrentBranchErr = none →
      w.gitOps.CurrentBranch = w.gitOps.DefaultBranch → w.gitOps.IsCleanErr = some err →
      P ((none, some (Error.wrap "failed to check working tree status" err)), w.afterChecks))
    (dirty : w.gitOps.DefaultBranchErr = none → w.gitOps.CurrentBranchErr = none →
      w.gitOps.CurrentBranch = w.gitOps.DefaultBranch → w.gitOps.IsCleanErr = none →
      w.gitOps.IsClean = false →
      P ((none, some (Error.msg
          "working tree is not clean: please commit or stash your changes")), w.afterChecks))
    (evalErr : ∀ b reason err, Healthy w → a.evalOutcome w.fs = (b, reason, some err) →
      P ((none, some err), a.afterEval w))
    (noAction : ∀ reason, Healthy w → a.evalOutcome w.fs = (false, reason, none) →
      P ((some { DefaultBranch := w.gitOps.DefaultBranch, Action := "no action taken",
                 NoActionReason := reason }, none), a.afterEval w))
    (dryRun : ∀ reason, Healthy w → a.evalOutcome w.fs = (true, reason, none) →
      a.cfg.DryRun = true →
      P ((some { DefaultBranch := w.gitOps.DefaultBranch, BranchName := a.determineBranchName,
                 Action := "would update" }, none), a.afterEval w))
    (branchErr : ∀ reason err, Healthy w → a.evalOutcome w.fs = (true, reason, none) →
      a.cfg.DryRun = false → w.gitOps.CreateBranchErr = some err →
      P ((none, some (Error.wrap "failed to create branch" err)), a.afterBranch w))
    (writeErr : ∀ reason err, Healthy w → a.evalOutcome w.fs = (true, reason, none) →
      a.cfg.DryRun = false → w.gitOps.CreateBranchErr = none →
      (git.WriteFile w.fs a.repoDir a.cfg.RepoPath a.newContent).1 = some err →
      P ((none, some (Error.wrap "failed to write file" err)),
        ((a.afterWrite w).SwitchBranch w.gitOps.DefaultBranch).2))
    (addErr : ∀ reason err, Healthy w → a.evalOutcome w.fs = (true, reason, none) →
      a.cfg.DryRun = false → w.gitOps.CreateBranchErr = none →
      (git.WriteFile w.fs a.repoDir a.cfg.RepoPath a.newContent).1 = none →
      w.gitOps.AddFileErr = some err →
      P ((none, some (Error.wrap "failed to stage file" err)),
        ((a.afterAdd w).SwitchBranch w.gitOps.DefaultBranch).2))
    (commitErr : ∀ reason err, Healthy w → a.evalOutcome w.fs = (true, reason, none) →
      a.cfg.DryRun = false → w.gitOps.CreateBranchErr = none →
      (git.WriteFile w.fs a.repoDir a.cfg.RepoPath a.newContent).1 = none →
      w.gitOps.AddFileErr = none → w.gitOps.CommitErr = some err →
      P ((none, some (Error.wrap "failed to commit" err)),
        ((a.afterCommit w).SwitchBranch w.gitOps.DefaultBranch).2))
    (pushErr : ∀ reason err, Healthy w → a.evalOutcome w.fs = (true, reason, none) →
      a.cfg.DryRun = false → w.gitOps.CreateBranchErr = none →
      (git.WriteFile w.fs a.repoDir a.cfg.RepoPath a.newContent).1 = none →
      w.gitOps.AddFileErr = none → w.gitOps.CommitErr = none → w.gitOps.PushErr = some err →
      P ((none, some (Error.wrap "failed to push" err)),
        ((a.afterPush w).SwitchBranch w.gitOps.DefaultBranch).2))
    (prErr : ∀ reason err, Healthy w → a.evalOutcome w.fs = (true, reason, none) →
      a.cfg.DryRun = false → w.gitOps.CreateBranchErr = none →
      (git.WriteFile w.fs a.repoDir a.cfg.RepoPath a.newContent).1 = none →
      w.gitOps.AddFileErr = none → w.gitOps.CommitErr = none → w.gitOps.PushErr = none →
      w.gitOps.CreatePRErr = some err →
      P ((none, some (Error.wrap "failed to create PR" err)),
        ((a.afterPR w).SwitchBranch w.gitOps.DefaultBranch).2))
    (updated : ∀ reason, Healthy w → a.evalOutcome w.fs = (true, reason, none) →
      a.cfg.DryRun = false → w.gitOps.CreateBranchErr = none →
      (git.WriteFile w.fs a.repoDir a.cfg.RepoPath a.newContent).1 = none →
      w.gitOps.AddFileErr = none → w.gitOps.CommitErr = none → w.gitOps.PushErr = none →
      w.gitOps.CreatePRErr = none →
      P ((some { DefaultBranch := w.gitOps.DefaultBranch, BranchName := a.determineBranchName,
                 PRURL := w.gitOps.PRURLToReturn, Action := "updated" }, none),
        ((a.afterPR w).SwitchBranch w.gitOps.DefaultBranch).2)) :
    P (a.Run w) := by
  rcases hd : w.gitOps.DefaultBranchErr with _ | e
  swap
  · convert detect e hd using 1
    simp [Applier.Run, World.GetDefaultBranch, MockOperations.GetDefaultBranch, hd]
  rcases hc : w.gitOps.CurrentBranchErr with _ | e
  swap
  · convert current e hd hc using 1
    simp [Applier.Run, World.GetDefaultBranch, MockOperations.GetDefaultBranch,
      World.GetCurrentBranch, MockOperations.GetCurrentBranch, hd, hc]
  by_cases hb : w.gitOps.CurrentBranch = w.gitOps.DefaultBranch
  swap
  · convert wrong hd hc hb using 1
    simp [Applier.Run, World.GetDefaultBranch, MockOperations.GetDefaultBranch,
      World.GetCurrentBranch, MockOperations.GetCurrentBranch, hd, hc, hb]
  rcases hs : w.gitOps.IsCleanErr with _ | e
  swap
  · convert status e hd hc hb hs using 1
    simp [Applier.Run, World.GetDefaultBranch, MockOperations.GetDefaultBranch,
      World.GetCurrentBranch, MockOperations.GetCurrentBranch, World.IsWorkingTreeClean,
      MockOperations.IsWorkingTreeClean, World.afterChecks, hd, hc, hb, hs]
  cases hk : w.gitOps.IsClean
  · convert dirty hd hc hb hs hk using 1
    simp [Applier.Run, World.GetDefaultBranch, MockOperations.GetDefaultBranch,
      World.GetCurrentBranch, MockOperations.GetCurrentBranch, World.IsWorkingTreeClean,
      MockOperations.IsWorkingTreeClean, World.afterChecks, hd, hc, hb, hs, hk]
  have hh : Healthy w := ⟨hd, hc, hb, hs, hk⟩
  rcases he : a.evalOutcome w.fs with ⟨b, reason, _ | e⟩
  swap
  · convert evalErr b reason e hh he using 1
    simp [Applier.Run, World.GetDefaultBranch, MockOperations.GetDefaultBranch,
      World.GetCurrentBranch, MockOperations.GetCurrentBranch, World.IsWorkingTreeClean,
      MockOperations.IsWorkingTreeClean, World.afterChecks, Applier.afterEval, evaluateMode_eq,
      hd, hc, hb, hs, hk, he]
  cases b
  · convert noAction reason hh he using 1
    simp [Applier.Run, World.GetDefaultBranch, MockOperations.GetDefaultBranch,
      World.GetCurrentBranch, MockOperations.GetCurrentBranch, World.IsWorkingTreeClean,
      MockOperations.IsWorkingTreeClean, World.afterChecks, Applier.afterEval, evaluateMode_eq,
      hd, hc, hb, hs, hk, he]
  cases hdry : a.cfg.DryRun
  swap
  · convert dryRun reason hh he hdry using 1
    simp [Applier.Run, World.GetDefaultBranch, MockOperations.GetDefaultBranch,
      World.GetCurrentBranch, MockOperations.GetCurrentBranch, World.IsWorkingTreeClean,
      MockOperations.IsWorkingTreeClean, World.afterChecks, Applier.afterEval, evaluateMode_eq,
      Applier.afterBranch, Applier.afterWrite, Applier.afterAdd, Applier.afterCommit,
      Applier.afterPush, Applier.afterPR, Applier.cleanup,
      World.CreateBranch, MockOperations.CreateBranch, World.WriteFile,
      World.AddFile, MockOperations.AddFile, World.Commit, MockOperations.Commit,
      World.Push, MockOperations.Push, World.CreatePR, MockOperations.CreatePR,
      World.SwitchBranch, hd, hc, hb, hs, hk, he, hdry]
  rcases h7 : w.gitOps.CreateBranchErr with _ | e
  swap
  · convert branchErr reason e hh he hdry h7 using 1
    simp [Applier.Run, World.GetDefaultBranch, MockOperations.GetDefaultBranch,
      World.GetCurrentBranch, MockOperations.GetCurrentBranch, World.IsWorkingTreeClean,
      MockOperations.IsWorkingTreeClean, World.afterChecks, Applier.afterEval, evaluateMode_eq,
      Applier.afterBranch, Applier.afterWrite, Applier.afterAdd, Applier.afterCommit,
      Applier.afterPush, Applier.afterPR, Applier.cleanup,
      World.CreateBranch, MockOperations.CreateBranch, World.WriteFile,
      World.AddFile, MockOperations.AddFile, World.Commit, MockOperations.Commit,
      World.Push, MockOperations.Push, World.CreatePR, MockOperations.CreatePR,
      World.SwitchBranch, hd, hc, hb, hs, hk, he, hdry, h7]
  rcases h8 : (git.WriteFile w.fs a.repoDir a.cfg.RepoPath a.newContent).1 with _ | e
  swap
  · convert writeErr reason e hh he hdry h7 h8 using 1
    simp [Applier.Run, World.GetDefaultBranch, MockOperations.GetDefaultBranch,
      World.GetCurrentBranch, MockOperations.GetCurrentBranch, World.IsWorkingTreeClean,
      MockOperations.IsWorkingTreeClean, World.afterChecks, Applier.afterEval, evaluateMode_eq,
      Applier.afterBranch, Applier.afterWrite, Applier.afterAdd, Applier.afterCommit,
      Applier.afterPush, Applier.afterPR, Applier.cleanup,
      World.CreateBranch, MockOperations.CreateBranch, World.WriteFile,
      World.AddFile, MockOperations.AddFile, World.Commit, MockOperations.Commit,
      World.Push, MockOperations.Push, World.CreatePR, MockOperations.CreatePR,
      World.SwitchBranch, hd, hc, hb, hs, hk, he, hdry, h7, h8]
  rcases h9 : w.gitOps.AddFileErr with _ | e
  swap
  · convert addErr reason e hh he hdry h7 h8 h9 using 1
    simp [Applier.Run, World.GetDefaultBranch, MockOperations.GetDefaultBranch,
      World.GetCurrentBranch, MockOperations.GetCurrentBranch, World.IsWorkingTreeClean,
      MockOperations.IsWorkingTreeClean, World.afterChecks, Applier.afterEval, evaluateMode_eq,
      Applier.afterBranch, Applier.afterWrite, Applier.afterAdd, Applier.afterCommit,
      Applier.afterPush, Applier.afterPR, Applier.cleanup,
      World.CreateBranch, MockOperations.CreateBranch, World.WriteFile,
      World.AddFile, MockOperations.AddFile, World.Commit, MockOperations.Commit,
      World.Push, MockOperations.Push, World.CreatePR, MockOperations.CreatePR,
      World.SwitchBranch, hd, hc, hb, hs, hk, he, hdry, h7, h8, h9]
  rcases h10 : w.gitOps.CommitErr with _ | e
  swap
  · convert commitErr reason e hh he hdry h7 h8 h9 h10 using 1
    simp [Applier.Run, World.GetDefaultBranch, MockOperations.GetDefaultBranch,
      World.GetCurrentBranch, MockOperations.GetCurrentBranch, World.IsWorkingTreeClean,
      MockOperations.IsWorkingTreeClean, World.afterChecks, Applier.afterEval, evaluateMode_eq,
      Applier.afterBranch, Applier.afterWrite, Applier.afterAdd, Applier.afterCommit,
      Applier.afterPush, Applier.afterPR, Applier.cleanup,
      World.CreateBranch, MockOperations.CreateBranch, World.WriteFile,
      World.AddFile, MockOperations.AddFile, World.Commit, MockOperations.Commit,
      World.Push, MockOperations.Push, World.CreatePR, MockOperations.CreatePR,
      World.SwitchBranch, hd, hc, hb, hs, hk, he, hdry, h7, h8, h9, h10]
  rcases h11 : w.gitOps.PushErr with _ | e
  swap
  · convert pushErr reason e hh he hdry h7 h8 h9 h10 h11 using 1
    simp [Applier.Run, World.GetDefaultBranch, MockOperations.GetDefaultBranch,
      World.GetCurrentBranch, MockOperations.GetCurrentBranch, World.IsWorkingTreeClean,
      MockOperations.IsWorkingTreeClean, World.afterChecks, Applier.afterEval, evaluateMode_eq,
      Applier.afterBranch, Applier.afterWrite, Applier.afterAdd, Applier.afterCommit,
      Applier.afterPush, Applier.afterPR, Applier.cleanup,
      World.CreateBranch, MockOperations.CreateBranch, World.WriteFile,
      World.AddFile, MockOperations.AddFile, World.Commit, MockOperations.Commit,
      World.Push, MockOperations.Push, World.CreatePR, MockOperations.CreatePR,
      World.SwitchBranch, hd, hc, hb, hs, hk, he, hdry, h7, h8, h9, h10, h11]
  rcases h12 : w.gitOps.CreatePRErr with _ | e
  swap
  · convert prErr reason e hh he hdry h7 h8 h9 h10 h11 h12 using 1
    simp [Applier.Run, World.GetDefaultBranch, MockOperations.GetDefaultBranch,
      World.GetCurrentBranch, MockOperations.GetCurrentBranch, World.IsWorkingTreeClean,
      MockOperations.IsWorkingTreeClean, World.afterChecks, Applier.afterEval, evaluateMode_eq,
      Applier.afterBranch, Applier.afterWrite, Applier.afterAdd, Applier.afterCommit,
      Applier.afterPush, Applier.afterPR, Applier.cleanup,
      World.CreateBranch, MockOperations.CreateBranch, World.WriteFile,
      World.AddFile, MockOperations.AddFile, World.Commit, MockOperations.Commit,
      World.Push, MockOperations.Push, World.CreatePR, MockOperations.CreatePR,
      World.SwitchBranch, hd, hc, hb, hs, hk, he, hdry, h7, h8, h9, h10, h11, h12]
  convert updated reason hh he hdry h7 h8 h9 h10 h11 h12 using 1
  simp [Applier.Run, World.GetDefaultBranch, MockOperations.GetDefaultBranch,
      World.GetCurrentBranch, MockOperations.GetCurrentBranch, World.IsWorkingTreeClean,
      MockOperations.IsWorkingTreeClean, World.afterChecks, Applier.afterEval, evaluateMode_eq,
      Applier.afterBranch, Applier.afterWrite, Applier.afterAdd, Applier.afterCommit,
      Applier.afterPush, Applier.afterPR, Applier.cleanup,
      World.CreateBranch, MockOperations.CreateBranch, World.WriteFile,
      World.AddFile, MockOperations.AddFile, World.Commit, MockOperations.Commit,
      World.Push, MockOperations.Push, World.CreatePR, MockOperations.CreatePR,
      World.SwitchBranch, hd, hc, hb, hs, hk, he, hdry, h7, h8, h9, h10, h11, h12]

/-- The one branch name of a run: a result that is not "no action taken" carries
`determineBranchName`, and `CreateBranch` is called with no other name. -/
theorem Run_uses_determineBranchName (a : Applier) (w : World) :
    (∀ r, (a.Run w).1.1 = some r → r.Action ≠ "no action taken" →
      r.BranchName = a.determineBranchName) ∧
    (∀ n, Call.CreateBranch n ∈ a.callsOf w → n = a.determineBranchName) := by
  have hm : ∀ n, Call.CreateBranch n ∉ a.evalCalls w.fs := fun n hn => by
    have := evalCalls_not_mutating a w.fs _ hn
    simp [Call.isMutating] at this
  unfold Applier.callsOf
  apply Run_cases a w (fun o => (∀ r, o.1.1 = some r → r.Action ≠ "no action taken" →
      r.BranchName = a.determineBranchName) ∧
    (∀ n, Call.CreateBranch n ∈ o.2.calls.drop w.calls.length → n = a.determineBranchName))
  all_goals intros
  all_goals simp_all [World.afterChecks, Applier.afterEval,
    Applier.afterBranch, Applier.afterWrite, Applier.afterAdd, Applier.afterCommit,
    Applier.afterPush, Applier.afterPR, World.CreateBranch, World.WriteFile, World.AddFile,
    World.Commit, World.Push, World.CreatePR, World.SwitchBranch]

/-- The bytes below 128 and the ASCII characters: each such character is encoded
by the byte of its code. -/
theorem ascii_byte : ∀ n < 128, UInt8.ofNat n < 0x80 ∧ (UInt8.ofNat n).toNat = n ∧
    String.utf8EncodeChar (Char.ofNat n) = [UInt8.ofNat n] := by
  decide

/-- The bytes of a string of ASCII characters: one byte for each character. -/
theorem Encode_ascii (s : String) (h : ∀ c ∈ s.data, c.toNat < 128) :
    utf8.Encode s = s.data.map (fun c => UInt8.ofNat c.toNat) := by
  obtain ⟨cs⟩ := s
  simp only at h ⊢
  induction cs with
  | nil => rfl
  | cons c cs ih =>
    have hc := (ascii_byte c.toNat (h c (List.mem_cons_self _ _))).2.2
    rw [Char.ofNat_toNat] at hc
    have ih2 := ih (fun d hd => h d (List.mem_cons_of_mem _ hd))
    simp only [utf8.Encode, List.map_cons, List.flatten_cons, hc] at ih2 ⊢
    rw [ih2]
    rfl

/-- The text of bytes that are the codes of ASCII characters. -/
theorem Decode_ascii (cs : List Char) (h : ∀ c ∈ cs, c.toNat < 128) :
    utf8.Decode (cs.map (fun c => UInt8.ofNat c.toNat)) = String.mk cs := by
  unfold utf8.Decode
  congr 1
  induction cs with
  | nil => rfl
  | cons c cs ih =>
    obtain ⟨h1, h2, h3⟩ := ascii_byte c.toNat (h c (List.mem_cons_self _ _))
    have hd : utf8.DecodeRune (UInt8.ofNat c.toNat :: cs.map (fun c => UInt8.ofNat c.toNat)) =
        (c, 1) := by
      simp only [utf8.DecodeRune, h1, if_true, List.take_succ_cons, List.take_zero, h2, h3]
      rw [Char.ofNat_toNat]
    simp only [List.map_cons, utf8.runes, hd]
    rw [ih (fun d hd => h d (List.mem_cons_of_mem _ hd))]

/-- The hexadecimal digits are ASCII characters. -/
theorem hex_ascii : ∀ c ∈ "0123456789abcdef".data, c.toNat < 128 := by
  decide

/-- Truncating the bytes of a string of ASCII characters gives the bytes of its
first characters. -/
theorem TruncatedHash_ascii (s : String) (h : ∀ c ∈ s.data, c.toNat < 128) (n : Int)
    (hn : 0 ≤ n) :
    TruncatedHash (utf8.Encode s) n = some (utf8.Encode (String.mk (s.data.take n.toNat))) := by
  rw [Encode_ascii s h, Encode_ascii _ (fun c hc => h c (List.mem_of_mem_take hc))]
  unfold TruncatedHash
  by_cases hle : ((s.data.map (fun c => UInt8.ofNat c.toNat)).length : Int) ≤ n
  · rw [if_pos hle]
    rw [List.length_map] at hle
    have : s.data.length ≤ n.toNat := by omega
    rw [List.take_of_length_le this]
  · rw [if_neg hle, if_pos hn, List.map_take]

/-- The text of the first 12 bytes of a string of ASCII characters is the string
of its first 12 characters. -/
theorem Decode_TruncatedHash (s : String) (h : ∀ c ∈ s.data, c.toNat < 128)
    (p : (TruncatedHash (utf8.Encode s) 12).isSome = true) :
    utf8.Decode ((TruncatedHash (utf8.Encode s) 12).get p) = String.mk (s.data.take 12) := by
  have hT := TruncatedHash_ascii s h 12 (by decide)
  rw [Encode_ascii _ (fun c hc => h c (List.mem_of_mem_take hc))] at hT
  rw [Option.get_of_mem p hT]
  exact Decode_ascii _ (fun c hc => h c (List.mem_of_mem_take hc))

/-- The first 12 characters of a string of 64 characters are 12 characters. -/
theorem take_12_length (h : String) (hl : h.length = 64) : (h.data.take 12).length = 12 := by
  simp only [String.length] at hl
  rw [List.length_take, hl]
  rfl

/-- The branch name: the configured one, or the name derived from the new
content. -/
theorem determineBranchName_eq (a : Applier) :
    a.determineBranchName =
      (if a.cfg.Branch ≠ "" then a.cfg.Branch
       else "bulkfilepr/" ++ String.mk ((SHA256Bytes a.newContent).data.take 12)) := by
  have hasc : ∀ c ∈ (SHA256Bytes a.newContent).data, c.toNat < 128 :=
    fun c hc => hex_ascii c (SHA256Bytes_chars a.newContent c hc)
  unfold Applier.determineBranchName
  by_cases hb : a.cfg.Branch ≠ ""
  · rw [if_pos hb, if_pos hb]
  · rw [if_neg hb, if_neg hb]
    show "bulkfilepr/" ++
      utf8.Decode ((TruncatedHash (utf8.Encode (SHA256Bytes a.newContent)) 12).get _) = _
    rw [Decode_TruncatedHash _ hasc]

/-- A derived branch name is not empty. -/
theorem derived_name_ne_empty (s : String) : "bulkfilepr/" ++ s ≠ "" := by
  intro h
  have := congrArg String.length h
  simp [String.length_append] at this
  exact absurd this.1 (by decide)

/-- The branch name is never empty. -/
theorem determineBranchName_ne_empty (a : Applier) : a.determineBranchName ≠ "" := by
  rw [determineBranchName_eq]
  split
  · assumption
  · exact derived_name_ne_empty _

/-- The hash-mismatch reason is not empty. -/
theorem mismatch_reason_ne_empty (e d : String) :
    "file hash mismatch: expected " ++ e ++ ", got " ++ d ≠ "" := by
  intro h
  have := congrArg String.length h
  simp only [String.length_append] at this
  have h0 : "file hash mismatch: expected ".length = 29 := by decide
  have h1 : "".length = 0 := rfl
  omega

/-- Mode evaluation gives a reason that is not empty whenever it says not to
update. -/
theorem evalOutcome_reason (a : Applier) (fs : FileSys) (reason : String)
    (h : a.evalOutcome fs = (false, reason, none)) : reason ≠ "" := by
  unfold Applier.evalOutcome Applier.evaluateMode at h
  simp only [World.FileExists, World.ReadFile] at h
  have hm := mismatch_reason_ne_empty a.cfg.ExpectSHA256
  revert h
  rcases hr : git.ReadFile fs a.repoDir a.cfg.RepoPath with ⟨content, _ | err⟩ <;>
  cases hf : git.FileExists fs a.repoDir a.cfg.RepoPath <;>
  by_cases h1 : a.cfg.Mode = ModeUpsert <;>
  by_cases h2 : a.cfg.Mode = ModeExists <;>
  by_cases h3 : a.cfg.Mode = ModeMatch <;>
  by_cases h4 : content = a.newContent <;>
  by_cases h5 : SHA256Bytes content = a.cfg.ExpectSHA256 <;>
  simp_all [ModeUpsert, ModeExists, ModeMatch]
  all_goals (intro h; rw [← h]; first | exact hm _ | decide)

/-- Mode evaluation calls `FileExists` and `ReadFile` on the destination, and
nothing else. -/
theorem evalCalls_mem (a : Applier) (fs : FileSys) :
    ∀ c ∈ a.evalCalls fs, c = Call.FileExists a.repoDir a.cfg.RepoPath ∨
      c = Call.ReadFile a.repoDir a.cfg.RepoPath := by
  unfold Applier.evalCalls Applier.evaluateMode
  simp only [World.FileExists, World.ReadFile]
  rcases hr : git.ReadFile fs a.repoDir a.cfg.RepoPath with ⟨content, _ | err⟩ <;>
  cases hf : git.FileExists fs a.repoDir a.cfg.RepoPath <;>
  by_cases h1 : a.cfg.Mode = ModeUpsert <;>
  by_cases h2 : a.cfg.Mode = ModeExists <;>
  by_cases h3 : a.cfg.Mode = ModeMatch <;>
  by_cases h4 : content = a.newContent <;>
  by_cases h5 : SHA256Bytes content = a.cfg.ExpectSHA256 <;>
  simp_all [ModeUpsert, ModeExists, ModeMatch]

/-- The error of mode evaluation: in the three modes, when the destination
exists and cannot be read, the read error wrapped; an unknown-mode error only
outside the three modes. -/
theorem evalOutcome_error (a : Applier) (fs : FileSys) :
    (∀ content err, git.FileExists fs a.repoDir a.cfg.RepoPath = true →
      git.ReadFile fs a.repoDir a.cfg.RepoPath = (content, some err) →
      (a.cfg.Mode = ModeUpsert ∨ a.cfg.Mode = ModeExists ∨ a.cfg.Mode = ModeMatch →
        a.evalOutcome fs = (false, "", some (Error.wrap "failed to read existing file" err))) ∧
      (a.evalOutcome fs).2.2 ≠ none) ∧
    (a.cfg.Mode = ModeUpsert ∨ a.cfg.Mode = ModeExists ∨ a.cfg.Mode = ModeMatch →
      ∀ m, (a.evalOutcome fs).2.2 ≠ some (Error.unknownMode m)) := by
  unfold Applier.evalOutcome Applier.evaluateMode
  simp only [World.FileExists, World.ReadFile]
  rcases hr : git.ReadFile fs a.repoDir a.cfg.RepoPath with ⟨content, _ | err⟩ <;>
  cases hf : git.FileExists fs a.repoDir a.cfg.RepoPath <;>
  by_cases h1 : a.cfg.Mode = ModeUpsert <;>
  by_cases h2 : a.cfg.Mode = ModeExists <;>
  by_cases h3 : a.cfg.Mode = ModeMatch <;>
  by_cases h4 : content = a.newContent <;>
  by_cases h5 : SHA256Bytes content = a.cfg.ExpectSHA256 <;>
  simp_all [ModeUpsert, ModeExists, ModeMatch]

/-- A string with something added before or after it is another string. -/
theorem padded_ne (pre d post : String) (h : pre ≠ "" ∨ post ≠ "") : pre ++ d ++ post ≠ d := by
  intro he
  have hl := congrArg String.length he
  simp only [String.length_append] at hl
  have h0 : ∀ s : String, s ≠ "" → 0 < s.length := by
    intro s hs
    rcases s with ⟨l⟩
    cases l with
    | nil => exact absurd rfl hs
    | cons c cs => simp [String.length]
  rcases h with h | h
  · have := h0 _ h
    omega
  · have := h0 _ h
    omega

/-- A string with a character that has an uppercase form differs from its
uppercase form. -/
theorem upper_ne (d : String) (h : ∃ c ∈ d.data, c.toUpper ≠ c) :
    String.mk (d.data.map Char.toUpper) ≠ d := by
  intro he
  obtain ⟨c, hc, hne⟩ := h
  have hd : d.data.map Char.toUpper = d.data := congrArg String.data he
  have : ∀ l : List Char, l.map Char.toUpper = l → ∀ x ∈ l, x.toUpper = x := by
    intro l
    induction l with
    | nil => intro _ x hx; cases hx
    | cons y ys ih =>
      intro hm x hx
      simp only [List.map_cons, List.cons.injEq] at hm
      rcases List.mem_cons.mp hx with rfl | hx
      · exact hm.1
      · exact ih hm.2 x hx
  exact hne (this _ hd c hc)

/-- A round of `parseOne` that sees a flag changes the variable of a required
flag, or of the expected hash, only if the argument reads as that flag. -/
theorem parseOne_frame (f f1 : Flags) (s : String) (next : Option String) (t : Bool)
    (h : flag.parseOne f s next = flag.Step.seen f1 t) :
    (flag.given "mode" [s] = false → f1.mode = f.mode) ∧
    (flag.given "repo-path" [s] = false → f1.repoPath = f.repoPath) ∧
    (flag.given "new-file" [s] = false → f1.newFile = f.newFile) ∧
    (flag.given "expect-sha256" [s] = false → f1.expectSHA256 = f.expectSHA256) := by
  unfold flag.parseOne at h
  rcases hr : flag.readArg s with _ | _ | _ | ⟨name, value⟩ <;> rw [hr] at h <;>
    simp only [reduceCtorEq] at h
  simp only [flag.given, hr, List.any_cons, List.any_nil, Bool.or_false,
    decide_eq_false_iff_not]
  split_ifs at h with hb hs
  · have hf : ∀ b, (f.setBool name b).mode = f.mode ∧ (f.setBool name b).repoPath = f.repoPath ∧
        (f.setBool name b).newFile = f.newFile ∧
        (f.setBool name b).expectSHA256 = f.expectSHA256 := by
      intro b
      refine ⟨?_, ?_, ?_, ?_⟩
      · simp only [Flags.setBool, apply_ite Flags.mode, ite_self]
      · simp only [Flags.setBool, apply_ite Flags.repoPath, ite_self]
      · simp only [Flags.setBool, apply_ite Flags.newFile, ite_self]
      · simp only [Flags.setBool, apply_ite Flags.expectSHA256, ite_self]
    rcases value with _ | v
    · simp only [flag.Step.seen.injEq] at h
      obtain ⟨rfl, _⟩ := h
      simp [hf]
    · simp only at h
      rcases hp : strconv.ParseBool v with _ | b <;> rw [hp] at h <;>
        simp only [reduceCtorEq, flag.Step.seen.injEq] at h
      obtain ⟨rfl, _⟩ := h
      simp [hf]
  · have hf : ∀ v, (name ≠ "mode" → (f.setString name v).mode = f.mode) ∧
        (name ≠ "repo-path" → (f.setString name v).repoPath = f.repoPath) ∧
        (name ≠ "new-file" → (f.setString name v).newFile = f.newFile) ∧
        (name ≠ "expect-sha256" → (f.setString name v).expectSHA256 = f.expectSHA256) := by
      intro v
      refine ⟨?_, ?_, ?_, ?_⟩ <;> intro hn
      · simp only [Flags.setString, apply_ite Flags.mode, hn, if_false, ite_self]
      · simp only [Flags.setString, apply_ite Flags.repoPath, hn, if_false, ite_self]
      · simp only [Flags.setString, apply_ite Flags.newFile, hn, if_false, ite_self]
      · simp only [Flags.setString, apply_ite Flags.expectSHA256, hn, if_false, ite_self]
    rcases value with _ | v <;> rcases next with _ | nx <;>
      simp only [reduceCtorEq, flag.Step.seen.injEq] at h <;>
      obtain ⟨rfl, _⟩ := h <;>
      exact hf _

/-- Parsing leaves the variable of a required flag, or of the expected hash, as
it was when none of the arguments reads as that flag. -/
theorem Parse_frame (f : Flags) (args : List String) :
    (flag.given "mode" args = false → (flag.Parse f args).2.mode = f.mode) ∧
    (flag.given "repo-path" args = false → (flag.Parse f args).2.repoPath = f.repoPath) ∧
    (flag.given "new-file" args = false → (flag.Parse f args).2.newFile = f.newFile) ∧
    (flag.given "expect-sha256" args = false →
      (flag.Parse f args).2.expectSHA256 = f.expectSHA256) := by
  have hg : ∀ n s v rest, flag.given n (s :: v :: rest) = false →
      flag.given n [s] = false ∧ flag.given n rest = false ∧
      flag.given n (v :: rest) = false := by
    intro n s v rest
    simp only [flag.given, List.any_cons, List.any_nil, Bool.or_false, Bool.or_eq_false_iff]
    tauto
  induction f, args using flag.Parse.induct with
  | case1 f => simp [flag.Parse]
  | case2 f s err hp =>
    unfold flag.Parse
    rw [hp]
    simp
  | case3 f s f1 t hp =>
    unfold flag.Parse
    rw [hp]
    exact parseOne_frame f f1 s none t hp
  | case4 f s v rest err hp =>
    unfold flag.Parse
    rw [hp]
    simp
  | case5 f s v rest f1 hp ih =>
    have h1 := parseOne_frame f f1 s (some v) true hp
    unfold flag.Parse
    rw [hp]
    simp only
    refine ⟨?_, ?_, ?_, ?_⟩ <;> intro hn <;> obtain ⟨g1, g2, g3⟩ := hg _ _ _ _ hn
    · rw [ih.1 g2, h1.1 g1]
    · rw [ih.2.1 g2, h1.2.1 g1]
    · rw [ih.2.2.1 g2, h1.2.2.1 g1]
    · rw [ih.2.2.2 g2, h1.2.2.2 g1]
  | case6 f s v rest f1 hp ih =>
    have h1 := parseOne_frame f f1 s (some v) false hp
    unfold flag.Parse
    rw [hp]
    simp only
    refine ⟨?_, ?_, ?_, ?_⟩ <;> intro hn <;> obtain ⟨g1, g2, g3⟩ := hg _ _ _ _ hn
    · rw [ih.1 g3, h1.1 g1]
    · rw [ih.2.1 g3, h1.2.1 g1]
    · rw [ih.2.2.1 g3, h1.2.2.1 g1]
    · rw [ih.2.2.2 g3, h1.2.2.2 g1]

/-! ## Theorems -/

/-- C1: in mode upsert without dry-run, when the destination file is absent, the
preconditions are healthy and every step succeeds, `Run` returns no error and a
result with action "updated"; the port has recorded exactly one more created
branch, one more commit and one more pull request. -/
theorem Run_upsert_new_file (a : Applier) (w : World)
    (hmode : a.cfg.Mode = ModeUpsert) (hdry : a.cfg.DryRun = false)
    (habsent : DestAbsent a w) (hh : Healthy w) (hs : StepsSucceed a w) :
    (a.Run w).1 = (some { DefaultBranch := w.gitOps.DefaultBranch, Action := "updated",
                          BranchName := a.determineBranchName,
                          PRURL := w.gitOps.PRURLToReturn }, none) ∧
    (a.Run w).2.gitOps.CreatedBranches = w.gitOps.CreatedBranches ++ [a.determineBranchName] ∧
    (a.Run w).2.gitOps.Commits = w.gitOps.Commits ++ [a.cfg.GetCommitMessage] ∧
    (a.Run w).2.gitOps.CreatedPRs = w.gitOps.CreatedPRs ++
      [⟨w.gitOps.DefaultBranch, a.determineBranchName, a.cfg.GetPRTitle, a.cfg.GetPRBody,
        a.cfg.Draft⟩] := by
  obtain ⟨h1, h2, h3, h4, h5⟩ := hh
  obtain ⟨s1, s2, s3, s4, s5, s6, s7⟩ := hs
  unfold DestAbsent at habsent
  cases hsw : w.gitOps.SwitchBranchErr <;>
  simp [Applier.Run, World.GetDefaultBranch, MockOperations.GetDefaultBranch,
    World.GetCurrentBranch, MockOperations.GetCurrentBranch, World.IsWorkingTreeClean,
    MockOperations.IsWorkingTreeClean, Applier.evaluateMode, World.FileExists, World.ReadFile,
    World.CreateBranch, MockOperations.CreateBranch, World.WriteFile, git.WriteFile, os.MkdirAll, os.WriteFile,
    World.AddFile, MockOperations.AddFile, World.Commit, MockOperations.Commit,
    World.Push, MockOperations.Push, World.CreatePR, MockOperations.CreatePR,
    World.SwitchBranch, MockOperations.SwitchBranch, Applier.cleanup, *]

set_option maxRecDepth 1000000 in
/-- Witness of C1: the scenario of `TestApplierUpsertModeNewFile`, new content
"new content\n", with the branch name it derives. -/
theorem Run_upsert_new_file_witness :
    DestAbsent (demoApplier ModeUpsert "" demoNew) (demoWorld Node.absent) ∧
    (Applier.Run (demoApplier ModeUpsert "" demoNew) (demoWorld Node.absent)).1 =
      (some { DefaultBranch := "main", Action := "updated",
              BranchName := "bulkfilepr/1c3ef9a7c817",
              PRURL := "https://github.com/owner/repo/pull/1" }, none) :=
  ⟨rfl, (Run_upsert_new_file (demoApplier ModeUpsert "" demoNew) (demoWorld Node.absent)
    rfl rfl rfl ⟨rfl, rfl, rfl, rfl, rfl⟩ ⟨rfl, rfl, rfl, rfl, rfl, rfl, rfl⟩).1⟩

/-- C2: in mode upsert and in mode exists, with healthy preconditions, when the
destination file exists and its bytes equal the new content, `Run` returns no
error and "no action taken" with reason "file content is already identical";
the run makes no mutating call and leaves the port and the file system as they
were. -/
theorem Run_identical_upsert_exists (a : Applier) (w : World)
    (hmode : a.cfg.Mode = ModeUpsert ∨ a.cfg.Mode = ModeExists)
    (hh : Healthy w) (hc : DestHasContent a w a.newContent) :
    (a.Run w).1 = (some { DefaultBranch := w.gitOps.DefaultBranch, Action := "no action taken",
                          NoActionReason := "file content is already identical" }, none) ∧
    (∀ c ∈ a.callsOf w, c.isMutating = false) ∧
    (a.Run w).2.gitOps = w.gitOps ∧ (a.Run w).2.fs = w.fs := by
  obtain ⟨h1, h2, h3, h4, h5⟩ := hh
  obtain ⟨c1, c2⟩ := hc
  rcases hmode with hm | hm <;>
  simp [Applier.callsOf, Applier.Run, World.GetDefaultBranch, MockOperations.GetDefaultBranch,
    World.GetCurrentBranch, MockOperations.GetCurrentBranch, World.IsWorkingTreeClean,
    MockOperations.IsWorkingTreeClean, Applier.evaluateMode, World.FileExists, World.ReadFile,
    ModeUpsert, ModeExists, Call.isMutating, *]

/-- Witness of C2: the scenario of `TestApplierUpsertModeIdenticalContent`. -/
theorem Run_identical_upsert_exists_witness :
    DestHasContent (demoApplier ModeUpsert "" demoExisting)
      (demoWorld (Node.file demoExisting)) demoExisting ∧
    (Applier.Run (demoApplier ModeUpsert "" demoExisting)
      (demoWorld (Node.file demoExisting))).1 =
      (some { DefaultBranch := "main", Action := "no action taken",
              NoActionReason := "file content is already identical" }, none) :=
  ⟨⟨rfl, rfl⟩, (Run_identical_upsert_exists (demoApplier ModeUpsert "" demoExisting)
    (demoWorld (Node.file demoExisting)) (Or.inl rfl) ⟨rfl, rfl, rfl, rfl, rfl⟩
    ⟨rfl, rfl⟩).1⟩

/-- C3, as amended: in mode match, with healthy preconditions and for every
expected hash, when the destination file exists and its bytes equal the new
content, `Run` returns no error and a result with action "no action taken", and
makes no mutating call; the reason is exactly "file content is already
identical" when the digest of the file equals `ExpectSHA256`. -/
theorem Run_identical_match (a : Applier) (w : World)
    (hmode : a.cfg.Mode = ModeMatch) (hh : Healthy w)
    (hc : DestHasContent a w a.newContent) :
    (∃ reason, (a.Run w).1 = (some { DefaultBranch := w.gitOps.DefaultBranch,
                                      Action := "no action taken",
                                      NoActionReason := reason }, none) ∧
      (SHA256Bytes a.newContent = a.cfg.ExpectSHA256 →
        reason = "file content is already identical")) ∧
    (∀ c ∈ a.callsOf w, c.isMutating = false) ∧
    (a.Run w).2.gitOps = w.gitOps ∧ (a.Run w).2.fs = w.fs := by
  obtain ⟨h1, h2, h3, h4, h5⟩ := hh
  obtain ⟨c1, c2⟩ := hc
  by_cases hx : SHA256Bytes a.newContent = a.cfg.ExpectSHA256 <;>
  simp [Applier.callsOf, Applier.Run, World.GetDefaultBranch, MockOperations.GetDefaultBranch,
    World.GetCurrentBranch, MockOperations.GetCurrentBranch, World.IsWorkingTreeClean,
    MockOperations.IsWorkingTreeClean, Applier.evaluateMode, World.FileExists, World.ReadFile,
    ModeUpsert, ModeExists, ModeMatch, Call.isMutating, *]

set_option maxRecDepth 1000000 in
/-- Witness of C3, as amended: identical content whose digest is the expected hash. -/
theorem Run_identical_match_witness :
    DestHasContent
      (demoApplier ModeMatch "10f0bc8d9c3fb4d49a55e289239694b7588d4cd9a285a7b2751d361100099aeb"
        demoExisting) (demoWorld (Node.file demoExisting)) demoExisting ∧
    ∃ reason, (Applier.Run
      (demoApplier ModeMatch "10f0bc8d9c3fb4d49a55e289239694b7588d4cd9a285a7b2751d361100099aeb"
        demoExisting) (demoWorld (Node.file demoExisting))).1 =
      (some { DefaultBranch := "main", Action := "no action taken",
              NoActionReason := reason }, none) ∧
      (SHA256Bytes demoExisting =
          "10f0bc8d9c3fb4d49a55e289239694b7588d4cd9a285a7b2751d361100099aeb" →
        reason = "file content is already identical") :=
  ⟨⟨rfl, rfl⟩, (Run_identical_match
    (demoApplier ModeMatch "10f0bc8d9c3fb4d49a55e289239694b7588d4cd9a285a7b2751d361100099aeb"
      demoExisting) (demoWorld (Node.file demoExisting)) rfl ⟨rfl, rfl, rfl, rfl, rfl⟩
    ⟨rfl, rfl⟩).1⟩

/-- Counterexample to C3 as stated: mode match, healthy preconditions, a
destination file whose bytes equal the new content, and the expected hash
"wronghash": the reason is the hash mismatch, not "file content is already
identical". -/
theorem Run_identical_match_counterexample :
    (demoApplier ModeMatch "wronghash" demoExisting).cfg.Mode = ModeMatch ∧
    Healthy (demoWorld (Node.file demoExisting)) ∧
    DestHasContent (demoApplier ModeMatch "wronghash" demoExisting)
      (demoWorld (Node.file demoExisting))
      (demoApplier ModeMatch "wronghash" demoExisting).newContent ∧
    (Applier.Run (demoApplier ModeMatch "wronghash" demoExisting)
      (demoWorld (Node.file demoExisting))).1 =
      (some { DefaultBranch := "main", Action := "no action taken",
              NoActionReason := "file hash mismatch: expected wronghash, got " ++
                "10f0bc8d9c3fb4d49a55e289239694b7588d4cd9a285a7b2751d361100099aeb" }, none) ∧
    (Applier.Run (demoApplier ModeMatch "wronghash" demoExisting)
      (demoWorld (Node.file demoExisting))).1 ≠
      (some { DefaultBranch := "main", Action := "no action taken",
              NoActionReason := "file content is already identical" }, none) := by
  refine ⟨rfl, ⟨rfl, rfl, rfl, rfl, rfl⟩, ⟨rfl, rfl⟩, ?_, ?_⟩ <;> decide!

/-- C4: in mode match, with healthy preconditions, when the destination file
exists and its SHA-256 hex digest is not among the accepted fingerprints (the
entries of `ExpectSHA256`; more generally, when it is not the string
`ExpectSHA256` itself), `Run` returns no error and "no action taken" with the
reason "file hash mismatch: expected <expected>, got <digest>", whether or not
the existing bytes equal the new content; the run makes no mutating call and
leaves the port and the file system as they were. -/
theorem Run_match_hash_mismatch (a : Applier) (w : World) (existing : Bytes)
    (hmode : a.cfg.Mode = ModeMatch) (hh : Healthy w)
    (hc : DestHasContent a w existing)
    (hne : SHA256Bytes existing ∉ a.cfg.GetExpectedHashes ∨
      SHA256Bytes existing ≠ a.cfg.ExpectSHA256) :
    (a.Run w).1 = (some { DefaultBranch := w.gitOps.DefaultBranch, Action := "no action taken",
                          NoActionReason := "file hash mismatch: expected " ++
                            a.cfg.ExpectSHA256 ++ ", got " ++ SHA256Bytes existing }, none) ∧
    (∀ c ∈ a.callsOf w, c.isMutating = false) ∧
    (a.Run w).2.gitOps = w.gitOps ∧ (a.Run w).2.fs = w.fs := by
  obtain ⟨h1, h2, h3, h4, h5⟩ := hh
  obtain ⟨c1, c2⟩ := hc
  have hne2 : SHA256Bytes existing ≠ a.cfg.ExpectSHA256 := by
    rcases hne with h | h
    · exact fun heq => h (SHA256Bytes_mem_GetExpectedHashes a.cfg existing heq.symm)
    · exact h
  simp [Applier.callsOf, Applier.Run, World.GetDefaultBranch, MockOperations.GetDefaultBranch,
    World.GetCurrentBranch, MockOperations.GetCurrentBranch, World.IsWorkingTreeClean,
    MockOperations.IsWorkingTreeClean, Applier.evaluateMode, World.FileExists, World.ReadFile,
    ModeUpsert, ModeExists, ModeMatch, Call.isMutating, *]

/-- Witness of C4: the scenario of `TestApplierMatchModeHashMismatch`, with the
existing bytes equal to the new content. -/
theorem Run_match_hash_mismatch_witness :
    SHA256Bytes demoExisting ∉
      (demoApplier ModeMatch "wronghash123456789" demoExisting).cfg.GetExpectedHashes ∧
    (Applier.Run (demoApplier ModeMatch "wronghash123456789" demoExisting)
      (demoWorld (Node.file demoExisting))).1 =
      (some { DefaultBranch := "main", Action := "no action taken",
              NoActionReason := "file hash mismatch: expected " ++ "wronghash123456789" ++
                ", got " ++ SHA256Bytes demoExisting }, none) :=
  ⟨by decide!, (Run_match_hash_mismatch (demoApplier ModeMatch "wronghash123456789" demoExisting)
    (demoWorld (Node.file demoExisting)) demoExisting rfl ⟨rfl, rfl, rfl, rfl, rfl⟩
    ⟨rfl, rfl⟩ (Or.inl (by decide!))).1⟩

/-- C5: in mode exists and in mode match, with healthy preconditions, when the
destination file does not exist, `Run` returns no error and "no action taken"
with reason "file does not exist", for every new content and every expected
hash; the run makes no mutating call and leaves the port and the file system as
they were. -/
theorem Run_file_not_exist (a : Applier) (w : World)
    (hmode : a.cfg.Mode = ModeExists ∨ a.cfg.Mode = ModeMatch)
    (hh : Healthy w) (habsent : DestAbsent a w) :
    (a.Run w).1 = (some { DefaultBranch := w.gitOps.DefaultBranch, Action := "no action taken",
                          NoActionReason := "file does not exist" }, none) ∧
    (∀ c ∈ a.callsOf w, c.isMutating = false) ∧
    (a.Run w).2.gitOps = w.gitOps ∧ (a.Run w).2.fs = w.fs := by
  obtain ⟨h1, h2, h3, h4, h5⟩ := hh
  unfold DestAbsent at habsent
  rcases hmode with hm | hm <;>
  simp [Applier.callsOf, Applier.Run, World.GetDefaultBranch, MockOperations.GetDefaultBranch,
    World.GetCurrentBranch, MockOperations.GetCurrentBranch, World.IsWorkingTreeClean,
    MockOperations.IsWorkingTreeClean, Applier.evaluateMode, World.FileExists, World.ReadFile,
    ModeUpsert, ModeExists, ModeMatch, Call.isMutating, *]

/-- Witness of C5: the scenario of `TestApplierExistsModeFileNotExist`. -/
theorem Run_file_not_exist_witness :
    DestAbsent (demoApplier ModeExists "" demoNew) (demoWorld Node.absent) ∧
    (Applier.Run (demoApplier ModeExists "" demoNew) (demoWorld Node.absent)).1 =
      (some { DefaultBranch := "main", Action := "no action taken",
              NoActionReason := "file does not exist" }, none) :=
  ⟨rfl, (Run_file_not_exist (demoApplier ModeExists "" demoNew) (demoWorld Node.absent)
    (Or.inl rfl) ⟨rfl, rfl, rfl, rfl, rfl⟩ rfl).1⟩

/-- C6: in mode upsert and in mode exists, with healthy preconditions, without
dry-run and with every step succeeding, when the destination file exists and
its bytes differ from the new content, mode evaluation says proceed and `Run`
returns no error and a result with action "updated". -/
theorem Run_differing_upsert_exists (a : Applier) (w : World) (existing : Bytes)
    (hmode : a.cfg.Mode = ModeUpsert ∨ a.cfg.Mode = ModeExists)
    (hdry : a.cfg.DryRun = false) (hh : Healthy w) (hs : StepsSucceed a w)
    (hc : DestHasContent a w existing) (hne : existing ≠ a.newContent) :
    (a.evaluateMode w).1 = (true, "", none) ∧
    (a.Run w).1 = (some { DefaultBranch := w.gitOps.DefaultBranch, Action := "updated",
                          BranchName := a.determineBranchName,
                          PRURL := w.gitOps.PRURLToReturn }, none) := by
  obtain ⟨h1, h2, h3, h4, h5⟩ := hh
  obtain ⟨s1, s2, s3, s4, s5, s6, s7⟩ := hs
  obtain ⟨c1, c2⟩ := hc
  rcases hmode with hm | hm <;>
  simp [Applier.callsOf, Applier.Run, World.GetDefaultBranch, MockOperations.GetDefaultBranch,
    World.GetCurrentBranch, MockOperations.GetCurrentBranch, World.IsWorkingTreeClean,
    MockOperations.IsWorkingTreeClean, Applier.evaluateMode, World.FileExists, World.ReadFile,
    ModeUpsert, ModeExists, ModeMatch, Call.isMutating,
    World.CreateBranch, MockOperations.CreateBranch, World.WriteFile, git.WriteFile, os.MkdirAll, os.WriteFile,
    World.AddFile, MockOperations.AddFile, World.Commit, MockOperations.Commit,
    World.Push, MockOperations.Push, World.CreatePR, MockOperations.CreatePR,
    World.SwitchBranch, MockOperations.SwitchBranch, Applier.cleanup, *]

set_option maxRecDepth 1000000 in
/-- Witness of C6: the scenario of `TestApplierExistsModeFileExists`. -/
theorem Run_differing_upsert_exists_witness :
    DestHasContent (demoApplier ModeExists "" demoNew) (demoWorld (Node.file demoExisting))
      demoExisting ∧ demoExisting ≠ demoNew ∧
    (Applier.Run (demoApplier ModeExists "" demoNew) (demoWorld (Node.file demoExisting))).1 =
      (some { DefaultBranch := "main", Action := "updated",
              BranchName := "bulkfilepr/1c3ef9a7c817",
              PRURL := "https://github.com/owner/repo/pull/1" }, none) :=
  ⟨⟨rfl, rfl⟩, by decide, (Run_differing_upsert_exists (demoApplier ModeExists "" demoNew)
    (demoWorld (Node.file demoExisting)) demoExisting (Or.inr rfl) rfl
    ⟨rfl, rfl, rfl, rfl, rfl⟩ ⟨rfl, rfl, rfl, rfl, rfl, rfl, rfl⟩ ⟨rfl, rfl⟩ (by decide)).2⟩

/-- C7, on the code: with the expected value "h1,<digest>", whose second entry
is the digest of the existing file, and a new content that differs from the
existing one, the digest is among the entries of `GetExpectedHashes`, yet mode
evaluation does not proceed: it compares the digest with the whole value and
reports a hash mismatch. -/
theorem evaluateMode_match_second_entry :
    SHA256Bytes demoExisting ∈
      (demoApplier ModeMatch
        "h1,10f0bc8d9c3fb4d49a55e289239694b7588d4cd9a285a7b2751d361100099aeb"
        demoNew).cfg.GetExpectedHashes ∧
    demoExisting ≠ demoNew ∧
    (Applier.evaluateMode
      (demoApplier ModeMatch
        "h1,10f0bc8d9c3fb4d49a55e289239694b7588d4cd9a285a7b2751d361100099aeb" demoNew)
      (demoWorld (Node.file demoExisting))).1 =
      (false, "file hash mismatch: expected " ++
        "h1,10f0bc8d9c3fb4d49a55e289239694b7588d4cd9a285a7b2751d361100099aeb" ++ ", got " ++
        "10f0bc8d9c3fb4d49a55e289239694b7588d4cd9a285a7b2751d361100099aeb", none) := by
  refine ⟨?_, ?_, ?_⟩ <;> decide!

/-- C8: for every existing content and every different new content, in mode
match with the expected hash equal to the SHA-256 hex digest of the existing
content, with healthy preconditions, without dry-run and with every step
succeeding, `Run` returns no error and a result with action "updated". -/
theorem Run_match_hash_match (a : Applier) (w : World) (existing : Bytes)
    (hmode : a.cfg.Mode = ModeMatch) (hexp : a.cfg.ExpectSHA256 = SHA256Bytes existing)
    (hdry : a.cfg.DryRun = false) (hh : Healthy w) (hs : StepsSucceed a w)
    (hc : DestHasContent a w existing) (hne : a.newContent ≠ existing) :
    (a.Run w).1 = (some { DefaultBranch := w.gitOps.DefaultBranch, Action := "updated",
                          BranchName := a.determineBranchName,
                          PRURL := w.gitOps.PRURLToReturn }, none) := by
  obtain ⟨h1, h2, h3, h4, h5⟩ := hh
  obtain ⟨s1, s2, s3, s4, s5, s6, s7⟩ := hs
  obtain ⟨c1, c2⟩ := hc
  have hne2 : ¬ existing = a.newContent := fun h => hne h.symm
  simp [Applier.callsOf, Applier.Run, World.GetDefaultBranch, MockOperations.GetDefaultBranch,
    World.GetCurrentBranch, MockOperations.GetCurrentBranch, World.IsWorkingTreeClean,
    MockOperations.IsWorkingTreeClean, Applier.evaluateMode, World.FileExists, World.ReadFile,
    ModeUpsert, ModeExists, ModeMatch, Call.isMutating,
    World.CreateBranch, MockOperations.CreateBranch, World.WriteFile, git.WriteFile, os.MkdirAll, os.WriteFile,
    World.AddFile, MockOperations.AddFile, World.Commit, MockOperations.Commit,
    World.Push, MockOperations.Push, World.CreatePR, MockOperations.CreatePR,
    World.SwitchBranch, MockOperations.SwitchBranch, Applier.cleanup, *]

set_option maxRecDepth 1000000 in
/-- Witness of C8: the scenario of `TestApplierMatchModeHashMatch`. -/
theorem Run_match_hash_match_witness :
    demoNew ≠ demoExisting ∧
    (Applier.Run (demoApplier ModeMatch (SHA256Bytes demoExisting) demoNew)
      (demoWorld (Node.file demoExisting))).1 =
      (some { DefaultBranch := "main", Action := "updated",
              BranchName := "bulkfilepr/1c3ef9a7c817",
              PRURL := "https://github.com/owner/repo/pull/1" }, none) :=
  ⟨by decide, Run_match_hash_match (demoApplier ModeMatch (SHA256Bytes demoExisting) demoNew)
    (demoWorld (Node.file demoExisting)) demoExisting rfl rfl rfl
    ⟨rfl, rfl, rfl, rfl, rfl⟩ ⟨rfl, rfl, rfl, rfl, rfl, rfl, rfl⟩ ⟨rfl, rfl⟩ (by decide)⟩

/-- C9: `GetExpectedHashes` returns, in order, the comma-separated pieces of
`ExpectSHA256`, each with its surrounding white space trimmed, the empty ones
dropped. The entries of `s,t` are those of `s` followed by those of `t`; a
string without a comma gives its trimmed text, or nothing when that is empty;
trimming removes white space at the two ends and leaves ends that are not white
space; the empty string gives the empty list, "a , b" gives [a, b], and a
trailing comma adds no entry. -/
theorem GetExpectedHashes_spec (c : Config) (s t : String) :
    Config.GetExpectedHashes { c with ExpectSHA256 := s ++ "," ++ t } =
      Config.GetExpectedHashes { c with ExpectSHA256 := s } ++
        Config.GetExpectedHashes { c with ExpectSHA256 := t } ∧
    (',' ∉ s.data → Config.GetExpectedHashes { c with ExpectSHA256 := s } =
      if trimSpace s.data = [] then [] else [String.mk (trimSpace s.data)]) ∧
    ((∃ l r, s.data = l ++ trimSpace s.data ++ r ∧ (∀ x ∈ l, isSpace x = true) ∧
        (∀ x ∈ r, isSpace x = true)) ∧
      (∀ x, (trimSpace s.data).head? = some x → isSpace x = false) ∧
      (∀ x, (trimSpace s.data).getLast? = some x → isSpace x = false)) ∧
    Config.GetExpectedHashes { c with ExpectSHA256 := "" } = [] ∧
    Config.GetExpectedHashes { c with ExpectSHA256 := "abc123def456 , xyz789ghi012" } =
      ["abc123def456", "xyz789ghi012"] ∧
    Config.GetExpectedHashes { c with ExpectSHA256 := s ++ "," } =
      Config.GetExpectedHashes { c with ExpectSHA256 := s } := by
  have hsplit : ∀ u v : String,
      Config.GetExpectedHashes { c with ExpectSHA256 := u ++ "," ++ v } =
        Config.GetExpectedHashes { c with ExpectSHA256 := u } ++
          Config.GetExpectedHashes { c with ExpectSHA256 := v } := by
    intro u v
    have hdata : (u ++ "," ++ v).data = u.data ++ ',' :: v.data := by
      simp [String.data_append]
    simp only [Config.GetExpectedHashes, hdata, splitOn_append_comma, List.map_append,
      List.filter_append]
  have hempty : Config.GetExpectedHashes { c with ExpectSHA256 := "" } = [] := by
    simp [Config.GetExpectedHashes, List.splitOn, List.splitOnP_nil, trimSpace]
  refine ⟨hsplit s t, ?_, trimSpace_spec s.data, hempty, ?_, ?_⟩
  · intro hs
    have hsp : s.data.splitOn ',' = [s.data] := by
      unfold List.splitOn
      apply List.splitOnP_eq_single
      intro x hx hp
      simp only [beq_iff_eq] at hp
      exact hs (hp ▸ hx)
    simp only [Config.GetExpectedHashes, hsp]
    by_cases h : trimSpace s.data = [] <;> simp [h]
  · simp only [Config.GetExpectedHashes]
    decide!
  · have := hsplit s ""
    rw [String.append_empty] at this
    rw [this, hempty, List.append_nil]

/-- Witness of C9: a single hash without a comma is returned as it is. -/
theorem GetExpectedHashes_spec_witness :
    ',' ∉ "abc123def456".data ∧
    Config.GetExpectedHashes { DefaultConfig with ExpectSHA256 := "abc123def456" } =
      ["abc123def456"] :=
  ⟨by decide, ((GetExpectedHashes_spec DefaultConfig "abc123def456" "").2.1 (by decide)).trans
    (by decide!)⟩

/-- C10: for every configuration and every state of the port in which the
default-branch and current-branch queries succeed and the current branch is not
the default branch, `Run` returns no result and the error "not on default
branch" carrying the current and the expected branch; the run makes the two
queries and nothing else, so no mutating call and no file write, and leaves the
port and the file system as they were. -/
theorem Run_not_on_default_branch (a : Applier) (w : World)
    (hd : w.gitOps.DefaultBranchErr = none) (hc : w.gitOps.CurrentBranchErr = none)
    (hne : w.gitOps.CurrentBranch ≠ w.gitOps.DefaultBranch) :
    (a.Run w).1 = (none, some (Error.notOnDefaultBranch w.gitOps.CurrentBranch
                                w.gitOps.DefaultBranch)) ∧
    a.callsOf w = [Call.GetDefaultBranch, Call.GetCurrentBranch] ∧
    (∀ c ∈ a.callsOf w, c.isMutating = false) ∧
    (a.Run w).2.gitOps = w.gitOps ∧ (a.Run w).2.fs = w.fs := by
  simp [Applier.callsOf, Applier.Run, World.GetDefaultBranch, MockOperations.GetDefaultBranch,
    World.GetCurrentBranch, MockOperations.GetCurrentBranch, World.IsWorkingTreeClean,
    MockOperations.IsWorkingTreeClean, Applier.evaluateMode, World.FileExists, World.ReadFile,
    ModeUpsert, ModeExists, ModeMatch, Call.isMutating, *]

/-- Witness of C10: the scenario of `TestApplierNotOnDefaultBranch`. -/
theorem Run_not_on_default_branch_witness :
    "feature-branch" ≠ "main" ∧
    (Applier.Run (demoApplier ModeUpsert "" demoNew)
      { gitOps := { NewMockOperations with CurrentBranch := "feature-branch" },
        fs := demoFS Node.absent }).1 =
      (none, some (Error.notOnDefaultBranch "feature-branch" "main")) :=
  ⟨by decide, (Run_not_on_default_branch (demoApplier ModeUpsert "" demoNew)
    { gitOps := { NewMockOperations with CurrentBranch := "feature-branch" },
      fs := demoFS Node.absent } rfl rfl (by decide)).1⟩

/-- C11: for every configuration and every state of the port in which the
current branch is the default branch but the working tree is reported dirty,
`Run` returns no result and the error "working tree is not clean"; the run makes
the three queries and nothing else, so no mutating call and no file write,
whatever the mode and the state of the destination file. -/
theorem Run_dirty_working_tree (a : Applier) (w : World)
    (hd : w.gitOps.DefaultBranchErr = none) (hc : w.gitOps.CurrentBranchErr = none)
    (hb : w.gitOps.CurrentBranch = w.gitOps.DefaultBranch)
    (hs : w.gitOps.IsCleanErr = none) (hk : w.gitOps.IsClean = false) :
    (a.Run w).1 = (none, some (Error.msg
      "working tree is not clean: please commit or stash your changes")) ∧
    a.callsOf w = [Call.GetDefaultBranch, Call.GetCurrentBranch, Call.IsWorkingTreeClean] ∧
    (∀ c ∈ a.callsOf w, c.isMutating = false) ∧
    (a.Run w).2.gitOps = w.gitOps ∧ (a.Run w).2.fs = w.fs := by
  simp [Applier.callsOf, Applier.Run, World.GetDefaultBranch, MockOperations.GetDefaultBranch,
    World.GetCurrentBranch, MockOperations.GetCurrentBranch, World.IsWorkingTreeClean,
    MockOperations.IsWorkingTreeClean, Applier.evaluateMode, World.FileExists, World.ReadFile,
    ModeUpsert, ModeExists, ModeMatch, Call.isMutating, *]

/-- Witness of C11: the scenario of `TestApplierDirtyWorkingTree`. -/
theorem Run_dirty_working_tree_witness :
    (Applier.Run (demoApplier ModeUpsert "" demoNew)
      { gitOps := { NewMockOperations with IsClean := false },
        fs := demoFS Node.absent }).1 =
      (none, some (Error.msg
        "working tree is not clean: please commit or stash your changes")) :=
  (Run_dirty_working_tree (demoApplier ModeUpsert "" demoNew)
    { gitOps := { NewMockOperations with IsClean := false },
      fs := demoFS Node.absent } rfl rfl rfl rfl rfl).1

/-- C12: whenever `GetDefaultBranch` fails, `Run` returns no result and the
error "failed to detect default branch" wrapping that failure; `GetDefaultBranch`
is the only call of the run, so no other call on the port and no access to the
file system is made, and the port and the file system are as they were. -/
theorem Run_default_branch_failure (a : Applier) (w : World) (err : Error)
    (hd : w.gitOps.DefaultBranchErr = some err) :
    (a.Run w).1 = (none, some (Error.wrap "failed to detect default branch" err)) ∧
    a.callsOf w = [Call.GetDefaultBranch] ∧
    (a.Run w).2.gitOps = w.gitOps ∧ (a.Run w).2.fs = w.fs := by
  simp [Applier.callsOf, Applier.Run, World.GetDefaultBranch, MockOperations.GetDefaultBranch,
    World.GetCurrentBranch, MockOperations.GetCurrentBranch, World.IsWorkingTreeClean,
    MockOperations.IsWorkingTreeClean, Applier.evaluateMode, World.FileExists, World.ReadFile,
    ModeUpsert, ModeExists, ModeMatch, Call.isMutating, *]

/-- Witness of C12: a port whose default-branch query fails. -/
theorem Run_default_branch_failure_witness :
    (Applier.Run (demoApplier ModeUpsert "" demoNew)
      { gitOps := { NewMockOperations with DefaultBranchErr := some (Error.msg "gh failed") },
        fs := demoFS Node.absent }).1 =
      (none, some (Error.wrap "failed to detect default branch" (Error.msg "gh failed"))) ∧
    Applier.callsOf (demoApplier ModeUpsert "" demoNew)
      { gitOps := { NewMockOperations with DefaultBranchErr := some (Error.msg "gh failed") },
        fs := demoFS Node.absent } = [Call.GetDefaultBranch] :=
  ⟨(Run_default_branch_failure (demoApplier ModeUpsert "" demoNew)
    { gitOps := { NewMockOperations with DefaultBranchErr := some (Error.msg "gh failed") },
      fs := demoFS Node.absent } (Error.msg "gh failed") rfl).1,
   (Run_default_branch_failure (demoApplier ModeUpsert "" demoNew)
    { gitOps := { NewMockOperations with DefaultBranchErr := some (Error.msg "gh failed") },
      fs := demoFS Node.absent } (Error.msg "gh failed") rfl).2.1⟩

/-- C13: the branch name is `cfg.Branch` itself when that is not empty, and
otherwise "bulkfilepr/" followed by the first 12 characters of the hex SHA-256 of
the new content, which are exactly 12 lowercase hexadecimal digits; every result
of `Run` other than "no action taken" carries this name as `BranchName`, and
`CreateBranch` is called with this name only. -/
theorem Run_branch_name (a : Applier) (w : World) :
    a.determineBranchName =
      (if a.cfg.Branch ≠ "" then a.cfg.Branch
       else "bulkfilepr/" ++ String.mk ((SHA256Bytes a.newContent).data.take 12)) ∧
    ((SHA256Bytes a.newContent).data.take 12).length = 12 ∧
    (∀ c ∈ (SHA256Bytes a.newContent).data.take 12, c ∈ "0123456789abcdef".data) ∧
    (∀ r, (a.Run w).1.1 = some r → r.Action ≠ "no action taken" →
      r.BranchName = a.determineBranchName) ∧
    (∀ n, Call.CreateBranch n ∈ a.callsOf w → n = a.determineBranchName) := by
  refine ⟨determineBranchName_eq a,
    take_12_length _ (SHA256Bytes_length a.newContent), ?_,
    (Run_uses_determineBranchName a w).1, (Run_uses_determineBranchName a w).2⟩
  intro c hc
  exact SHA256Bytes_chars a.newContent c (List.mem_of_mem_take hc)

/-- Witness of C13: in the scenario of `TestApplierAutoBranchName` the result is
"updated" and carries the derived name. -/
theorem Run_branch_name_witness :
    (Applier.Run (demoApplier ModeUpsert "" demoNew) (demoWorld Node.absent)).1.1 =
      some { DefaultBranch := "main", Action := "updated",
             BranchName := "bulkfilepr/1c3ef9a7c817",
             PRURL := "https://github.com/owner/repo/pull/1" } ∧
    "bulkfilepr/1c3ef9a7c817" = (demoApplier ModeUpsert "" demoNew).determineBranchName :=
  ⟨by decide!, (Run_branch_name (demoApplier ModeUpsert "" demoNew) (demoWorld Node.absent)).2.2.2.1
    { DefaultBranch := "main", Action := "updated", BranchName := "bulkfilepr/1c3ef9a7c817",
      PRURL := "https://github.com/owner/repo/pull/1" } (by decide!) (by decide)⟩

/-- C14: when no explicit branch is configured, the branch name is a function of
the new content alone: two appliers with the same new content derive the same
name, whatever their other settings; and any two runs of them, in any two
worlds, that return a result other than "no action taken" return the same
`BranchName`, and call `CreateBranch`, if they do, with the same name. -/
theorem branch_name_deterministic (a₁ a₂ : Applier) (w₁ w₂ : World)
    (h₁ : a₁.cfg.Branch = "") (h₂ : a₂.cfg.Branch = "")
    (hc : a₁.newContent = a₂.newContent) :
    a₁.determineBranchName = a₂.determineBranchName ∧
    (∀ r₁ r₂, (a₁.Run w₁).1.1 = some r₁ → (a₂.Run w₂).1.1 = some r₂ →
      r₁.Action ≠ "no action taken" → r₂.Action ≠ "no action taken" →
      r₁.BranchName = r₂.BranchName) ∧
    (∀ n₁ n₂, Call.CreateBranch n₁ ∈ a₁.callsOf w₁ → Call.CreateBranch n₂ ∈ a₂.callsOf w₂ →
      n₁ = n₂) := by
  have hn : a₁.determineBranchName = a₂.determineBranchName := by
    rw [determineBranchName_eq, determineBranchName_eq, h₁, h₂, hc]
  refine ⟨hn, ?_, ?_⟩
  · intro r₁ r₂ e₁ e₂ n₁ n₂
    rw [(Run_uses_determineBranchName a₁ w₁).1 r₁ e₁ n₁,
      (Run_uses_determineBranchName a₂ w₂).1 r₂ e₂ n₂, hn]
  · intro n₁ n₂ m₁ m₂
    rw [(Run_uses_determineBranchName a₁ w₁).2 n₁ m₁,
      (Run_uses_determineBranchName a₂ w₂).2 n₂ m₂, hn]

/-- Witness of C14: an upsert run and a match run in dry-run mode, on different
paths and worlds, with the same new content. -/
theorem branch_name_deterministic_witness :
    (demoApplier ModeUpsert "" demoNew).determineBranchName =
      (NewApplier { Mode := ModeMatch, RepoPath := "other.txt", Repo := "elsewhere",
                    DryRun := true, Draft := true, Remote := "upstream",
                    ExpectSHA256 := "abc" } demoNew).determineBranchName :=
  (branch_name_deterministic (demoApplier ModeUpsert "" demoNew)
    (NewApplier { Mode := ModeMatch, RepoPath := "other.txt", Repo := "elsewhere",
                  DryRun := true, Draft := true, Remote := "upstream",
                  ExpectSHA256 := "abc" } demoNew)
    (demoWorld Node.absent) (demoWorld (Node.file demoExisting)) rfl rfl rfl).1

/-- C15: for every configuration with dry-run set, when the preconditions are
healthy and mode evaluation says proceed, `Run` returns no error and a result
with action "would update" and a branch name that is not empty, whether
`cfg.Branch` is empty or not; the run makes no mutating call and leaves the port
and the file system as they were. -/
theorem Run_dry_run (a : Applier) (w : World) (reason : String)
    (hdry : a.cfg.DryRun = true) (hh : Healthy w)
    (hp : (a.evaluateMode w).1 = (true, reason, none)) :
    (a.Run w).1 = (some { DefaultBranch := w.gitOps.DefaultBranch,
                          BranchName := a.determineBranchName,
                          Action := "would update" }, none) ∧
    a.determineBranchName ≠ "" ∧
    (∀ c ∈ a.callsOf w, c.isMutating = false) ∧
    (a.Run w).2.gitOps = w.gitOps ∧ (a.Run w).2.fs = w.fs := by
  obtain ⟨h1, h2, h3, h4, h5⟩ := hh
  rw [evaluateMode_eq] at hp
  simp only at hp
  have hm := evalCalls_not_mutating a w.fs
  have hne := determineBranchName_ne_empty a
  have key : a.callsOf w =
      [Call.GetDefaultBranch, Call.GetCurrentBranch, Call.IsWorkingTreeClean] ++
        a.evalCalls w.fs := by
    simp [Applier.callsOf, Applier.Run, World.GetDefaultBranch, MockOperations.GetDefaultBranch,
    World.GetCurrentBranch, MockOperations.GetCurrentBranch, World.IsWorkingTreeClean,
    MockOperations.IsWorkingTreeClean, World.afterChecks, Applier.afterEval, evaluateMode_eq,
    Applier.afterBranch, Applier.afterWrite, Applier.afterAdd, Applier.afterCommit,
    Applier.afterPush, Applier.afterPR, Applier.cleanup,
    World.CreateBranch, MockOperations.CreateBranch, World.WriteFile,
    World.AddFile, MockOperations.AddFile, World.Commit, MockOperations.Commit,
    World.Push, MockOperations.Push, World.CreatePR, MockOperations.CreatePR,
    World.SwitchBranch, MockOperations.SwitchBranch, Call.isMutating, h1, h2, h3, h4, h5, hp, hdry]
  refine ⟨?_, hne, ?_, ?_, ?_⟩
  · simp [Applier.callsOf, Applier.Run, World.GetDefaultBranch, MockOperations.GetDefaultBranch,
    World.GetCurrentBranch, MockOperations.GetCurrentBranch, World.IsWorkingTreeClean,
    MockOperations.IsWorkingTreeClean, World.afterChecks, Applier.afterEval, evaluateMode_eq,
    Applier.afterBranch, Applier.afterWrite, Applier.afterAdd, Applier.afterCommit,
    Applier.afterPush, Applier.afterPR, Applier.cleanup,
    World.CreateBranch, MockOperations.CreateBranch, World.WriteFile,
    World.AddFile, MockOperations.AddFile, World.Commit, MockOperations.Commit,
    World.Push, MockOperations.Push, World.CreatePR, MockOperations.CreatePR,
    World.SwitchBranch, MockOperations.SwitchBranch, Call.isMutating, h1, h2, h3, h4, h5, hp, hdry]
  · intro c hc
    rw [key] at hc
    rcases List.mem_append.mp hc with h | h
    · simp only [List.mem_cons, List.mem_singleton, List.not_mem_nil, or_false] at h
      rcases h with rfl | rfl | rfl <;> rfl
    · exact hm c h
  · simp [Applier.callsOf, Applier.Run, World.GetDefaultBranch, MockOperations.GetDefaultBranch,
    World.GetCurrentBranch, MockOperations.GetCurrentBranch, World.IsWorkingTreeClean,
    MockOperations.IsWorkingTreeClean, World.afterChecks, Applier.afterEval, evaluateMode_eq,
    Applier.afterBranch, Applier.afterWrite, Applier.afterAdd, Applier.afterCommit,
    Applier.afterPush, Applier.afterPR, Applier.cleanup,
    World.CreateBranch, MockOperations.CreateBranch, World.WriteFile,
    World.AddFile, MockOperations.AddFile, World.Commit, MockOperations.Commit,
    World.Push, MockOperations.Push, World.CreatePR, MockOperations.CreatePR,
    World.SwitchBranch, MockOperations.SwitchBranch, Call.isMutating, h1, h2, h3, h4, h5, hp, hdry]
  · simp [Applier.callsOf, Applier.Run, World.GetDefaultBranch, MockOperations.GetDefaultBranch,
    World.GetCurrentBranch, MockOperations.GetCurrentBranch, World.IsWorkingTreeClean,
    MockOperations.IsWorkingTreeClean, World.afterChecks, Applier.afterEval, evaluateMode_eq,
    Applier.afterBranch, Applier.afterWrite, Applier.afterAdd, Applier.afterCommit,
    Applier.afterPush, Applier.afterPR, Applier.cleanup,
    World.CreateBranch, MockOperations.CreateBranch, World.WriteFile,
    World.AddFile, MockOperations.AddFile, World.Commit, MockOperations.Commit,
    World.Push, MockOperations.Push, World.CreatePR, MockOperations.CreatePR,
    World.SwitchBranch, MockOperations.SwitchBranch, Call.isMutating, h1, h2, h3, h4, h5, hp, hdry]

set_option maxRecDepth 1000000 in
/-- Witness of C15: the scenario of `TestApplierDryRun`. -/
theorem Run_dry_run_witness :
    (Applier.evaluateMode demoDryRunApplier (demoWorld Node.absent)).1 = (true, "", none) ∧
    (Applier.Run demoDryRunApplier (demoWorld Node.absent)).1 =
      (some { DefaultBranch := "main", BranchName := "bulkfilepr/1c3ef9a7c817",
              Action := "would update" }, none) :=
  ⟨rfl, (Run_dry_run demoDryRunApplier (demoWorld Node.absent) ""
    rfl ⟨rfl, rfl, rfl, rfl, rfl⟩ rfl).1⟩

/-- C16: for every configuration with dry-run set, every state of the port and
every state of the file system, whatever `Run` returns, the port and the file
system are after the run what they were before it, and the run makes no
mutating call. -/
theorem Run_dry_run_frame (a : Applier) (w : World) (hdry : a.cfg.DryRun = true) :
    (a.Run w).2.gitOps = w.gitOps ∧ (a.Run w).2.fs = w.fs ∧
    ∀ c ∈ a.callsOf w, c.isMutating = false := by
  have hm := evalCalls_not_mutating a w.fs
  unfold Applier.callsOf
  apply Run_cases a w (fun o => o.2.gitOps = w.gitOps ∧ o.2.fs = w.fs ∧
    ∀ c ∈ o.2.calls.drop w.calls.length, c.isMutating = false)
  all_goals intros
  all_goals simp_all [World.afterChecks, Applier.afterEval, Call.isMutating]

/-- Witness of C16: a dry run stopped by a dirty working tree leaves the port as
it was. -/
theorem Run_dry_run_frame_witness :
    (Applier.Run demoDryRunApplier
      { gitOps := { NewMockOperations with IsClean := false },
        fs := demoFS Node.absent }).2.gitOps =
      { NewMockOperations with IsClean := false } :=
  (Run_dry_run_frame demoDryRunApplier
    { gitOps := { NewMockOperations with IsClean := false },
      fs := demoFS Node.absent } rfl).1

/-- C17: in a run without dry-run in which the preconditions are healthy, mode
evaluation says proceed and every step succeeds, the mutating calls are exactly,
in this order and once each: `CreateBranch` of the branch name, the write of the
new content to the destination path, `AddFile` of the path, `Commit` of the
resolved message, `Push` to the configured remote, `CreatePR` from the branch to
the default branch with the resolved title and body and the draft flag, and
`SwitchBranch` to the default branch. -/
theorem Run_mutating_sequence (a : Applier) (w : World) (reason : String)
    (hdry : a.cfg.DryRun = false) (hh : Healthy w)
    (hp : (a.evaluateMode w).1 = (true, reason, none)) (hs : StepsSucceed a w) :
    (a.callsOf w).filter Call.isMutating =
      [Call.CreateBranch a.determineBranchName,
       Call.WriteFile a.repoDir a.cfg.RepoPath a.newContent,
       Call.AddFile a.cfg.RepoPath,
       Call.Commit a.cfg.GetCommitMessage,
       Call.Push a.cfg.Remote a.determineBranchName,
       Call.CreatePR w.gitOps.DefaultBranch a.determineBranchName a.cfg.GetPRTitle
         a.cfg.GetPRBody a.cfg.Draft,
       Call.SwitchBranch w.gitOps.DefaultBranch] := by
  obtain ⟨h1, h2, h3, h4, h5⟩ := hh
  obtain ⟨s1, s2, s3, s4, s5, s6, s7⟩ := hs
  rw [evaluateMode_eq] at hp
  simp only at hp
  have hm : (a.evalCalls w.fs).filter Call.isMutating = [] :=
    List.filter_eq_nil_iff.mpr (fun c hc => by simp [evalCalls_not_mutating a w.fs c hc])
  have key : a.callsOf w =
      [Call.GetDefaultBranch, Call.GetCurrentBranch, Call.IsWorkingTreeClean] ++
        a.evalCalls w.fs ++
      [Call.CreateBranch a.determineBranchName,
       Call.WriteFile a.repoDir a.cfg.RepoPath a.newContent,
       Call.AddFile a.cfg.RepoPath,
       Call.Commit a.cfg.GetCommitMessage,
       Call.Push a.cfg.Remote a.determineBranchName,
       Call.CreatePR w.gitOps.DefaultBranch a.determineBranchName a.cfg.GetPRTitle
         a.cfg.GetPRBody a.cfg.Draft,
       Call.SwitchBranch w.gitOps.DefaultBranch] := by
    simp [Applier.callsOf, Applier.Run, World.GetDefaultBranch, MockOperations.GetDefaultBranch,
    World.GetCurrentBranch, MockOperations.GetCurrentBranch, World.IsWorkingTreeClean,
    MockOperations.IsWorkingTreeClean, World.afterChecks, Applier.afterEval, evaluateMode_eq,
    Applier.afterBranch, Applier.afterWrite, Applier.afterAdd, Applier.afterCommit,
    Applier.afterPush, Applier.afterPR, Applier.cleanup,
    World.CreateBranch, MockOperations.CreateBranch, World.WriteFile,
    World.AddFile, MockOperations.AddFile, World.Commit, MockOperations.Commit,
    World.Push, MockOperations.Push, World.CreatePR, MockOperations.CreatePR,
    World.SwitchBranch, MockOperations.SwitchBranch, git.WriteFile, os.MkdirAll, os.WriteFile, h1, h2, h3, h4, h5, s1, s2,
    s3, s4, s5, s6, s7, hp, hdry]
  rw [key, List.filter_append, List.filter_append, hm]
  rfl

/-- Witness of C17: the scenario of `TestApplierDraftPR` without the draft flag. -/
theorem Run_mutating_sequence_witness :
    (Applier.evaluateMode (demoApplier ModeUpsert "" demoNew) (demoWorld Node.absent)).1 =
      (true, "", none) ∧
    (Applier.callsOf (demoApplier ModeUpsert "" demoNew) (demoWorld Node.absent)).filter
        Call.isMutating =
      [Call.CreateBranch (demoApplier ModeUpsert "" demoNew).determineBranchName,
       Call.WriteFile "repo" "test/file.txt" demoNew,
       Call.AddFile "test/file.txt",
       Call.Commit "chore: update test/file.txt",
       Call.Push "origin" (demoApplier ModeUpsert "" demoNew).determineBranchName,
       Call.CreatePR "main" (demoApplier ModeUpsert "" demoNew).determineBranchName
         "Update test/file.txt" "This PR updates the standardized file at `test/file.txt`."
         false,
       Call.SwitchBranch "main"] :=
  ⟨rfl, Run_mutating_sequence (demoApplier ModeUpsert "" demoNew) (demoWorld Node.absent) ""
    rfl ⟨rfl, rfl, rfl, rfl, rfl⟩ rfl ⟨rfl, rfl, rfl, rfl, rfl, rfl, rfl⟩⟩

/-- C18: in a run without dry-run, with healthy preconditions, mode evaluation
saying proceed and the branch created, for each of the steps write file, stage,
commit, push and create PR: if that step is the first to fail, `Run` returns no
result and the error of the step wrapped under its own text ("failed to write
file", "failed to stage file", "failed to commit", "failed to push", "failed to
create PR"); the mutating calls are the steps up to the failing one followed by
one `SwitchBranch` to the default branch, so no later step is attempted and the
switch is attempted exactly once, after the failing step. -/
theorem Run_step_failure (a : Applier) (w : World) (reason : String)
    (hdry : a.cfg.DryRun = false) (hh : Healthy w)
    (hp : (a.evaluateMode w).1 = (true, reason, none))
    (hb : w.gitOps.CreateBranchErr = none) :
    (∀ err, (git.WriteFile w.fs a.repoDir a.cfg.RepoPath a.newContent).1 = some err →
      (a.Run w).1 = (none, some (Error.wrap "failed to write file" err)) ∧
      (a.callsOf w).filter Call.isMutating =
        [Call.CreateBranch a.determineBranchName,
         Call.WriteFile a.repoDir a.cfg.RepoPath a.newContent,
         Call.SwitchBranch w.gitOps.DefaultBranch]) ∧
    (∀ err, (git.WriteFile w.fs a.repoDir a.cfg.RepoPath a.newContent).1 = none →
      w.gitOps.AddFileErr = some err →
      (a.Run w).1 = (none, some (Error.wrap "failed to stage file" err)) ∧
      (a.callsOf w).filter Call.isMutating =
        [Call.CreateBranch a.determineBranchName,
         Call.WriteFile a.repoDir a.cfg.RepoPath a.newContent,
         Call.AddFile a.cfg.RepoPath,
         Call.SwitchBranch w.gitOps.DefaultBranch]) ∧
    (∀ err, (git.WriteFile w.fs a.repoDir a.cfg.RepoPath a.newContent).1 = none →
      w.gitOps.AddFileErr = none → w.gitOps.CommitErr = some err →
      (a.Run w).1 = (none, some (Error.wrap "failed to commit" err)) ∧
      (a.callsOf w).filter Call.isMutating =
        [Call.CreateBranch a.determineBranchName,
         Call.WriteFile a.repoDir a.cfg.RepoPath a.newContent,
         Call.AddFile a.cfg.RepoPath,
         Call.Commit a.cfg.GetCommitMessage,
         Call.SwitchBranch w.gitOps.DefaultBranch]) ∧
    (∀ err, (git.WriteFile w.fs a.repoDir a.cfg.RepoPath a.newContent).1 = none →
      w.gitOps.AddFileErr = none → w.gitOps.CommitErr = none →
      w.gitOps.PushErr = some err →
      (a.Run w).1 = (none, some (Error.wrap "failed to push" err)) ∧
      (a.callsOf w).filter Call.isMutating =
        [Call.CreateBranch a.determineBranchName,
         Call.WriteFile a.repoDir a.cfg.RepoPath a.newContent,
         Call.AddFile a.cfg.RepoPath,
         Call.Commit a.cfg.GetCommitMessage,
         Call.Push a.cfg.Remote a.determineBranchName,
         Call.SwitchBranch w.gitOps.DefaultBranch]) ∧
    (∀ err, (git.WriteFile w.fs a.repoDir a.cfg.RepoPath a.newContent).1 = none →
      w.gitOps.AddFileErr = none → w.gitOps.CommitErr = none →
      w.gitOps.PushErr = none → w.gitOps.CreatePRErr = some err →
      (a.Run w).1 = (none, some (Error.wrap "failed to create PR" err)) ∧
      (a.callsOf w).filter Call.isMutating =
        [Call.CreateBranch a.determineBranchName,
         Call.WriteFile a.repoDir a.cfg.RepoPath a.newContent,
         Call.AddFile a.cfg.RepoPath,
         Call.Commit a.cfg.GetCommitMessage,
         Call.Push a.cfg.Remote a.determineBranchName,
         Call.CreatePR w.gitOps.DefaultBranch a.determineBranchName a.cfg.GetPRTitle
           a.cfg.GetPRBody a.cfg.Draft,
         Call.SwitchBranch w.gitOps.DefaultBranch]) := by
  obtain ⟨h1, h2, h3, h4, h5⟩ := hh
  rw [evaluateMode_eq] at hp
  simp only at hp
  have hm : (a.evalCalls w.fs).filter Call.isMutating = [] :=
    List.filter_eq_nil_iff.mpr (fun c hc => by simp [evalCalls_not_mutating a w.fs c hc])
  cases hsw : w.gitOps.SwitchBranchErr <;>
  refine ⟨?_, ?_, ?_, ?_, ?_⟩ <;>
  intros <;>
  simp [Applier.callsOf, Applier.Run, World.GetDefaultBranch, MockOperations.GetDefaultBranch,
    World.GetCurrentBranch, MockOperations.GetCurrentBranch, World.IsWorkingTreeClean,
    MockOperations.IsWorkingTreeClean, World.afterChecks, Applier.afterEval, evaluateMode_eq,
    Applier.afterBranch, Applier.afterWrite, Applier.afterAdd, Applier.afterCommit,
    Applier.afterPush, Applier.afterPR, Applier.cleanup,
    World.CreateBranch, MockOperations.CreateBranch, World.WriteFile,
    World.AddFile, MockOperations.AddFile, World.Commit, MockOperations.Commit,
    World.Push, MockOperations.Push, World.CreatePR, MockOperations.CreatePR,
    World.SwitchBranch, MockOperations.SwitchBranch, Call.isMutating,
    List.filter_cons, List.filter_append, hm, *]

/-- Witness of C18: the commit fails; the run stops there and switches back. -/
theorem Run_step_failure_witness :
    (Applier.evaluateMode (demoApplier ModeUpsert "" demoNew)
      (demoFailingWorld (fun m => { m with CommitErr := some (Error.msg "commit failed") }))).1 =
      (true, "", none) ∧
    (Applier.Run (demoApplier ModeUpsert "" demoNew)
      (demoFailingWorld (fun m => { m with CommitErr := some (Error.msg "commit failed") }))).1 =
      (none, some (Error.wrap "failed to commit" (Error.msg "commit failed"))) :=
  ⟨rfl, ((Run_step_failure (demoApplier ModeUpsert "" demoNew)
    (demoFailingWorld (fun m => { m with CommitErr := some (Error.msg "commit failed") })) ""
    rfl ⟨rfl, rfl, rfl, rfl, rfl⟩ rfl rfl).2.2.1 (Error.msg "commit failed") rfl rfl rfl).1⟩

/-- C19, on the code: in a run without dry-run, with healthy preconditions and
mode evaluation saying proceed, when `CreateBranch` fails, `Run` returns no
result and the error wrapped as "failed to create branch", and the failed
`CreateBranch` is the only mutating call of the run: no `SwitchBranch` call is
made, to the default branch or to any other, although a failure of each of the
later steps is followed by one. -/
theorem Run_create_branch_failure (a : Applier) (w : World) (reason : String) (err : Error)
    (hdry : a.cfg.DryRun = false) (hh : Healthy w)
    (hp : (a.evaluateMode w).1 = (true, reason, none))
    (hb : w.gitOps.CreateBranchErr = some err) :
    (a.Run w).1 = (none, some (Error.wrap "failed to create branch" err)) ∧
    (a.callsOf w).filter Call.isMutating = [Call.CreateBranch a.determineBranchName] ∧
    (∀ n, Call.SwitchBranch n ∉ a.callsOf w) := by
  obtain ⟨h1, h2, h3, h4, h5⟩ := hh
  rw [evaluateMode_eq] at hp
  simp only at hp
  have hm : (a.evalCalls w.fs).filter Call.isMutating = [] :=
    List.filter_eq_nil_iff.mpr (fun c hc => by simp [evalCalls_not_mutating a w.fs c hc])
  have hn : ∀ n, Call.SwitchBranch n ∉ a.evalCalls w.fs := fun n hn => by
    have := evalCalls_not_mutating a w.fs _ hn
    simp [Call.isMutating] at this
  refine ⟨?_, ?_, ?_⟩ <;>
  simp [Applier.callsOf, Applier.Run, World.GetDefaultBranch, MockOperations.GetDefaultBranch,
    World.GetCurrentBranch, MockOperations.GetCurrentBranch, World.IsWorkingTreeClean,
    MockOperations.IsWorkingTreeClean, World.afterChecks, Applier.afterEval, evaluateMode_eq,
    Applier.afterBranch, Applier.afterWrite, Applier.afterAdd, Applier.afterCommit,
    Applier.afterPush, Applier.afterPR, Applier.cleanup,
    World.CreateBranch, MockOperations.CreateBranch, World.WriteFile,
    World.AddFile, MockOperations.AddFile, World.Commit, MockOperations.Commit,
    World.Push, MockOperations.Push, World.CreatePR, MockOperations.CreatePR,
    World.SwitchBranch, MockOperations.SwitchBranch, Call.isMutating,
    List.filter_cons, List.filter_append, hm, hn, *]

/-- Witness of C19, on the code: branch creation fails on the port of the tests,
in mode upsert with the destination absent; `CreateBranch` is the last call of
the run, while the same run with a failing commit instead ends with
`SwitchBranch` to the default branch. -/
theorem Run_create_branch_failure_witness :
    (Applier.evaluateMode (demoApplier ModeUpsert "" demoNew)
      (demoFailingWorld (fun m => { m with CreateBranchErr := some (Error.msg "exists") }))).1 =
      (true, "", none) ∧
    (Applier.Run (demoApplier ModeUpsert "" demoNew)
      (demoFailingWorld (fun m => { m with CreateBranchErr := some (Error.msg "exists") }))).1 =
      (none, some (Error.wrap "failed to create branch" (Error.msg "exists"))) ∧
    Applier.callsOf (demoApplier ModeUpsert "" demoNew)
      (demoFailingWorld (fun m => { m with CreateBranchErr := some (Error.msg "exists") })) =
      [Call.GetDefaultBranch, Call.GetCurrentBranch, Call.IsWorkingTreeClean,
       Call.FileExists "repo" "test/file.txt", Call.CreateBranch "bulkfilepr/1c3ef9a7c817"] ∧
    (Applier.callsOf (demoApplier ModeUpsert "" demoNew)
      (demoFailingWorld (fun m => { m with CommitErr := some (Error.msg "commit failed") }))
      ).getLast? = some (Call.SwitchBranch "main") :=
  ⟨rfl, (Run_create_branch_failure (demoApplier ModeUpsert "" demoNew)
    (demoFailingWorld (fun m => { m with CreateBranchErr := some (Error.msg "exists") })) ""
    (Error.msg "exists") rfl ⟨rfl, rfl, rfl, rfl, rfl⟩ rfl rfl).1, by decide!, by decide!⟩

/-- C20: what `Run` returns does not depend on the outcome of the recovery
switch: for every world, replacing the error slot of `SwitchBranch` by any
other value, failure or success, leaves the returned result and error the same;
and when the recovery switch fails, a failure of the write, stage, commit, push
or create-PR step is still returned as that step's own wrapped error. -/
theorem Run_result_ignores_recovery (a : Applier) (w : World) (e : Option Error) :
    (a.Run { w with gitOps := { w.gitOps with SwitchBranchErr := e } }).1 = (a.Run w).1 ∧
    (∀ reason recovery, a.cfg.DryRun = false → Healthy w →
      (a.evaluateMode w).1 = (true, reason, none) → w.gitOps.CreateBranchErr = none →
      w.gitOps.SwitchBranchErr = some recovery →
      (∀ err, (git.WriteFile w.fs a.repoDir a.cfg.RepoPath a.newContent).1 = some err →
        (a.Run w).1 = (none, some (Error.wrap "failed to write file" err))) ∧
      (∀ err, (git.WriteFile w.fs a.repoDir a.cfg.RepoPath a.newContent).1 = none →
        w.gitOps.AddFileErr = some err →
        (a.Run w).1 = (none, some (Error.wrap "failed to stage file" err))) ∧
      (∀ err, (git.WriteFile w.fs a.repoDir a.cfg.RepoPath a.newContent).1 = none →
        w.gitOps.AddFileErr = none → w.gitOps.CommitErr = some err →
        (a.Run w).1 = (none, some (Error.wrap "failed to commit" err))) ∧
      (∀ err, (git.WriteFile w.fs a.repoDir a.cfg.RepoPath a.newContent).1 = none →
        w.gitOps.AddFileErr = none → w.gitOps.CommitErr = none →
        w.gitOps.PushErr = some err →
        (a.Run w).1 = (none, some (Error.wrap "failed to push" err))) ∧
      (∀ err, (git.WriteFile w.fs a.repoDir a.cfg.RepoPath a.newContent).1 = none →
        w.gitOps.AddFileErr = none → w.gitOps.CommitErr = none →
        w.gitOps.PushErr = none → w.gitOps.CreatePRErr = some err →
        (a.Run w).1 = (none, some (Error.wrap "failed to create PR" err)))) := by
  constructor
  · apply Run_cases a w
      (fun o => (a.Run { w with gitOps := { w.gitOps with SwitchBranchErr := e } }).1 = o.1)
    all_goals intros
    all_goals simp_all [Healthy, Applier.callsOf, Applier.Run, World.GetDefaultBranch,
    MockOperations.GetDefaultBranch,
    World.GetCurrentBranch, MockOperations.GetCurrentBranch, World.IsWorkingTreeClean,
    MockOperations.IsWorkingTreeClean, World.afterChecks, Applier.afterEval, evaluateMode_eq,
    Applier.afterBranch, Applier.afterWrite, Applier.afterAdd, Applier.afterCommit,
    Applier.afterPush, Applier.afterPR, Applier.cleanup,
    World.CreateBranch, MockOperations.CreateBranch, World.WriteFile,
    World.AddFile, MockOperations.AddFile, World.Commit, MockOperations.Commit,
    World.Push, MockOperations.Push, World.CreatePR, MockOperations.CreatePR,
    World.SwitchBranch, MockOperations.SwitchBranch, Call.isMutating]
  · intro reason recovery hdry hh hp hb hsw
    obtain ⟨h1, h2, h3, h4, h5⟩ := hh
    rw [evaluateMode_eq] at hp
    simp only at hp
    refine ⟨?_, ?_, ?_, ?_, ?_⟩ <;>
    intros <;>
    simp [Applier.callsOf, Applier.Run, World.GetDefaultBranch, MockOperations.GetDefaultBranch,
    World.GetCurrentBranch, MockOperations.GetCurrentBranch, World.IsWorkingTreeClean,
    MockOperations.IsWorkingTreeClean, World.afterChecks, Applier.afterEval, evaluateMode_eq,
    Applier.afterBranch, Applier.afterWrite, Applier.afterAdd, Applier.afterCommit,
    Applier.afterPush, Applier.afterPR, Applier.cleanup,
    World.CreateBranch, MockOperations.CreateBranch, World.WriteFile,
    World.AddFile, MockOperations.AddFile, World.Commit, MockOperations.Commit,
    World.Push, MockOperations.Push, World.CreatePR, MockOperations.CreatePR,
    World.SwitchBranch, MockOperations.SwitchBranch, Call.isMutating, *]

/-- Witness of C20: the commit fails and so does the switch back; the error
returned is the one of the commit. -/
theorem Run_result_ignores_recovery_witness :
    (Applier.Run (demoApplier ModeUpsert "" demoNew)
      (demoFailingWorld demoCommitSwitchFail)).1 =
      (none, some (Error.wrap "failed to commit" (Error.msg "commit failed"))) :=
  ((Run_result_ignores_recovery (demoApplier ModeUpsert "" demoNew)
    (demoFailingWorld demoCommitSwitchFail)
    none).2 "" (Error.msg "no switch") rfl ⟨rfl, rfl, rfl, rfl, rfl⟩ rfl rfl rfl).2.2.1
    (Error.msg "commit failed") rfl rfl rfl

/-- C21: in a run without dry-run, with healthy preconditions and mode
evaluation saying proceed, when steps 1 to 6 all succeed and the final
`SwitchBranch` to the default branch fails, `Run` still returns no error and a
result with action "updated" whose `PRURL` is the URL `CreatePR` returned. -/
theorem Run_updated_despite_switch_failure (a : Applier) (w : World) (reason : String)
    (err : Error) (hdry : a.cfg.DryRun = false) (hh : Healthy w)
    (hp : (a.evaluateMode w).1 = (true, reason, none)) (hs : StepsSucceed a w)
    (hsw : w.gitOps.SwitchBranchErr = some err) :
    (a.Run w).1 = (some { DefaultBranch := w.gitOps.DefaultBranch, Action := "updated",
                          BranchName := a.determineBranchName,
                          PRURL := w.gitOps.PRURLToReturn }, none) ∧
    ((a.afterPush w).gitOps.CreatePR w.gitOps.DefaultBranch a.determineBranchName
      a.cfg.GetPRTitle a.cfg.GetPRBody a.cfg.Draft).1 = (w.gitOps.PRURLToReturn, none) ∧
    Call.SwitchBranch w.gitOps.DefaultBranch ∈ a.callsOf w := by
  obtain ⟨h1, h2, h3, h4, h5⟩ := hh
  obtain ⟨s1, s2, s3, s4, s5, s6, s7⟩ := hs
  rw [evaluateMode_eq] at hp
  simp only at hp
  refine ⟨?_, ?_, ?_⟩ <;>
  simp [Applier.callsOf, Applier.Run, World.GetDefaultBranch, MockOperations.GetDefaultBranch,
    World.GetCurrentBranch, MockOperations.GetCurrentBranch, World.IsWorkingTreeClean,
    MockOperations.IsWorkingTreeClean, World.afterChecks, Applier.afterEval, evaluateMode_eq,
    Applier.afterBranch, Applier.afterWrite, Applier.afterAdd, Applier.afterCommit,
    Applier.afterPush, Applier.afterPR, Applier.cleanup,
    World.CreateBranch, MockOperations.CreateBranch, World.WriteFile,
    World.AddFile, MockOperations.AddFile, World.Commit, MockOperations.Commit,
    World.Push, MockOperations.Push, World.CreatePR, MockOperations.CreatePR,
    World.SwitchBranch, MockOperations.SwitchBranch, git.WriteFile, os.MkdirAll, os.WriteFile, h1, h2, h3, h4, h5, s1, s2,
    s3, s4, s5, s6, s7, hp, hdry,
    hsw]

/-- Witness of C21: the scenario of `TestApplierUpsertModeNewFile` on a port
whose switch back fails. -/
theorem Run_updated_despite_switch_failure_witness :
    (demoFailingWorld demoSwitchFail).gitOps.SwitchBranchErr = some (Error.msg "no switch") ∧
    (Applier.Run (demoApplier ModeUpsert "" demoNew) (demoFailingWorld demoSwitchFail)).1 =
      (some { DefaultBranch := "main", Action := "updated",
              BranchName := (demoApplier ModeUpsert "" demoNew).determineBranchName,
              PRURL := "https://github.com/owner/repo/pull/1" }, none) :=
  ⟨rfl, (Run_updated_despite_switch_failure (demoApplier ModeUpsert "" demoNew)
    (demoFailingWorld demoSwitchFail) "" (Error.msg "no switch") rfl
    ⟨rfl, rfl, rfl, rfl, rfl⟩ rfl ⟨rfl, rfl, rfl, rfl, rfl, rfl, rfl⟩ rfl).1⟩

/-- C22: over the in-memory port with `SwitchBranch` succeeding, for every run
that starts with the current branch equal to the default branch, the current
branch of the port is the default branch again when `Run` returns, on every
path: failed precondition, evaluation error, no action, dry-run, failure of any
of the six steps, and success; so the default-branch check of the next run
passes. -/
theorem Run_restores_default_branch (a : Applier) (w : World)
    (hsw : w.gitOps.SwitchBranchErr = none)
    (hcur : w.gitOps.CurrentBranch = w.gitOps.DefaultBranch) :
    (a.Run w).2.gitOps.CurrentBranch = w.gitOps.DefaultBranch ∧
    (a.Run w).2.gitOps.DefaultBranch = w.gitOps.DefaultBranch ∧
    (a.Run w).2.gitOps.CurrentBranch = (a.Run w).2.gitOps.DefaultBranch := by
  have key : (a.Run w).2.gitOps.CurrentBranch = w.gitOps.DefaultBranch ∧
      (a.Run w).2.gitOps.DefaultBranch = w.gitOps.DefaultBranch := by
    apply Run_cases a w (fun o => o.2.gitOps.CurrentBranch = w.gitOps.DefaultBranch ∧
      o.2.gitOps.DefaultBranch = w.gitOps.DefaultBranch)
    all_goals intros
    all_goals simp_all [Healthy, World.afterChecks, Applier.afterEval,
      Applier.afterBranch, Applier.afterWrite, Applier.afterAdd, Applier.afterCommit,
      Applier.afterPush, Applier.afterPR, World.CreateBranch, MockOperations.CreateBranch,
      World.WriteFile, World.AddFile, MockOperations.AddFile, World.Commit,
      MockOperations.Commit, World.Push, MockOperations.Push, World.CreatePR,
      MockOperations.CreatePR, World.SwitchBranch, MockOperations.SwitchBranch]
  exact ⟨key.1, key.2, key.1.trans key.2.symm⟩

/-- Witness of C22: after a run whose commit fails the port is back on "main". -/
theorem Run_restores_default_branch_witness :
    (Applier.Run (demoApplier ModeUpsert "" demoNew)
      (demoFailingWorld (fun m => { m with CommitErr := some (Error.msg "commit failed") }))
      ).2.gitOps.CurrentBranch = "main" :=
  (Run_restores_default_branch (demoApplier ModeUpsert "" demoNew)
    (demoFailingWorld (fun m => { m with CommitErr := some (Error.msg "commit failed") }))
    rfl rfl).1

/-- C23: for every result `Run` returns without error: `DefaultBranch` is the
name the port reported; `BranchName` is empty when the action is "no action
taken" and not empty otherwise; `PRURL` is empty unless the action is
"updated"; and `NoActionReason` is not empty exactly when the action is "no
action taken". -/
theorem Run_result_fields (a : Applier) (w : World) (r : Result)
    (h : (a.Run w).1 = (some r, none)) :
    w.gitOps.GetDefaultBranch = (r.DefaultBranch, none) ∧
    (r.Action = "no action taken" → r.BranchName = "") ∧
    (r.Action ≠ "no action taken" → r.BranchName ≠ "") ∧
    (r.PRURL ≠ "" → r.Action = "updated") ∧
    (r.NoActionReason ≠ "" ↔ r.Action = "no action taken") := by
  have hne := determineBranchName_ne_empty a
  have hre := evalOutcome_reason a w.fs
  revert h
  apply Run_cases a w (fun o => o.1 = (some r, none) →
    w.gitOps.GetDefaultBranch = (r.DefaultBranch, none) ∧
    (r.Action = "no action taken" → r.BranchName = "") ∧
    (r.Action ≠ "no action taken" → r.BranchName ≠ "") ∧
    (r.PRURL ≠ "" → r.Action = "updated") ∧
    (r.NoActionReason ≠ "" ↔ r.Action = "no action taken"))
  all_goals intros
  all_goals simp_all [Healthy, MockOperations.GetDefaultBranch]
  all_goals subst_vars
  all_goals simp_all

set_option maxRecDepth 1000000 in
/-- Witness of C23: the result of the scenario of `TestApplierUpsertModeNewFile`. -/
theorem Run_result_fields_witness :
    (Applier.Run (demoApplier ModeUpsert "" demoNew) (demoWorld Node.absent)).1 =
      (some { DefaultBranch := "main", Action := "updated",
              BranchName := "bulkfilepr/1c3ef9a7c817",
              PRURL := "https://github.com/owner/repo/pull/1" }, none) ∧
    (demoWorld Node.absent).gitOps.GetDefaultBranch = ("main", none) :=
  ⟨by decide!, (Run_result_fields (demoApplier ModeUpsert "" demoNew) (demoWorld Node.absent)
    { DefaultBranch := "main", Action := "updated", BranchName := "bulkfilepr/1c3ef9a7c817",
      PRURL := "https://github.com/owner/repo/pull/1" } (by decide!)).1⟩

/-- C24: for every input, the action of a result `Run` returns is "no action
taken", "would update" or "updated", each of which some run returns; it is
never "branch already exists", the status `printResult` also handles; and `Run`
never calls the `BranchExists` operation of the port. -/
theorem Run_actions (a : Applier) (w : World) :
    (∀ r, (a.Run w).1.1 = some r →
      (r.Action = "no action taken" ∨ r.Action = "would update" ∨ r.Action = "updated") ∧
      r.Action ≠ "branch already exists") ∧
    (∀ name remote, Call.BranchExists name remote ∉ a.callsOf w) ∧
    ((Applier.Run (demoApplier ModeExists "" demoNew) (demoWorld Node.absent)).1.1.map
        Result.Action = some "no action taken" ∧
      (Applier.Run demoDryRunApplier (demoWorld Node.absent)).1.1.map
        Result.Action = some "would update" ∧
      (Applier.Run (demoApplier ModeUpsert "" demoNew) (demoWorld Node.absent)).1.1.map
        Result.Action = some "updated") := by
  have hm : ∀ name remote, Call.BranchExists name remote ∉ a.evalCalls w.fs :=
    fun name remote hn => by
      rcases evalCalls_mem a w.fs _ hn with h | h <;> exact Call.noConfusion h
  refine ⟨?_, ?_, by decide!, by decide!, by decide!⟩
  · apply Run_cases a w (fun o => ∀ r, o.1.1 = some r →
      (r.Action = "no action taken" ∨ r.Action = "would update" ∨ r.Action = "updated") ∧
      r.Action ≠ "branch already exists")
    all_goals intros
    all_goals simp_all
    all_goals subst_vars
    all_goals simp
  · unfold Applier.callsOf
    apply Run_cases a w (fun o => ∀ name remote,
      Call.BranchExists name remote ∉ o.2.calls.drop w.calls.length)
    all_goals intros
    all_goals simp_all [Healthy, World.afterChecks, Applier.afterEval,
    Applier.afterBranch, Applier.afterWrite, Applier.afterAdd, Applier.afterCommit,
    Applier.afterPush, Applier.afterPR, World.CreateBranch, MockOperations.CreateBranch,
    World.WriteFile, World.AddFile, MockOperations.AddFile, World.Commit,
    MockOperations.Commit, World.Push, MockOperations.Push, World.CreatePR,
    MockOperations.CreatePR, World.SwitchBranch, MockOperations.SwitchBranch]

/-- C25: if the destination file is reported as existing but reading its bytes
fails, `Run` returns no result and an error, never a no-action outcome, and
makes no mutating call; with healthy preconditions and in each of the modes
upsert, exists and match, the error is "failed to read existing file" wrapping
the cause. -/
theorem Run_read_failure (a : Applier) (w : World) (content : Bytes) (err : Error)
    (hex : git.FileExists w.fs a.repoDir a.cfg.RepoPath = true)
    (hr : git.ReadFile w.fs a.repoDir a.cfg.RepoPath = (content, some err)) :
    (a.Run w).1.1 = none ∧ (a.Run w).1.2 ≠ none ∧
    (∀ c ∈ a.callsOf w, c.isMutating = false) ∧
    (Healthy w →
      a.cfg.Mode = ModeUpsert ∨ a.cfg.Mode = ModeExists ∨ a.cfg.Mode = ModeMatch →
      (a.Run w).1 = (none, some (Error.wrap "failed to read existing file" err))) := by
  have he := (evalOutcome_error a w.fs).1 content err hex hr
  have hm := evalCalls_not_mutating a w.fs
  unfold Applier.callsOf
  apply Run_cases a w (fun o => o.1.1 = none ∧ o.1.2 ≠ none ∧
    (∀ c ∈ o.2.calls.drop w.calls.length, c.isMutating = false) ∧
    (Healthy w →
      a.cfg.Mode = ModeUpsert ∨ a.cfg.Mode = ModeExists ∨ a.cfg.Mode = ModeMatch →
      o.1 = (none, some (Error.wrap "failed to read existing file" err))))
  all_goals intros
  all_goals simp_all [Healthy, World.afterChecks, Applier.afterEval, Call.isMutating]

/-- Witness of C25: mode exists on a destination that cannot be read. -/
theorem Run_read_failure_witness :
    git.ReadFile demoUnreadable.fs "repo" "test/file.txt" =
      ([], some (Error.msg "permission denied")) ∧
    (Applier.Run (demoApplier ModeExists "" demoNew) demoUnreadable).1 =
      (none, some (Error.wrap "failed to read existing file"
        (Error.msg "permission denied"))) :=
  ⟨rfl, (Run_read_failure (demoApplier ModeExists "" demoNew) demoUnreadable []
    (Error.msg "permission denied") rfl rfl).2.2.2 ⟨rfl, rfl, rfl, rfl, rfl⟩
    (Or.inr (Or.inl rfl))⟩

/-- C26: `Validate` returns no error if and only if `Mode`, `RepoPath` and
`NewFile` are not empty and, when the mode is match, `ExpectSHA256` is not
empty; two configurations that agree on these four fields get the same
verdict, whatever their other fields. -/
theorem Validate_iff (c : Config) :
    (c.Validate = none ↔
      c.Mode ≠ "" ∧ c.RepoPath ≠ "" ∧ c.NewFile ≠ "" ∧
        (c.Mode = ModeMatch → c.ExpectSHA256 ≠ "")) ∧
    (∀ d : Config, d.Mode = c.Mode → d.RepoPath = c.RepoPath → d.NewFile = c.NewFile →
      d.ExpectSHA256 = c.ExpectSHA256 → d.Validate = c.Validate) := by
  constructor
  · unfold Config.Validate
    by_cases h1 : c.Mode = "" <;> by_cases h2 : c.RepoPath = "" <;>
    by_cases h3 : c.NewFile = "" <;> by_cases h4 : c.Mode = ModeMatch <;>
    by_cases h5 : c.ExpectSHA256 = "" <;> simp_all [ModeUpsert, ModeExists, ModeMatch]
  · intro d e1 e2 e3 e4
    unfold Config.Validate
    rw [e1, e2, e3, e4]

/-- Witness of C26: the valid match configuration of `TestConfigValidate`. -/
theorem Validate_iff_witness :
    Config.Validate { Mode := ModeMatch, RepoPath := ".github/workflows/release.yml",
                      NewFile := "/path/to/release.yml", ExpectSHA256 := "abc123def456" } =
      none :=
  (Validate_iff { Mode := ModeMatch, RepoPath := ".github/workflows/release.yml",
                  NewFile := "/path/to/release.yml", ExpectSHA256 := "abc123def456" }).1.2
    ⟨by decide, by decide, by decide, fun _ => by decide⟩

/-- C27, as amended: `Validate` rejects an empty mode; a mode that is none of
upsert, exists and match is rejected by `ParseMode`, from which `main` takes the
mode of the configuration: a mode `ParseMode` accepts is one of the three, and
a run whose mode is one of the three never returns the "unknown mode" error,
nor does its mode evaluation. -/
theorem unknown_mode_unreachable (c : Config) (s : String) (a : Applier) (w : World) :
    (c.Mode = "" → c.Validate ≠ none) ∧
    ((ParseMode s).2 = none →
      (ParseMode s).1 = ModeUpsert ∨ (ParseMode s).1 = ModeExists ∨
        (ParseMode s).1 = ModeMatch) ∧
    (a.cfg.Mode = ModeUpsert ∨ a.cfg.Mode = ModeExists ∨ a.cfg.Mode = ModeMatch →
      (∀ m, (a.evaluateMode w).1.2.2 ≠ some (Error.unknownMode m)) ∧
      (∀ m, (a.Run w).1.2 ≠ some (Error.unknownMode m))) := by
  refine ⟨?_, ?_, ?_⟩
  · intro h
    simp [Config.Validate, h]
  · unfold ParseMode
    by_cases h1 : s = ModeUpsert <;> by_cases h2 : s = ModeExists <;>
    by_cases h3 : s = ModeMatch <;> simp_all [ModeUpsert, ModeExists, ModeMatch]
  · intro hmode
    have hu := (evalOutcome_error a w.fs).2 hmode
    constructor
    · rw [evaluateMode_eq]
      exact hu
    · apply Run_cases a w (fun o => ∀ m, o.1.2 ≠ some (Error.unknownMode m))
      all_goals intros
      all_goals simp_all

/-- Witness of C27, as amended: the mode "match" is accepted by `ParseMode`, and
a run in that mode does not end in "unknown mode". -/
theorem unknown_mode_unreachable_witness :
    (ParseMode "match").2 = none ∧ (ParseMode "match").1 = ModeMatch ∧
    (Applier.Run (demoApplier ModeMatch "abc" demoNew) (demoWorld Node.absent)).1.2 ≠
      some (Error.unknownMode "match") :=
  ⟨rfl, rfl, ((unknown_mode_unreachable DefaultConfig "match"
    (demoApplier ModeMatch "abc" demoNew) (demoWorld Node.absent)).2.2
    (Or.inr (Or.inr rfl))).2 "match"⟩

/-- Counterexample to C27 as stated: the configuration with mode "bogus", which
is none of upsert, exists and match, passes `Validate`, and a run with it, on
healthy preconditions, returns the "unknown mode" error. -/
theorem unknown_mode_unreachable_counterexample :
    demoBogusConfig.Mode ≠ ModeUpsert ∧ demoBogusConfig.Mode ≠ ModeExists ∧
    demoBogusConfig.Mode ≠ ModeMatch ∧
    demoBogusConfig.Validate = none ∧
    (Applier.Run (NewApplier demoBogusConfig demoNew) (demoWorld Node.absent)).1 =
      (none, some (Error.unknownMode "bogus")) := by
  refine ⟨?_, ?_, ?_, ?_, ?_⟩ <;> decide

/-- C28: for every string `s`, `ParseMode s` succeeds if and only if `s` is
exactly "upsert", "exists" or "match"; on success the mode returned is `s`, on
failure it is the empty string; "UPSERT" and the empty string fail. -/
theorem ParseMode_iff (s : String) :
    ((ParseMode s).2 = none ↔ s = "upsert" ∨ s = "exists" ∨ s = "match") ∧
    ((ParseMode s).2 = none → (ParseMode s).1 = s) ∧
    ((ParseMode s).2 ≠ none → (ParseMode s).1 = "" ∧
      (ParseMode s).2 = some (Error.invalidMode s)) ∧
    (ParseMode "UPSERT").2 ≠ none ∧ (ParseMode "").2 ≠ none := by
  refine ⟨?_, ?_, ?_, by decide, by decide⟩ <;>
  unfold ParseMode <;>
  by_cases h1 : s = ModeUpsert <;> by_cases h2 : s = ModeExists <;>
  by_cases h3 : s = ModeMatch <;> simp_all [ModeUpsert, ModeExists, ModeMatch]

/-- Witness of C28: the table of `TestParseMode`. -/
theorem ParseMode_iff_witness :
    ParseMode "exists" = (ModeExists, none) ∧
    ParseMode "invalid" = ("", some (Error.invalidMode "invalid")) :=
  ⟨Prod.ext ((ParseMode_iff "exists").2.1 rfl) rfl,
   Prod.ext ((ParseMode_iff "invalid").2.2.1 (by decide)).1
     ((ParseMode_iff "invalid").2.2.1 (by decide)).2⟩

/-- C29: `GetCommitMessage` returns `CommitMessage` when that is not empty and
otherwise "chore: update " followed by `RepoPath`; every `Commit` call of a run
passes this string, and a run that returns "updated" has recorded on the port
exactly one more commit, with this message. -/
theorem GetCommitMessage_spec (c : Config) (a : Applier) (w : World) :
    (c.CommitMessage ≠ "" → c.GetCommitMessage = c.CommitMessage) ∧
    (c.CommitMessage = "" → c.GetCommitMessage = "chore: update " ++ c.RepoPath) ∧
    (∀ m, Call.Commit m ∈ a.callsOf w → m = a.cfg.GetCommitMessage) ∧
    (∀ r, (a.Run w).1 = (some r, none) → r.Action = "updated" →
      (a.Run w).2.gitOps.Commits = w.gitOps.Commits ++ [a.cfg.GetCommitMessage]) := by
  have hm : ∀ m, Call.Commit m ∉ a.evalCalls w.fs := fun m hn => by
    rcases evalCalls_mem a w.fs _ hn with h | h <;> exact Call.noConfusion h
  have hsw : ∀ (m : MockOperations) (n : String), (m.SwitchBranch n).2.Commits = m.Commits := by
    intro m n
    unfold MockOperations.SwitchBranch
    cases m.SwitchBranchErr <;> rfl
  refine ⟨?_, ?_, ?_, ?_⟩
  · intro h
    simp [Config.GetCommitMessage, h]
  · intro h
    simp [Config.GetCommitMessage, h]
  · unfold Applier.callsOf
    apply Run_cases a w (fun o => ∀ m, Call.Commit m ∈ o.2.calls.drop w.calls.length →
      m = a.cfg.GetCommitMessage)
    all_goals intros
    all_goals simp_all [Healthy, World.afterChecks, Applier.afterEval,
    Applier.afterBranch, Applier.afterWrite, Applier.afterAdd, Applier.afterCommit,
    Applier.afterPush, Applier.afterPR, World.CreateBranch, MockOperations.CreateBranch,
    World.WriteFile, World.AddFile, MockOperations.AddFile, World.Commit,
    MockOperations.Commit, World.Push, MockOperations.Push, World.CreatePR,
    MockOperations.CreatePR, World.SwitchBranch, MockOperations.SwitchBranch]
  · apply Run_cases a w (fun o => ∀ r, o.1 = (some r, none) → r.Action = "updated" →
      o.2.gitOps.Commits = w.gitOps.Commits ++ [a.cfg.GetCommitMessage])
    all_goals intros
    all_goals simp_all [Healthy, World.afterChecks, Applier.afterEval,
    Applier.afterBranch, Applier.afterWrite, Applier.afterAdd, Applier.afterCommit,
    Applier.afterPush, Applier.afterPR, World.CreateBranch, MockOperations.CreateBranch,
    World.WriteFile, World.AddFile, MockOperations.AddFile, World.Commit,
    MockOperations.Commit, World.Push, MockOperations.Push, World.CreatePR,
    MockOperations.CreatePR, World.SwitchBranch]
    all_goals subst_vars
    all_goals simp_all

/-- Witness of C29: the two cases of `TestGetCommitMessage`. -/
theorem GetCommitMessage_spec_witness :
    Config.GetCommitMessage { CommitMessage := "fix: update config",
                              RepoPath := ".github/workflows/ci.yml" } =
      "fix: update config" ∧
    Config.GetCommitMessage { RepoPath := ".github/workflows/ci.yml" } =
      "chore: update .github/workflows/ci.yml" :=
  ⟨(GetCommitMessage_spec { CommitMessage := "fix: update config",
                            RepoPath := ".github/workflows/ci.yml" }
      (demoApplier ModeUpsert "" demoNew) (demoWorld Node.absent)).1 (by decide),
   (GetCommitMessage_spec { RepoPath := ".github/workflows/ci.yml" }
      (demoApplier ModeUpsert "" demoNew) (demoWorld Node.absent)).2.1 rfl⟩

/-- C30: `GetPRTitle` returns `PRTitle` when that is not empty and otherwise
"Update " followed by `RepoPath`; `GetPRBody` returns `PRBody` when that is not
empty and otherwise the sentence "This PR updates the standardized file at
`<RepoPath>`." with `RepoPath` in the place marked. -/
theorem GetPRTitle_GetPRBody_spec (c : Config) :
    (c.PRTitle ≠ "" → c.GetPRTitle = c.PRTitle) ∧
    (c.PRTitle = "" → c.GetPRTitle = "Update " ++ c.RepoPath) ∧
    (c.PRBody ≠ "" → c.GetPRBody = c.PRBody) ∧
    (c.PRBody = "" → c.GetPRBody =
      "This PR updates the standardized file at `" ++ c.RepoPath ++ "`.") := by
  refine ⟨?_, ?_, ?_, ?_⟩ <;> intro h
  · simp [Config.GetPRTitle, h]
  · simp [Config.GetPRTitle, h]
  · simp [Config.GetPRBody, h]
  · simp [Config.GetPRBody, h]

/-- Witness of C30: the default cases of `TestGetPRTitle` and `TestGetPRBody`. -/
theorem GetPRTitle_GetPRBody_spec_witness :
    Config.GetPRTitle { RepoPath := ".github/workflows/ci.yml" } =
      "Update .github/workflows/ci.yml" ∧
    Config.GetPRBody { RepoPath := ".github/workflows/ci.yml" } =
      "This PR updates the standardized file at `.github/workflows/ci.yml`." ∧
    Config.GetPRBody { PRBody := "Custom PR body content",
                       RepoPath := ".github/workflows/ci.yml" } =
      "Custom PR body content" :=
  ⟨(GetPRTitle_GetPRBody_spec { RepoPath := ".github/workflows/ci.yml" }).2.1 rfl,
   (GetPRTitle_GetPRBody_spec { RepoPath := ".github/workflows/ci.yml" }).2.2.2 rfl,
   (GetPRTitle_GetPRBody_spec { PRBody := "Custom PR body content",
                                RepoPath := ".github/workflows/ci.yml" }).2.2.1 (by decide)⟩

/-- C31, corrected: Go's `len` and slices count bytes. For every Go string, given
by its bytes `h`, and every `n ≥ 0`, the slice of `TruncatedHash` is in range and
the result is the first `min (len h) n` bytes of `h`: `h` itself when
`len h ≤ n`, and its first `n` bytes otherwise. For a string of ASCII characters,
as a hex digest is, the result is the string of its first `n` characters. -/
theorem TruncatedHash_spec (h : Bytes) (n : Int) (hn : 0 ≤ n) :
    TruncatedHash h n = some (h.take n.toNat) ∧
    (h.take n.toNat).length = min h.length n.toNat ∧
    h.take n.toNat <+: h ∧
    ((h.length : Int) ≤ n → TruncatedHash h n = some h) ∧
    (n < (h.length : Int) → (h.take n.toNat).length = n.toNat) ∧
    (∀ s : String, (∀ c ∈ s.data, c.toNat < 128) →
      TruncatedHash (utf8.Encode s) n =
        some (utf8.Encode (String.mk (s.data.take n.toNat)))) := by
  refine ⟨?_, ?_, List.take_prefix _ _, ?_, ?_, fun s hs => TruncatedHash_ascii s hs n hn⟩
  · unfold TruncatedHash
    by_cases hle : (h.length : Int) ≤ n
    · rw [if_pos hle]
      have : h.length ≤ n.toNat := by omega
      rw [List.take_of_length_le this]
    · rw [if_neg hle, if_pos hn]
  · rw [List.length_take]
    exact Nat.min_comm _ _
  · intro hle
    unfold TruncatedHash
    rw [if_pos hle]
  · intro hlt
    rw [List.length_take]
    omega

/-- Witness of C31, as amended: the table of `TestTruncatedHash`. -/
theorem TruncatedHash_spec_witness :
    TruncatedHash
      (utf8.Encode "b94d27b9934d3e08a52e52d7da7dabfac484efe37a5380ee9088f7ace2efcde9") 12 =
      some (utf8.Encode "b94d27b9934d") ∧
    TruncatedHash
      (utf8.Encode "b94d27b9934d3e08a52e52d7da7dabfac484efe37a5380ee9088f7ace2efcde9") 8 =
      some (utf8.Encode "b94d27b9") ∧
    TruncatedHash (utf8.Encode "abc123") 100 = some (utf8.Encode "abc123") ∧
    TruncatedHash (utf8.Encode "abc123") 6 = some (utf8.Encode "abc123") :=
  ⟨(TruncatedHash_spec [] 12 (by decide)).2.2.2.2.2
      "b94d27b9934d3e08a52e52d7da7dabfac484efe37a5380ee9088f7ace2efcde9" (by decide),
   (TruncatedHash_spec [] 8 (by decide)).2.2.2.2.2
      "b94d27b9934d3e08a52e52d7da7dabfac484efe37a5380ee9088f7ace2efcde9" (by decide),
   (TruncatedHash_spec (utf8.Encode "abc123") 100 (by decide)).2.2.2.1 (by decide),
   (TruncatedHash_spec (utf8.Encode "abc123") 6 (by decide)).2.2.2.1 (by decide)⟩

/-- Counterexample to C31 as stated: the string "éa" has two characters and
three bytes; `TruncatedHash` at 2 does not return it unchanged, nor its first two
characters, but its first two bytes, the string "é"; at 1 it returns the first
byte of "é", which is the text of no string. -/
theorem TruncatedHash_spec_counterexample :
    "éa".length = 2 ∧ String.mk ("éa".data.take 2) = "éa" ∧
    utf8.Encode "éa" = [0xC3, 0xA9, 0x61] ∧
    TruncatedHash (utf8.Encode "éa") 2 = some (utf8.Encode "é") ∧
    TruncatedHash (utf8.Encode "éa") 2 ≠ some (utf8.Encode "éa") ∧
    TruncatedHash (utf8.Encode "éa") 1 = some [0xC3] ∧
    utf8.Decode [0xC3] = String.mk [Char.ofNat 0xFFFD] := by
  refine ⟨?_, ?_, ?_, ?_, ?_, ?_, ?_⟩ <;> decide

/-- C32: for every byte buffer, `SHA256Bytes` returns a string of exactly 64
characters, each a lowercase hexadecimal digit; it returns the SHA-256 digests
of `TestSHA256Bytes` for the empty buffer, for "hello world" and for "test
content\n". -/
theorem SHA256Bytes_spec (data : Bytes) :
    (SHA256Bytes data).length = 64 ∧
    (∀ c ∈ (SHA256Bytes data).data, c ∈ "0123456789abcdef".data) ∧
    SHA256Bytes [] = "e3b0c44298fc1c149afbf4c8996fb92427ae41e4649b934ca495991b7852b855" ∧
    SHA256Bytes [104, 101, 108, 108, 111, 32, 119, 111, 114, 108, 100] =
      "b94d27b9934d3e08a52e52d7da7dabfac484efe37a5380ee9088f7ace2efcde9" ∧
    SHA256Bytes [116, 101, 115, 116, 32, 99, 111, 110, 116, 101, 110, 116, 10] =
      "a1fff0ffefb9eace7230c24e50731f0a91c62f9cefdfe77121c2f607125dffae" :=
  ⟨SHA256Bytes_length data, SHA256Bytes_chars data, by decide!, by decide!, by decide!⟩

/-- C33, corrected: `run` returns exit code 2 and leaves the world as it is (the
engine is not run) for an empty argument list; for a first argument that is
neither "apply" nor a version or help flag; and for "apply" followed by
arguments whose flag parsing succeeds without setting the version flag, when
`--mode`, `--repo-path` or `--new-file` is not given or empty, when the mode is
none of upsert, exists and match, or when the mode is match and
`--expect-sha256` is not given or empty; a parsing failure other than the help
request also gives 2. When the parsing after "apply" meets `-h` or `-help`, or
sets the version flag, `run` returns 0 instead, whatever flags are missing. -/
theorem run_invalid_usage (osReadFile : String → Bytes × Option Error) (w : World) :
    run osReadFile [] w = (2, w) ∧
    (∀ a0 rest, a0 ∉ ["apply", "-version", "--version", "-h", "--help", "-help"] →
      run osReadFile (a0 :: rest) w = (2, w)) ∧
    (∀ rest, (flag.Parse {} rest).1 = none → (flag.Parse {} rest).2.showVersion = false →
      (flag.given "mode" rest = false ∨ flag.given "repo-path" rest = false ∨
        flag.given "new-file" rest = false ∨ (flag.Parse {} rest).2.mode = "" ∨
        (flag.Parse {} rest).2.repoPath = "" ∨ (flag.Parse {} rest).2.newFile = "" ∨
        (flag.Parse {} rest).2.mode ∉ ["upsert", "exists", "match"] ∨
        ((flag.Parse {} rest).2.mode = "match" ∧
          (flag.given "expect-sha256" rest = false ∨
            (flag.Parse {} rest).2.expectSHA256 = ""))) →
      run osReadFile ("apply" :: rest) w = (2, w)) ∧
    (∀ rest err, (flag.Parse {} rest).1 = some err → err ≠ flag.Error.ErrHelp →
      run osReadFile ("apply" :: rest) w = (2, w)) ∧
    (∀ rest, (flag.Parse {} rest).1 = some flag.Error.ErrHelp ∨
        ((flag.Parse {} rest).1 = none ∧ (flag.Parse {} rest).2.showVersion = true) →
      run osReadFile ("apply" :: rest) w = (0, w)) := by
  refine ⟨rfl, ?_, ?_, ?_, ?_⟩
  · intro a0 rest h
    simp only [List.mem_cons, List.mem_singleton, not_or, List.mem_nil_iff, or_false] at h
    obtain ⟨h1, h2, h3, h4, h5, h6⟩ := h
    simp [run, h1, h2, h3, h4, h5, h6, exitInvalidUsage]
  · intro rest he hv hc
    have hfr := Parse_frame {} rest
    rcases hP : flag.Parse {} rest with ⟨e, fl⟩
    rw [hP] at he hv hc hfr
    simp only at he hv hc hfr
    subst he
    have hc2 : fl.mode = "" ∨ fl.repoPath = "" ∨ fl.newFile = "" ∨
        fl.mode ∉ ["upsert", "exists", "match"] ∨ (fl.mode = "match" ∧ fl.expectSHA256 = "") := by
      rcases hc with h | h | h | h | h | h | h | ⟨h, h2 | h2⟩
      · exact Or.inl (hfr.1 h)
      · exact Or.inr (Or.inl (hfr.2.1 h))
      · exact Or.inr (Or.inr (Or.inl (hfr.2.2.1 h)))
      · exact Or.inl h
      · exact Or.inr (Or.inl h)
      · exact Or.inr (Or.inr (Or.inl h))
      · exact Or.inr (Or.inr (Or.inr (Or.inl h)))
      · exact Or.inr (Or.inr (Or.inr (Or.inr ⟨h, hfr.2.2.2 h2⟩)))
      · exact Or.inr (Or.inr (Or.inr (Or.inr ⟨h, h2⟩)))
    simp only [run, run.parse, hP, hv, if_true, Bool.false_eq_true, if_false]
    by_cases m1 : fl.mode = ""
    · simp [m1, exitInvalidUsage]
    by_cases m2 : fl.repoPath = ""
    · simp [m1, m2, exitInvalidUsage]
    by_cases m3 : fl.newFile = ""
    · simp [m1, m2, m3, exitInvalidUsage]
    rcases hc2 with h | h | h | h | ⟨h, h2⟩
    · exact absurd h m1
    · exact absurd h m2
    · exact absurd h m3
    · simp only [List.mem_cons, List.mem_singleton, not_or, List.mem_nil_iff, or_false] at h
      simp [m1, m2, m3, ParseMode, ModeUpsert, ModeExists, ModeMatch, h, exitInvalidUsage]
    · simp [m2, m3, ParseMode, ModeUpsert, ModeExists, ModeMatch, h, h2, exitInvalidUsage,
        Config.Validate]
  · intro rest err he hne
    rcases hP : flag.Parse {} rest with ⟨e, fl⟩
    rw [hP] at he
    simp only at he
    subst he
    simp [run, run.parse, hP, hne, exitInvalidUsage]
  · intro rest h
    rcases hP : flag.Parse {} rest with ⟨e, fl⟩
    rw [hP] at h
    simp only at h
    rcases h with h | ⟨h, h2⟩
    · subst h
      simp [run, run.parse, hP, exitSuccess]
    · subst h
      simp [run, run.parse, hP, h2, exitSuccess]

/-- Witness of C33: the argument lists of `TestRunMissingCommand`,
`TestRunUnknownCommand`, `TestRunMissingMode`, `TestRunMissingRepoPath`,
`TestRunMissingNewFile`, `TestRunInvalidMode` and
`TestRunMatchModeWithoutExpectSHA256` all give exit code 2 with the world
unchanged. -/
theorem run_invalid_usage_witness :
    run demoReader [] (demoWorld Node.absent) = (2, demoWorld Node.absent) ∧
    run demoReader ["unknown"] (demoWorld Node.absent) = (2, demoWorld Node.absent) ∧
    run demoReader ["apply", "--repo-path", "test.txt", "--new-file", "test.txt"]
      (demoWorld Node.absent) = (2, demoWorld Node.absent) ∧
    run demoReader ["apply", "--mode", "upsert", "--new-file", "test.txt"]
      (demoWorld Node.absent) = (2, demoWorld Node.absent) ∧
    run demoReader ["apply", "--mode", "upsert", "--repo-path", "test.txt"]
      (demoWorld Node.absent) = (2, demoWorld Node.absent) ∧
    run demoReader ["apply", "--mode", "invalid", "--repo-path", "test.txt", "--new-file",
      "test.txt"] (demoWorld Node.absent) = (2, demoWorld Node.absent) ∧
    run demoReader ["apply", "--mode", "match", "--repo-path", "test.txt", "--new-file",
      "test.txt"] (demoWorld Node.absent) = (2, demoWorld Node.absent) :=
  ⟨(run_invalid_usage demoReader (demoWorld Node.absent)).1,
   (run_invalid_usage demoReader (demoWorld Node.absent)).2.1 "unknown" [] (by decide),
   (run_invalid_usage demoReader (demoWorld Node.absent)).2.2.1
     ["--repo-path", "test.txt", "--new-file", "test.txt"] rfl rfl (Or.inl rfl),
   (run_invalid_usage demoReader (demoWorld Node.absent)).2.2.1
     ["--mode", "upsert", "--new-file", "test.txt"] rfl rfl (Or.inr (Or.inl rfl)),
   (run_invalid_usage demoReader (demoWorld Node.absent)).2.2.1
     ["--mode", "upsert", "--repo-path", "test.txt"] rfl rfl (Or.inr (Or.inr (Or.inl rfl))),
   (run_invalid_usage demoReader (demoWorld Node.absent)).2.2.1
     ["--mode", "invalid", "--repo-path", "test.txt", "--new-file", "test.txt"] rfl rfl
     (Or.inr (Or.inr (Or.inr (Or.inr (Or.inr (Or.inr (Or.inl (by decide)))))))),
   (run_invalid_usage demoReader (demoWorld Node.absent)).2.2.1
     ["--mode", "match", "--repo-path", "test.txt", "--new-file", "test.txt"] rfl rfl
     (Or.inr (Or.inr (Or.inr (Or.inr (Or.inr (Or.inr (Or.inr ⟨rfl, Or.inl rfl⟩)))))))⟩

/-- Counterexample to C33 as stated: after "apply", with `--mode`, `--repo-path`
and `--new-file` all missing, the argument lists of `TestRunApplyHelp` and of a
version request give exit code 0, not 2; so does an invalid mode together with
`--version`. -/
theorem run_invalid_usage_counterexample :
    flag.given "mode" ["-h"] = false ∧ flag.given "repo-path" ["-h"] = false ∧
    flag.given "new-file" ["-h"] = false ∧
    run demoReader ["apply", "-h"] (demoWorld Node.absent) = (0, demoWorld Node.absent) ∧
    flag.given "mode" ["--version"] = false ∧
    run demoReader ["apply", "--version"] (demoWorld Node.absent) =
      (0, demoWorld Node.absent) ∧
    run demoReader ["apply", "--mode", "invalid", "--version"] (demoWorld Node.absent) =
      (0, demoWorld Node.absent) :=
  ⟨rfl, rfl, rfl, rfl, rfl, rfl, rfl⟩

/-- C34: the decision does not depend on the dry-run flag. For every applier,
world and branch name `b`: the run with dry-run set returns "would update" with
branch `b` exactly when the run of the same configuration without dry-run makes
`CreateBranch b` its first mutating call; when the run without dry-run makes no
mutating call at all or returns "no action taken", or the run with dry-run
returns anything but "would update", the two runs return the same result and the
same error. -/
theorem Run_dry_run_equivalence (a : Applier) (w : World) (b : String) :
    (((a.withDryRun true).Run w).1.2 = none ∧
        ((a.withDryRun true).Run w).1.1.map Result.Action = some "would update" ∧
        ((a.withDryRun true).Run w).1.1.map Result.BranchName = some b ↔
      (((a.withDryRun false).callsOf w).filter Call.isMutating).head? =
        some (Call.CreateBranch b)) ∧
    (((a.withDryRun false).callsOf w).filter Call.isMutating = [] →
      ((a.withDryRun false).Run w).1 = ((a.withDryRun true).Run w).1) ∧
    (((a.withDryRun true).Run w).1.1.map Result.Action ≠ some "would update" →
      ((a.withDryRun false).Run w).1 = ((a.withDryRun true).Run w).1) ∧
    (((a.withDryRun false).Run w).1.1.map Result.Action = some "no action taken" →
      ((a.withDryRun false).Run w).1 = ((a.withDryRun true).Run w).1) := by
  have r1 : ∀ d, (a.withDryRun d).cfg.DryRun = d := fun _ => rfl
  have r2 : ∀ d, (a.withDryRun d).evalOutcome w.fs = a.evalOutcome w.fs := fun _ => rfl
  have r3 : ∀ d, (a.withDryRun d).evalCalls w.fs = a.evalCalls w.fs := fun _ => rfl
  have r4 : ∀ d, (a.withDryRun d).determineBranchName = a.determineBranchName := fun _ => rfl
  have hm : (a.evalCalls w.fs).filter Call.isMutating = [] :=
    List.filter_eq_nil_iff.mpr (fun c hc => by simp [evalCalls_not_mutating a w.fs c hc])
  have hne := determineBranchName_ne_empty a
  rcases hd : w.gitOps.DefaultBranchErr with _ | e
  swap
  · simp [Applier.callsOf, Applier.Run, World.GetDefaultBranch, MockOperations.GetDefaultBranch,
    World.GetCurrentBranch, MockOperations.GetCurrentBranch, World.IsWorkingTreeClean,
    MockOperations.IsWorkingTreeClean, World.afterChecks, Applier.afterEval, evaluateMode_eq,
    Applier.afterBranch, Applier.afterWrite, Applier.afterAdd, Applier.afterCommit,
    Applier.afterPush, Applier.afterPR, Applier.cleanup,
    World.CreateBranch, MockOperations.CreateBranch, World.WriteFile,
    World.AddFile, MockOperations.AddFile, World.Commit, MockOperations.Commit,
    World.Push, MockOperations.Push, World.CreatePR, MockOperations.CreatePR,
    World.SwitchBranch, MockOperations.SwitchBranch, Call.isMutating,
      List.filter_cons, List.filter_append, r1, r2, r3, r4, hm, hd]
  rcases hc : w.gitOps.CurrentBranchErr with _ | e
  swap
  · simp [Applier.callsOf, Applier.Run, World.GetDefaultBranch, MockOperations.GetDefaultBranch,
    World.GetCurrentBranch, MockOperations.GetCurrentBranch, World.IsWorkingTreeClean,
    MockOperations.IsWorkingTreeClean, World.afterChecks, Applier.afterEval, evaluateMode_eq,
    Applier.afterBranch, Applier.afterWrite, Applier.afterAdd, Applier.afterCommit,
    Applier.afterPush, Applier.afterPR, Applier.cleanup,
    World.CreateBranch, MockOperations.CreateBranch, World.WriteFile,
    World.AddFile, MockOperations.AddFile, World.Commit, MockOperations.Commit,
    World.Push, MockOperations.Push, World.CreatePR, MockOperations.CreatePR,
    World.SwitchBranch, MockOperations.SwitchBranch, Call.isMutating,
      List.filter_cons, List.filter_append, r1, r2, r3, r4, hm, hd, hc]
  by_cases hb : w.gitOps.CurrentBranch = w.gitOps.DefaultBranch
  swap
  · simp [Applier.callsOf, Applier.Run, World.GetDefaultBranch, MockOperations.GetDefaultBranch,
    World.GetCurrentBranch, MockOperations.GetCurrentBranch, World.IsWorkingTreeClean,
    MockOperations.IsWorkingTreeClean, World.afterChecks, Applier.afterEval, evaluateMode_eq,
    Applier.afterBranch, Applier.afterWrite, Applier.afterAdd, Applier.afterCommit,
    Applier.afterPush, Applier.afterPR, Applier.cleanup,
    World.CreateBranch, MockOperations.CreateBranch, World.WriteFile,
    World.AddFile, MockOperations.AddFile, World.Commit, MockOperations.Commit,
    World.Push, MockOperations.Push, World.CreatePR, MockOperations.CreatePR,
    World.SwitchBranch, MockOperations.SwitchBranch, Call.isMutating,
      List.filter_cons, List.filter_append, r1, r2, r3, r4, hm, hd, hc, hb]
  rcases hs : w.gitOps.IsCleanErr with _ | e
  swap
  · simp [Applier.callsOf, Applier.Run, World.GetDefaultBranch, MockOperations.GetDefaultBranch,
    World.GetCurrentBranch, MockOperations.GetCurrentBranch, World.IsWorkingTreeClean,
    MockOperations.IsWorkingTreeClean, World.afterChecks, Applier.afterEval, evaluateMode_eq,
    Applier.afterBranch, Applier.afterWrite, Applier.afterAdd, Applier.afterCommit,
    Applier.afterPush, Applier.afterPR, Applier.cleanup,
    World.CreateBranch, MockOperations.CreateBranch, World.WriteFile,
    World.AddFile, MockOperations.AddFile, World.Commit, MockOperations.Commit,
    World.Push, MockOperations.Push, World.CreatePR, MockOperations.CreatePR,
    World.SwitchBranch, MockOperations.SwitchBranch, Call.isMutating,
      List.filter_cons, List.filter_append, r1, r2, r3, r4, hm, hd, hc, hb, hs]
  cases hk : w.gitOps.IsClean
  · simp [Applier.callsOf, Applier.Run, World.GetDefaultBranch, MockOperations.GetDefaultBranch,
    World.GetCurrentBranch, MockOperations.GetCurrentBranch, World.IsWorkingTreeClean,
    MockOperations.IsWorkingTreeClean, World.afterChecks, Applier.afterEval, evaluateMode_eq,
    Applier.afterBranch, Applier.afterWrite, Applier.afterAdd, Applier.afterCommit,
    Applier.afterPush, Applier.afterPR, Applier.cleanup,
    World.CreateBranch, MockOperations.CreateBranch, World.WriteFile,
    World.AddFile, MockOperations.AddFile, World.Commit, MockOperations.Commit,
    World.Push, MockOperations.Push, World.CreatePR, MockOperations.CreatePR,
    World.SwitchBranch, MockOperations.SwitchBranch, Call.isMutating,
      List.filter_cons, List.filter_append, r1, r2, r3, r4, hm, hd, hc, hb, hs, hk]
  rcases he : a.evalOutcome w.fs with ⟨p, reason, _ | e⟩
  swap
  · simp [Applier.callsOf, Applier.Run, World.GetDefaultBranch, MockOperations.GetDefaultBranch,
    World.GetCurrentBranch, MockOperations.GetCurrentBranch, World.IsWorkingTreeClean,
    MockOperations.IsWorkingTreeClean, World.afterChecks, Applier.afterEval, evaluateMode_eq,
    Applier.afterBranch, Applier.afterWrite, Applier.afterAdd, Applier.afterCommit,
    Applier.afterPush, Applier.afterPR, Applier.cleanup,
    World.CreateBranch, MockOperations.CreateBranch, World.WriteFile,
    World.AddFile, MockOperations.AddFile, World.Commit, MockOperations.Commit,
    World.Push, MockOperations.Push, World.CreatePR, MockOperations.CreatePR,
    World.SwitchBranch, MockOperations.SwitchBranch, Call.isMutating,
      List.filter_cons, List.filter_append, r1, r2, r3, r4, hm, hd, hc, hb, hs, hk, he]
  cases p
  · simp [Applier.callsOf, Applier.Run, World.GetDefaultBranch, MockOperations.GetDefaultBranch,
    World.GetCurrentBranch, MockOperations.GetCurrentBranch, World.IsWorkingTreeClean,
    MockOperations.IsWorkingTreeClean, World.afterChecks, Applier.afterEval, evaluateMode_eq,
    Applier.afterBranch, Applier.afterWrite, Applier.afterAdd, Applier.afterCommit,
    Applier.afterPush, Applier.afterPR, Applier.cleanup,
    World.CreateBranch, MockOperations.CreateBranch, World.WriteFile,
    World.AddFile, MockOperations.AddFile, World.Commit, MockOperations.Commit,
    World.Push, MockOperations.Push, World.CreatePR, MockOperations.CreatePR,
    World.SwitchBranch, MockOperations.SwitchBranch, Call.isMutating,
      List.filter_cons, List.filter_append, r1, r2, r3, r4, hm, hd, hc, hb, hs, hk, he]
  have hT : ((a.withDryRun true).Run w).1 =
      (some { DefaultBranch := w.gitOps.DefaultBranch, BranchName := a.determineBranchName,
              Action := "would update" }, none) := by
    simp [Applier.callsOf, Applier.Run, World.GetDefaultBranch, MockOperations.GetDefaultBranch,
    World.GetCurrentBranch, MockOperations.GetCurrentBranch, World.IsWorkingTreeClean,
    MockOperations.IsWorkingTreeClean, World.afterChecks, Applier.afterEval, evaluateMode_eq,
    Applier.afterBranch, Applier.afterWrite, Applier.afterAdd, Applier.afterCommit,
    Applier.afterPush, Applier.afterPR, Applier.cleanup,
    World.CreateBranch, MockOperations.CreateBranch, World.WriteFile,
    World.AddFile, MockOperations.AddFile, World.Commit, MockOperations.Commit,
    World.Push, MockOperations.Push, World.CreatePR, MockOperations.CreatePR,
    World.SwitchBranch, MockOperations.SwitchBranch, Call.isMutating,
      List.filter_cons, List.filter_append, r1, r2, r3, r4, hm, hd, hc, hb, hs, hk, he]
  have hF : (((a.withDryRun false).callsOf w).filter Call.isMutating).head? =
      some (Call.CreateBranch a.determineBranchName) := by
    unfold Applier.callsOf
    apply Run_cases (a.withDryRun false) w (fun o =>
      ((o.2.calls.drop w.calls.length).filter Call.isMutating).head? =
        some (Call.CreateBranch a.determineBranchName))
    all_goals intros
    all_goals simp_all [Healthy, World.afterChecks, Applier.afterEval,
    Applier.afterBranch, Applier.afterWrite, Applier.afterAdd, Applier.afterCommit,
    Applier.afterPush, Applier.afterPR, World.CreateBranch, MockOperations.CreateBranch,
    World.WriteFile, World.AddFile, MockOperations.AddFile, World.Commit,
    MockOperations.Commit, World.Push, MockOperations.Push, World.CreatePR,
    MockOperations.CreatePR, World.SwitchBranch, MockOperations.SwitchBranch,
      List.filter_cons, List.filter_append, Call.isMutating]
  have hN : ((a.withDryRun false).Run w).1.1.map Result.Action ≠ some "no action taken" := by
    apply Run_cases (a.withDryRun false) w (fun o =>
      o.1.1.map Result.Action ≠ some "no action taken")
    all_goals intros
    all_goals simp_all
  refine ⟨?_, ?_, ?_, ?_⟩
  · rw [hT, hF]
    simp
  · intro h0
    rw [h0] at hF
    simp at hF
  · intro h0
    rw [hT] at h0
    simp at h0
  · intro h0
    exact absurd h0 hN

set_option maxRecDepth 1000000 in
/-- Witness of C34: in the scenario of `TestApplierDryRun` the run without
dry-run makes `CreateBranch` on the derived branch its first mutating call, and
the run with dry-run returns "would update" with that branch. -/
theorem Run_dry_run_equivalence_witness :
    ((Applier.callsOf ((demoApplier ModeUpsert "" demoNew).withDryRun false)
      (demoWorld Node.absent)).filter Call.isMutating).head? =
      some (Call.CreateBranch "bulkfilepr/1c3ef9a7c817") ∧
    (Applier.Run ((demoApplier ModeUpsert "" demoNew).withDryRun true)
      (demoWorld Node.absent)).1.1.map Result.BranchName = some "bulkfilepr/1c3ef9a7c817" :=
  ⟨rfl, ((Run_dry_run_equivalence (demoApplier ModeUpsert "" demoNew) (demoWorld Node.absent)
    "bulkfilepr/1c3ef9a7c817").1.2 rfl).2.2⟩

/-- C36: `Run` returns exactly one of a result and an error: for every
applier and every world, either the error is nil and there is a result, or
there is an error and the result is nil. -/
theorem Run_result_xor_error (a : Applier) (w : World) :
    ((a.Run w).1.2 = none ∧ (a.Run w).1.1 ≠ none) ∨
    ((a.Run w).1.2 ≠ none ∧ (a.Run w).1.1 = none) := by
  apply Run_cases a w (fun o => (o.1.2 = none ∧ o.1.1 ≠ none) ∨ (o.1.2 ≠ none ∧ o.1.1 = none))
  all_goals intros
  all_goals simp

/-- C37: in mode match, with healthy preconditions and an existing destination
file, the test of the fingerprint is equality of the whole `ExpectSHA256` string
with the lowercase hex digest of the file: whenever the two strings differ,
`Run` returns "no action taken" with the hash-mismatch reason instead of
proceeding; in particular when `ExpectSHA256` is the digest in uppercase (the
digest having a letter), or the digest with white space, or anything else,
before or after it. -/
theorem Run_match_exact_equality (a : Applier) (w : World) (existing : Bytes)
    (hmode : a.cfg.Mode = ModeMatch) (hh : Healthy w) (hc : DestHasContent a w existing) :
    (a.cfg.ExpectSHA256 ≠ SHA256Bytes existing →
      (a.Run w).1 = (some { DefaultBranch := w.gitOps.DefaultBranch,
                            Action := "no action taken",
                            NoActionReason := "file hash mismatch: expected " ++
                              a.cfg.ExpectSHA256 ++ ", got " ++ SHA256Bytes existing },
                     none)) ∧
    (a.cfg.ExpectSHA256 = String.mk ((SHA256Bytes existing).data.map Char.toUpper) →
      (∃ c ∈ (SHA256Bytes existing).data, c.toUpper ≠ c) →
      a.cfg.ExpectSHA256 ≠ SHA256Bytes existing) ∧
    (∀ pre post, a.cfg.ExpectSHA256 = pre ++ SHA256Bytes existing ++ post →
      pre ≠ "" ∨ post ≠ "" → a.cfg.ExpectSHA256 ≠ SHA256Bytes existing) ∧
    ((a.evaluateMode w).1.1 = true → a.cfg.ExpectSHA256 = SHA256Bytes existing) := by
  obtain ⟨h1, h2, h3, h4, h5⟩ := hh
  obtain ⟨c1, c2⟩ := hc
  refine ⟨?_, ?_, ?_, ?_⟩
  · intro hne
    have hne2 : SHA256Bytes existing ≠ a.cfg.ExpectSHA256 := fun h => hne h.symm
    simp [Applier.callsOf, Applier.Run, World.GetDefaultBranch, MockOperations.GetDefaultBranch,
    World.GetCurrentBranch, MockOperations.GetCurrentBranch, World.IsWorkingTreeClean,
    MockOperations.IsWorkingTreeClean, Applier.evaluateMode, World.FileExists, World.ReadFile,
    ModeUpsert, ModeExists, ModeMatch, Call.isMutating, *]
  · intro he hup
    rw [he]
    exact upper_ne _ hup
  · intro pre post he hp
    rw [he]
    exact padded_ne _ _ _ hp
  · by_cases he : SHA256Bytes existing = a.cfg.ExpectSHA256
    · intro _
      exact he.symm
    · simp [Applier.evaluateMode, World.FileExists, World.ReadFile, ModeUpsert, ModeExists,
        ModeMatch, *]

/-- Witness of C37: the digest of the existing file in uppercase is not accepted. -/
theorem Run_match_exact_equality_witness :
    (Applier.Run
      (demoApplier ModeMatch "10F0BC8D9C3FB4D49A55E289239694B7588D4CD9A285A7B2751D361100099AEB"
        demoNew) (demoWorld (Node.file demoExisting))).1 =
      (some { DefaultBranch := "main", Action := "no action taken",
              NoActionReason := "file hash mismatch: expected " ++
                "10F0BC8D9C3FB4D49A55E289239694B7588D4CD9A285A7B2751D361100099AEB" ++
                ", got " ++ SHA256Bytes demoExisting }, none) :=
  (Run_match_exact_equality
    (demoApplier ModeMatch "10F0BC8D9C3FB4D49A55E289239694B7588D4CD9A285A7B2751D361100099AEB"
      demoNew) (demoWorld (Node.file demoExisting)) demoExisting rfl
    ⟨rfl, rfl, rfl, rfl, rfl⟩ ⟨rfl, rfl⟩).1 (by decide!)

end Bulkfilepr
